import Mathlib

/-!
# iso-kit: directory records and Joliet identifiers

A shallow embedding of `pkg/directory/record.go` (the `DirectoryRecord`
decoder, `DecodeJolietName`, `trimNullPadding`, `validateJolietCharacters`)
together with the pieces of the Go runtime and standard library those
functions lean on (`binary.LittleEndian`, `utf16.Decode`, the UTF-8 encoder
behind `string([]rune)` and the UTF-8 decoder behind `for range` on a string).

Conventions.
* A byte is a `Fin 256`; a Go `[]byte` and a Go `string` are both `List Byte`
  (a Go string is its UTF-8 bytes). A nil slice and an empty slice are both `[]`.
* Machine integers are natural numbers; wrap-around of `uint8` arithmetic is
  written out as `% 256`. A Go `rune` is a natural number as well: only
  non-negative runes occur.
* A run-time panic of the Go program (index or slice bounds out of range) is an
  explicit outcome, `Outcome.fault`, distinct from a returned `error`.
-/

namespace IsoKit

/-- One octet of the image. -/
abbrev Byte := Fin 256

deriving instance DecidableEq for Except

/-! ## Go slices -/

/-- Go index expression `data[i]`: `none` is the run-time panic
"index out of range". -/
def index (data : List Byte) (i : Nat) : Option Byte :=
  if i < data.length then some (data.getD i 0) else none

/-- Go slice expression `data[lo:hi]`: `none` is the run-time panic
"slice bounds out of range" (raised when `hi` exceeds the window or `lo > hi`). -/
def slice (data : List Byte) (lo hi : Nat) : Option (List Byte) :=
  if hi ≤ data.length ∧ lo ≤ hi then some ((data.take hi).drop lo) else none

/-- Go slice expression `data[lo:]`. -/
def sliceFrom (data : List Byte) (lo : Nat) : Option (List Byte) :=
  slice data lo data.length

/-! ## encoding/binary -/

/-- The function `binary.LittleEndian.Uint16`; `none` is the panic on a short slice. -/
def leUint16 : List Byte → Option Nat
  | b0 :: b1 :: _ => some (b0.val ||| (b1.val <<< 8))
  | _ => none

/-- The function `binary.LittleEndian.Uint32`; `none` is the panic on a short slice. -/
def leUint32 : List Byte → Option Nat
  | b0 :: b1 :: b2 :: b3 :: _ =>
    some (b0.val ||| (b1.val <<< 8) ||| (b2.val <<< 16) ||| (b3.val <<< 24))
  | _ => none

/-- The function `binary.BigEndian.Uint16` on the first two bytes of a slice. -/
def beUint16 : List Byte → Option Nat
  | b0 :: b1 :: _ => some (b1.val ||| (b0.val <<< 8))
  | _ => none

/-- The function `binary.BigEndian.Uint32` on the first four bytes of a slice. -/
def beUint32 : List Byte → Option Nat
  | b0 :: b1 :: b2 :: b3 :: _ =>
    some (b3.val ||| (b2.val <<< 8) ||| (b1.val <<< 16) ||| (b0.val <<< 24))
  | _ => none

/-- The call `binary.Read(bytes.NewReader(data), binary.BigEndian, &utf16Chars)`
with `utf16Chars` of length `len(data)/2`: consecutive big-endian 16-bit units.
A trailing odd byte is not read. -/
def readUint16sBE : List Byte → List Nat
  | b0 :: b1 :: rest => (b1.val ||| (b0.val <<< 8)) :: readUint16sBE rest
  | _ => []

/-! ## unicode/utf16 -/

def surr1 : Nat := 0xd800
def surr2 : Nat := 0xdc00
def surr3 : Nat := 0xe000
def surrSelf : Nat := 0x10000
def replacementChar : Nat := 0xFFFD

/-- The value `utf16.DecodeRune` returns on a valid surrogate pair. -/
def utf16DecodeRune (r1 r2 : Nat) : Nat :=
  (((r1 - surr1) <<< 10) ||| (r2 - surr2)) + surrSelf

/-- The function `utf16.Decode`: a unit outside the surrogate range is a rune;
a high surrogate followed by a low surrogate is one rune and consumes both
units; any other surrogate becomes U+FFFD and consumes one unit. -/
def utf16Decode : List Nat → List Nat
  | [] => []
  | [r] => if r < surr1 ∨ surr3 ≤ r then [r] else [replacementChar]
  | r :: r2 :: rest =>
    if r < surr1 ∨ surr3 ≤ r then r :: utf16Decode (r2 :: rest)
    else if surr1 ≤ r ∧ r < surr2 ∧ surr2 ≤ r2 ∧ r2 < surr3 then
      utf16DecodeRune r r2 :: utf16Decode rest
    else replacementChar :: utf16Decode (r2 :: rest)

/-! ## UTF-8 in the Go runtime -/

def rune1Max : Nat := 0x7F
def rune2Max : Nat := 0x7FF
def rune3Max : Nat := 0xFFFF
def maxRune : Nat := 0x10FFFF
def surrogateMin : Nat := 0xD800
def surrogateMax : Nat := 0xDFFF
def runeError : Nat := 0xFFFD

/-- Go conversion `byte(x)`. -/
def toByte (x : Nat) : Byte := ⟨x % 256, Nat.mod_lt _ (by decide)⟩

/-- The three-byte form written by `encoderune`. -/
def encode3 (r : Nat) : List Byte :=
  [toByte (0xE0 ||| (toByte (r >>> 12)).val),
   toByte (0x80 ||| ((toByte (r >>> 6)).val &&& 0x3F)),
   toByte (0x80 ||| ((toByte r).val &&& 0x3F))]

/-- Runtime `encoderune`: the UTF-8 bytes of one rune; runes above `maxRune`
and surrogates are written as U+FFFD. -/
def encoderune (r : Nat) : List Byte :=
  if r ≤ rune1Max then [toByte r]
  else if r ≤ rune2Max then
    [toByte (0xC0 ||| (toByte (r >>> 6)).val), toByte (0x80 ||| ((toByte r).val &&& 0x3F))]
  else if maxRune < r ∨ (surrogateMin ≤ r ∧ r ≤ surrogateMax) then encode3 runeError
  else if r ≤ rune3Max then encode3 r
  else
    [toByte (0xF0 ||| (toByte (r >>> 18)).val),
     toByte (0x80 ||| ((toByte (r >>> 12)).val &&& 0x3F)),
     toByte (0x80 ||| ((toByte (r >>> 6)).val &&& 0x3F)),
     toByte (0x80 ||| ((toByte r).val &&& 0x3F))]

/-- Go conversion `string(runes)` for `runes []rune`. -/
def runesToString (rs : List Nat) : List Byte :=
  rs.flatMap encoderune

/-- A continuation byte, `locb <= b && b <= hicb`. -/
def isCont (b : Byte) : Bool := decide (0x80 ≤ b.val ∧ b.val ≤ 0xBF)

/-- Runtime `decoderune` at the head of a non-empty string: the rune and the
number of bytes it occupies. Malformed input yields `(runeError, 1)`. The
single-byte case is the fast path of the `for range` loop. -/
def decoderune : List Byte → Nat × Nat
  | [] => (runeError, 1)
  | s0 :: rest =>
    if s0.val < 0x80 then (s0.val, 1)
    else if 0xC0 ≤ s0.val ∧ s0.val < 0xE0 then
      match rest with
      | s1 :: _ =>
        if isCont s1 then
          let r := ((s0.val &&& 0x1F) <<< 6) ||| (s1.val &&& 0x3F)
          if rune1Max < r then (r, 2) else (runeError, 1)
        else (runeError, 1)
      | _ => (runeError, 1)
    else if 0xE0 ≤ s0.val ∧ s0.val < 0xF0 then
      match rest with
      | s1 :: s2 :: _ =>
        if isCont s1 ∧ isCont s2 then
          let r := ((s0.val &&& 0x0F) <<< 12) ||| ((s1.val &&& 0x3F) <<< 6) ||| (s2.val &&& 0x3F)
          if rune2Max < r ∧ ¬ (surrogateMin ≤ r ∧ r ≤ surrogateMax) then (r, 3)
          else (runeError, 1)
        else (runeError, 1)
      | _ => (runeError, 1)
    else if 0xF0 ≤ s0.val ∧ s0.val < 0xF8 then
      match rest with
      | s1 :: s2 :: s3 :: _ =>
        if isCont s1 ∧ isCont s2 ∧ isCont s3 then
          let r := ((s0.val &&& 0x07) <<< 18) ||| ((s1.val &&& 0x3F) <<< 12)
                    ||| ((s2.val &&& 0x3F) <<< 6) ||| (s3.val &&& 0x3F)
          if rune3Max < r ∧ r ≤ maxRune then (r, 4) else (runeError, 1)
        else (runeError, 1)
      | _ => (runeError, 1)
    else (runeError, 1)

/-! ## Joliet identifiers (`pkg/directory/record.go`) -/

/-- The loop of `trimNullPadding`; `fuel` bounds the number of iterations. -/
def trimLoop : Nat → List Byte → List Byte
  | 0, s => s
  | fuel + 1, s =>
    if 0 < s.length ∧ s.getLast? = some 0 then trimLoop fuel s.dropLast else s

/-- Removes trailing null bytes from the string. Each iteration shortens the
string, so `len(s)` iterations always suffice. -/
def trimNullPadding (s : List Byte) : List Byte :=
  trimLoop s.length s

/-- The character test of `validateJolietCharacters`. -/
def forbiddenRune (r : Nat) : Bool :=
  decide (r ≤ 0x001F ∨ r = 0x002A ∨ r = 0x002F ∨ r = 0x003A ∨
    r = 0x003B ∨ r = 0x003F ∨ r = 0x005C)

/-- Errors returned by `DecodeJolietName`. -/
inductive JolietError
  /-- Text "invalid single-byte directory identifier: 0x%02X". -/
  | invalidSingleByte (b : Byte)
  /-- Text "invalid Joliet file identifier: odd byte length". -/
  | oddLength
  /-- Text "invalid character 0x%04X in Joliet file identifier". -/
  | invalidCharacter (r : Nat)
  deriving DecidableEq, Repr

/-- The `for _, r := range name` loop of `validateJolietCharacters`; `none` is
a nil error. Each iteration consumes at least one byte, so `fuel = len(name)`
always reaches the end of the string. -/
def validateLoop : Nat → List Byte → Option JolietError
  | 0, _ => none
  | fuel + 1, s =>
    if s.length = 0 then none
    else
      let (r, size) := decoderune s
      if forbiddenRune r then some (JolietError.invalidCharacter r)
      else validateLoop fuel (s.drop size)

/-- Ensures the decoded name complies with the allowed UCS-2 characters. -/
def validateJolietCharacters (name : List Byte) : Option JolietError :=
  validateLoop name.length name

/-- Converts a Joliet file identifier (UTF-16BE) into a Go string. The three
patterns are the tests `len(data) == 0`, `len(data) == 1` and the rest. -/
def DecodeJolietName (data : List Byte) : Except JolietError (List Byte) :=
  match data with
  | [] => Except.ok []
  | [b] =>
    if b = 0x00 then Except.ok [0x2E]
    else if b = 0x01 then Except.ok [0x2E, 0x2E]
    else Except.error (JolietError.invalidSingleByte b)
  | _ :: _ :: _ =>
    if data.length % 2 ≠ 0 then Except.error JolietError.oddLength
    else
      let utf16Chars := readUint16sBE data
      let name := runesToString (utf16Decode utf16Chars)
      let name := trimNullPadding name
      match validateJolietCharacters name with
      | some e => Except.error e
      | none => Except.ok name

/-! ## Directory records (`pkg/directory/record.go`) -/

/-- The interface of package `susp` as `DirectoryRecord.Unmarshal` uses it.
The package is not part of the sources at hand, so its types and functions
are parameters of the development. `GetSystemUseEntries` stands for the call
`susp.GetSystemUseEntries(dr.SystemUse, isoFile, dr.logger)` with the image
reader and the logger fixed. -/
structure SuspPackage where
  Entries : Type
  ExtensionRecord : Type
  PosixEntry : Type
  Timestamps : Type
  Error : Type
  GetSystemUseEntries : List Byte → Except Error Entries
  GetExtensionRecords : Entries → Except Error (List ExtensionRecord)
  HasRockRidge : Entries → Bool
  RockRidgeName : Entries → Option (List Byte)
  RockRidgePermissions : Entries → Option PosixEntry
  RockRidgeTimestamps : Entries → Option Timestamps

/-- DirectoryRecord represents a single Record in a directory. Pointer fields
are options (`none` is nil); `FileFlags` holds the byte handed to
`FileFlags.Set`. The logger is left out. -/
structure DirectoryRecord (S : SuspPackage) where
  LengthOfDirectoryRecord : Nat
  ExtendedAttributeRecord : Nat
  LocationOfExtent : Nat
  DataLength : Nat
  RecordingDateAndTime : List Byte
  FileFlags : Option Byte
  FileUnitSize : Nat
  InterleaveGapSize : Nat
  VolumeSequenceNumber : Nat
  FileIdentifierLength : Nat
  FileIdentifier : List Byte
  PaddingField : List Byte
  SystemUse : List Byte
  SystemUseEntries : Option S.Entries
  ExtensionRecords : List S.ExtensionRecord
  Joliet : Bool
  hasRockRidge : Bool
  rockRidgeName : Option (List Byte)
  rockRidgePermissions : Option S.PosixEntry
  rockRidgeTimestamps : Option S.Timestamps

/-- The composite literal `DirectoryRecord{Joliet: joliet}`: every other field
has its zero value. -/
def zeroRecord (S : SuspPackage) (joliet : Bool) : DirectoryRecord S where
  LengthOfDirectoryRecord := 0
  ExtendedAttributeRecord := 0
  LocationOfExtent := 0
  DataLength := 0
  RecordingDateAndTime := []
  FileFlags := none
  FileUnitSize := 0
  InterleaveGapSize := 0
  VolumeSequenceNumber := 0
  FileIdentifierLength := 0
  FileIdentifier := []
  PaddingField := []
  SystemUse := []
  SystemUseEntries := none
  ExtensionRecords := []
  Joliet := joliet
  hasRockRidge := false
  rockRidgeName := none
  rockRidgePermissions := none
  rockRidgeTimestamps := none

/-- NewRecord creates a new DirectoryRecord instance. -/
def NewRecord (S : SuspPackage) : DirectoryRecord S := zeroRecord S false

/-- Errors returned by `DirectoryRecord.Unmarshal`. -/
inductive UnmarshalError (E : Type)
  /-- Text "invalid data length". -/
  | invalidDataLength
  /-- Text "invalid data length for RecordingDateAndTime". -/
  | invalidRecordingDateLength
  /-- Text "file identifier extends beyond provided data". -/
  | identifierBeyondData
  /-- Text "failed to decode Joliet name: %w". -/
  | jolietDecode (e : JolietError)
  /-- An error handed up from package `susp`. -/
  | susp (e : E)
  deriving DecidableEq

/-- How a call of `Unmarshal` ends: it returns nil, it returns an error, or
the program panics on an out-of-range index or slice. -/
inductive Outcome (E : Type)
  | nil
  | error (e : UnmarshalError E)
  | fault
  deriving DecidableEq

/-- Step 4 of `Unmarshal`: the System Use Area from `systemUseStart`
(a `uint8`) to the end of the window, and its SUSP entries. -/
def unmarshalSystemUse (S : SuspPackage) (dr : DirectoryRecord S) (data : List Byte)
    (systemUseStart : Nat) : DirectoryRecord S × Outcome S.Error :=
  if systemUseStart > data.length then (dr, Outcome.nil)
  else
    match sliceFrom data systemUseStart with
    | none => (dr, Outcome.fault)
    | some systemUse =>
      if systemUse.length > 0 then
        let dr := { dr with SystemUse := systemUse }
        match S.GetSystemUseEntries dr.SystemUse with
        | Except.error e => (dr, Outcome.error (UnmarshalError.susp e))
        | Except.ok entries =>
          let dr := { dr with SystemUseEntries := some entries }
          match S.GetExtensionRecords entries with
          | Except.error e => (dr, Outcome.error (UnmarshalError.susp e))
          | Except.ok extensionRecords =>
            let dr := { dr with ExtensionRecords := extensionRecords,
                                hasRockRidge := S.HasRockRidge entries }
            if dr.hasRockRidge then
              let dr :=
                if dr.FileIdentifier ≠ [0x00] ∧ dr.FileIdentifier ≠ [0x01] then
                  { dr with rockRidgeName := S.RockRidgeName entries }
                else dr
              ({ dr with rockRidgePermissions := S.RockRidgePermissions entries,
                         rockRidgeTimestamps := S.RockRidgeTimestamps entries }, Outcome.nil)
            else (dr, Outcome.nil)
      else (dr, Outcome.nil)

/-- Step 3 of `Unmarshal`: the system-use start, a `uint8`, and the padding
byte that follows an identifier of even length. -/
def unmarshalPadding (S : SuspPackage) (dr : DirectoryRecord S) (data : List Byte) :
    DirectoryRecord S × Outcome S.Error :=
  let systemUseStart := (33 + dr.FileIdentifierLength) % 256
  if dr.FileIdentifierLength % 2 = 0 then
    if systemUseStart ≥ data.length then (dr, Outcome.nil)
    else
      match index data systemUseStart with
      | none => (dr, Outcome.fault)
      | some b =>
        unmarshalSystemUse S { dr with PaddingField := [b] } data ((systemUseStart + 1) % 256)
  else unmarshalSystemUse S { dr with PaddingField := [] } data systemUseStart

/-- Step 2 of `Unmarshal`: the file identifier, Joliet or not. The sum
`33+dr.FileIdentifierLength` is a `uint8` sum. -/
def unmarshalIdentifier (S : SuspPackage) (dr : DirectoryRecord S) (data : List Byte) :
    DirectoryRecord S × Outcome S.Error :=
  if (33 + dr.FileIdentifierLength) % 256 > data.length then
    (dr, Outcome.error UnmarshalError.identifierBeyondData)
  else
    match slice data 33 ((33 + dr.FileIdentifierLength) % 256) with
    | none => (dr, Outcome.fault)
    | some rawIdentifier =>
      if dr.Joliet = true ∧ dr.FileIdentifierLength ≠ 1 then
        match DecodeJolietName rawIdentifier with
        | Except.error e => (dr, Outcome.error (UnmarshalError.jolietDecode e))
        | Except.ok jolietName =>
          unmarshalPadding S { dr with FileIdentifier := jolietName } data
      else unmarshalPadding S { dr with FileIdentifier := rawIdentifier } data

/-- Unmarshal decodes a DirectoryRecord from binary form. The result is the
record as the call leaves it and the way the call ends. -/
def Unmarshal (S : SuspPackage) (dr : DirectoryRecord S) (data : List Byte) :
    DirectoryRecord S × Outcome S.Error :=
  if data.length < 33 then (dr, Outcome.error UnmarshalError.invalidDataLength)
  else
    match index data 0, index data 1, (slice data 2 6).bind leUint32,
      (slice data 10 14).bind leUint32 with
    | some b0, some b1, some locationOfExtent, some dataLength =>
      let dr := { dr with LengthOfDirectoryRecord := b0.val,
                          ExtendedAttributeRecord := b1.val,
                          LocationOfExtent := locationOfExtent,
                          DataLength := dataLength }
      if data.length < 25 then (dr, Outcome.error UnmarshalError.invalidRecordingDateLength)
      else
        match slice data 18 25, index data 25, index data 26, index data 27,
          (slice data 28 30).bind leUint16, index data 32 with
        | some tempRDT, some b25, some b26, some b27, some volumeSequenceNumber, some b32 =>
          unmarshalIdentifier S
            { dr with RecordingDateAndTime := tempRDT,
                      FileFlags := some b25,
                      FileUnitSize := b26.val,
                      InterleaveGapSize := b27.val,
                      VolumeSequenceNumber := volumeSequenceNumber,
                      FileIdentifierLength := b32.val } data
        | _, _, _, _, _, _ => (dr, Outcome.fault)
    | _, _, _, _ => (dr, Outcome.fault)

/-- A `susp` package with no content: every call succeeds and finds nothing. -/
@[reducible]
def nullSusp : SuspPackage where
  Entries := Unit
  ExtensionRecord := Unit
  PosixEntry := Unit
  Timestamps := Unit
  Error := Unit
  GetSystemUseEntries := fun _ => Except.ok ()
  GetExtensionRecords := fun _ => Except.ok []
  HasRockRidge := fun _ => false
  RockRidgeName := fun _ => none
  RockRidgePermissions := fun _ => none
  RockRidgeTimestamps := fun _ => none

/-! ## Volume descriptors (`pkg/descriptor`) -/

/-- The interface of package `encoding` as the volume descriptors use it. The
package is not part of the sources at hand, so its functions are parameters.
A Go result `(value, err)` is a pair whose second component is `none` for a
nil error. -/
structure EncodingPackage where
  Error : Type
  UnmarshalInt32LSBMSB : List Byte → Int × Option Error
  UnmarshalInt16LSBMSB : List Byte → Int × Option Error

/-- The part of package `directory` around `DirectoryEntry` that the volume
descriptors use. The type and its functions are not part of the sources at
hand, so they are parameters. `NewEntry record useRR` stands for the call
`directory.NewEntry(record, isoFile, useRR, logger)`, `EntryLiteral record`
for the composite literal `&DirectoryEntry{Record: &record, IsoReader: isoFile}`
and `GetChildren entry` for `entry.GetChildren()`, with the image reader and
the logger fixed. -/
structure DirectoryPackage (S : SuspPackage) where
  DirectoryEntry : Type
  Error : Type
  NewEntry : DirectoryRecord S → Bool → DirectoryEntry
  EntryLiteral : DirectoryRecord S → DirectoryEntry
  GetChildren : DirectoryEntry → Except Error (List DirectoryEntry)

/-- Modelled from the spec: the constant `consts.ISO9660_STD_IDENTIFIER`, whose
package is not under src; the spec and the field comment
(`standardIdentifier // Always "CD001"`) give the text "CD001". -/
def ISO9660_STD_IDENTIFIER : List Byte := [0x43, 0x44, 0x30, 0x30, 0x31]

/-- Modelled from the spec: the constant `consts.ISO9660_VOLUME_DESC_VERSION`,
whose package is not under src; the field comment says "Always 1". -/
def ISO9660_VOLUME_DESC_VERSION : Int := 1

/-- Modelled from the spec: the constant `VolumeDescriptorPrimary`, whose
declaration is not under src; the field comment says "Always 1". -/
def VolumeDescriptorPrimary : Nat := 1

/-- Modelled from the spec: the constant `consts.JOLIET__LEVEL_1_ESCAPE`, whose
package is not under src; the spec gives the escape sequence `%/@`. -/
def JOLIET__LEVEL_1_ESCAPE : List Byte := [0x25, 0x2F, 0x40]

/-- Modelled from the spec: the constant `consts.JOLIET__LEVEL_2_ESCAPE`, whose
package is not under src; the spec gives the escape sequence `%/C`. -/
def JOLIET__LEVEL_2_ESCAPE : List Byte := [0x25, 0x2F, 0x43]

/-- Modelled from the spec: the constant `consts.JOLIET__LEVEL_3_ESCAPE`, whose
package is not under src; the spec gives the escape sequence `%/E`. -/
def JOLIET__LEVEL_3_ESCAPE : List Byte := [0x25, 0x2F, 0x45]

/-- Slice `data[lo:hi]` of the sector, an array of 2048 bytes, with constant
bounds: the bounds are checked when the program is compiled, so there is no
panic to model. -/
def arraySlice (data : List Byte) (lo hi : Nat) : List Byte :=
  (data.take hi).drop lo

/-- Index `data[i]` into the sector array with a constant index. -/
def arrayIndex (data : List Byte) (i : Nat) : Byte :=
  data.getD i 0

/-- Go conversion `int8(b)` of a byte. -/
def toInt8 (b : Byte) : Int :=
  if b.val < 128 then (b.val : Int) else (b.val : Int) - 256

/-- Errors returned by the `Unmarshal` of a volume descriptor: one from the
root directory record or one from package `encoding`. -/
inductive DescriptorError (ES EE : Type)
  | record (e : UnmarshalError ES)
  | encoding (e : EE)
  deriving DecidableEq

/-- How the `Unmarshal` of a volume descriptor ends. -/
inductive DescriptorOutcome (ES EE : Type)
  | nil
  | error (e : DescriptorError ES EE)
  | fault
  deriving DecidableEq

/-- PrimaryVolumeDescriptor represents the primary volume descriptor of an
ISO 9660 image. Arrays are lists of their fixed length; the path table, the
image reader and the logger are left out. -/
structure PrimaryVolumeDescriptor (S : SuspPackage) (D : DirectoryPackage S) where
  rawData : List Byte
  vdType : Nat
  standardIdentifier : List Byte
  volumeDescriptorVersion : Int
  UnusedField1 : List Byte
  SystemIdentifier : List Byte
  VolumeIdentifier : List Byte
  UnusedField2 : List Byte
  VolumeSpaceSize : Int
  UnusedField3 : List Byte
  VolumeSetSize : Int
  VolumeSequenceNumber : Int
  LogicalBlockSize : Int
  pathTableSize : Int
  LPathTableLocation : Nat
  LOptionalPathTableLocation : Nat
  MPathTableLocation : Nat
  MOptionalPathTableLocation : Nat
  RootDirectoryEntry : Option D.DirectoryEntry
  VolumeSetIdentifier : List Byte
  PublisherIdentifier : List Byte
  DataPreparerIdentifier : List Byte
  ApplicationIdentifier : List Byte
  CopyRightFileIdentifier : List Byte
  AbstractFileIdentifier : List Byte
  BibliographicFileIdentifier : List Byte
  VolumeCreationDate : List Byte
  VolumeModificationDate : List Byte
  VolumeExpirationDate : List Byte
  VolumeEffectiveDate : List Byte
  FileStructureVersion : Nat
  UnusedField4 : Nat
  ApplicationUse : List Byte
  UnusedField5 : List Byte
  useRR : Bool

/-- The composite literal `&PrimaryVolumeDescriptor{isoFile: ..., logger: ...,
useRR: useRR}` of `ParsePrimaryVolumeDescriptor`: every other field has its
zero value. -/
def zeroPrimaryVolumeDescriptor (S : SuspPackage) (D : DirectoryPackage S) (useRR : Bool) :
    PrimaryVolumeDescriptor S D where
  rawData := List.replicate 2048 0
  vdType := 0
  standardIdentifier := []
  volumeDescriptorVersion := 0
  UnusedField1 := List.replicate 1 0
  SystemIdentifier := []
  VolumeIdentifier := []
  UnusedField2 := List.replicate 8 0
  VolumeSpaceSize := 0
  UnusedField3 := List.replicate 32 0
  VolumeSetSize := 0
  VolumeSequenceNumber := 0
  LogicalBlockSize := 0
  pathTableSize := 0
  LPathTableLocation := 0
  LOptionalPathTableLocation := 0
  MPathTableLocation := 0
  MOptionalPathTableLocation := 0
  RootDirectoryEntry := none
  VolumeSetIdentifier := []
  PublisherIdentifier := []
  DataPreparerIdentifier := []
  ApplicationIdentifier := []
  CopyRightFileIdentifier := []
  AbstractFileIdentifier := []
  BibliographicFileIdentifier := []
  VolumeCreationDate := []
  VolumeModificationDate := []
  VolumeExpirationDate := []
  VolumeEffectiveDate := []
  FileStructureVersion := 0
  UnusedField4 := 0
  ApplicationUse := List.replicate 512 0
  UnusedField5 := List.replicate 653 0
  useRR := useRR

namespace PrimaryVolumeDescriptor

variable {S : SuspPackage} {D : DirectoryPackage S}

/-- PathTableLocation returns the location of the path table. -/
def PathTableLocation (pvd : PrimaryVolumeDescriptor S D) : Nat := pvd.LPathTableLocation

/-- PathTableSize returns the size of the path table. -/
def PathTableSize (pvd : PrimaryVolumeDescriptor S D) : Int := pvd.pathTableSize

/-- Type returns the type of the primary volume descriptor. -/
def Type_ (pvd : PrimaryVolumeDescriptor S D) : Nat := pvd.vdType

/-- Identifier returns the standard identifier of the primary volume descriptor. -/
def Identifier (pvd : PrimaryVolumeDescriptor S D) : List Byte := pvd.standardIdentifier

/-- Version returns the version of the primary volume descriptor. -/
def Version (pvd : PrimaryVolumeDescriptor S D) : Int := pvd.volumeDescriptorVersion

/-- Data returns the raw data of the primary volume descriptor. -/
def Data (pvd : PrimaryVolumeDescriptor S D) : List Byte := pvd.rawData

/-- The end of `Unmarshal`, from the path table locations on: nothing here can
fail (the four-byte slices of the sector array are never too short for
`binary`). -/
def unmarshalTail (pvd : PrimaryVolumeDescriptor S D) (rootRecord : DirectoryRecord S)
    (data : List Byte) : PrimaryVolumeDescriptor S D :=
  { pvd with
    LPathTableLocation := (leUint32 (arraySlice data 140 144)).getD 0,
    LOptionalPathTableLocation := (leUint32 (arraySlice data 144 148)).getD 0,
    MPathTableLocation := (beUint32 (arraySlice data 148 152)).getD 0,
    MOptionalPathTableLocation := (beUint32 (arraySlice data 152 156)).getD 0,
    RootDirectoryEntry := some (D.NewEntry rootRecord pvd.useRR),
    VolumeSetIdentifier := arraySlice data 190 318,
    PublisherIdentifier := arraySlice data 318 446,
    DataPreparerIdentifier := arraySlice data 446 574,
    ApplicationIdentifier := arraySlice data 574 702,
    CopyRightFileIdentifier := arraySlice data 702 739,
    AbstractFileIdentifier := arraySlice data 739 776,
    BibliographicFileIdentifier := arraySlice data 776 813,
    VolumeCreationDate := arraySlice data 813 830,
    VolumeModificationDate := arraySlice data 830 847,
    VolumeExpirationDate := arraySlice data 847 864,
    VolumeEffectiveDate := arraySlice data 864 881,
    FileStructureVersion := (arrayIndex data 881).val,
    UnusedField4 := (arrayIndex data 882).val,
    ApplicationUse := arraySlice data 883 1395,
    UnusedField5 := arraySlice data 1395 2048 }

/-- Unmarshal parses the given sector and populates the PrimaryVolumeDescriptor
struct. `data` is the sector, 2048 bytes. The result is the descriptor as the
call leaves it and the way the call ends. -/
def Unmarshal (N : EncodingPackage) (pvd : PrimaryVolumeDescriptor S D) (data : List Byte) :
    PrimaryVolumeDescriptor S D × DescriptorOutcome S.Error N.Error :=
  let pvd := { pvd with rawData := data }
  match IsoKit.Unmarshal S (NewRecord S) (arraySlice data 156 190) with
  | (_, Outcome.fault) => (pvd, DescriptorOutcome.fault)
  | (_, Outcome.error e) => (pvd, DescriptorOutcome.error (DescriptorError.record e))
  | (rootRecord, Outcome.nil) =>
    let pvd := { pvd with
      vdType := (arrayIndex data 0).val,
      standardIdentifier := arraySlice data 1 6,
      volumeDescriptorVersion := toInt8 (arrayIndex data 6),
      UnusedField1 := arraySlice data 7 8,
      SystemIdentifier := arraySlice data 8 40,
      VolumeIdentifier := arraySlice data 40 72,
      UnusedField2 := arraySlice data 72 80,
      VolumeSpaceSize := (N.UnmarshalInt32LSBMSB (arraySlice data 80 88)).1 }
    match (N.UnmarshalInt32LSBMSB (arraySlice data 80 88)).2 with
    | some e => (pvd, DescriptorOutcome.error (DescriptorError.encoding e))
    | none =>
      let pvd := { pvd with
        UnusedField3 := arraySlice data 88 120,
        VolumeSetSize := (N.UnmarshalInt16LSBMSB (arraySlice data 120 124)).1 }
      match (N.UnmarshalInt16LSBMSB (arraySlice data 120 124)).2 with
      | some e => (pvd, DescriptorOutcome.error (DescriptorError.encoding e))
      | none =>
        let pvd := { pvd with
          VolumeSequenceNumber := (N.UnmarshalInt16LSBMSB (arraySlice data 124 128)).1 }
        match (N.UnmarshalInt16LSBMSB (arraySlice data 124 128)).2 with
        | some e => (pvd, DescriptorOutcome.error (DescriptorError.encoding e))
        | none =>
          let pvd := { pvd with
            LogicalBlockSize := (N.UnmarshalInt16LSBMSB (arraySlice data 128 132)).1 }
          match (N.UnmarshalInt16LSBMSB (arraySlice data 128 132)).2 with
          | some e => (pvd, DescriptorOutcome.error (DescriptorError.encoding e))
          | none =>
            let pvd := { pvd with
              pathTableSize := (N.UnmarshalInt32LSBMSB (arraySlice data 132 140)).1 }
            match (N.UnmarshalInt32LSBMSB (arraySlice data 132 140)).2 with
            | some e => (pvd, DescriptorOutcome.error (DescriptorError.encoding e))
            | none => (unmarshalTail pvd rootRecord data, DescriptorOutcome.nil)

end PrimaryVolumeDescriptor

/-- A warning that `ParsePrimaryVolumeDescriptor` writes to the log. The log is
modelled here, and only here, because these warnings are all that the three
checks of the function do. -/
inductive ParseWarning
  /-- Text "WARNING: Invalid primary volume descriptor". -/
  | invalidType (actual : Nat)
  /-- Text "WARNING: Invalid standard identifier". -/
  | invalidIdentifier (actual : List Byte)
  /-- Text "WARNING: Invalid volume descriptor version". -/
  | invalidVersion (actual : Int)
  deriving DecidableEq

/-- Errors returned by `ParsePrimaryVolumeDescriptor`. -/
inductive ParseError (ES EE ED : Type)
  /-- The error of `pvd.Unmarshal`, returned as it is. -/
  | unmarshal (e : DescriptorError ES EE)
  /-- Text "failed to get children: %w". -/
  | children (e : ED)

/-- How `ParsePrimaryVolumeDescriptor` ends: with a descriptor, with an error
(and a nil descriptor), or with a panic. -/
inductive ParseResult (α ES EE ED : Type)
  | ok (pvd : α)
  | error (e : ParseError ES EE ED)
  | fault

/-- ParsePrimaryVolumeDescriptor parses the given volume descriptor and returns
a PrimaryVolumeDescriptor struct. `data` is `vd.Data()`. The second component
lists the warnings logged. -/
def ParsePrimaryVolumeDescriptor (S : SuspPackage) (D : DirectoryPackage S)
    (N : EncodingPackage) (data : List Byte) (useRR : Bool) :
    ParseResult (PrimaryVolumeDescriptor S D) S.Error N.Error D.Error × List ParseWarning :=
  match PrimaryVolumeDescriptor.Unmarshal N (zeroPrimaryVolumeDescriptor S D useRR) data with
  | (_, DescriptorOutcome.fault) => (ParseResult.fault, [])
  | (_, DescriptorOutcome.error e) => (ParseResult.error (ParseError.unmarshal e), [])
  | (pvd, DescriptorOutcome.nil) =>
    let w1 := if pvd.Type_ ≠ VolumeDescriptorPrimary then [ParseWarning.invalidType pvd.Type_]
      else []
    let w2 := if pvd.Identifier ≠ ISO9660_STD_IDENTIFIER then
        [ParseWarning.invalidIdentifier pvd.Identifier]
      else []
    let w3 := if pvd.Version ≠ ISO9660_VOLUME_DESC_VERSION then
        [ParseWarning.invalidVersion pvd.Version]
      else []
    match pvd.RootDirectoryEntry with
    | none => (ParseResult.fault, w1 ++ w2 ++ w3)
    | some root =>
      match D.GetChildren root with
      | Except.error e => (ParseResult.error (ParseError.children e), w1 ++ w2 ++ w3)
      | Except.ok _ => (ParseResult.ok pvd, w1 ++ w2 ++ w3)

/-- SupplementaryVolumeDescriptor represents a supplementary volume descriptor
in an ISO file. Arrays are lists of their fixed length; the path table and the
image reader are left out. -/
structure SupplementaryVolumeDescriptor (S : SuspPackage) (D : DirectoryPackage S) where
  rawData : List Byte
  vdType : Nat
  standardIdentifier : List Byte
  volumeDescriptorVersion : Int
  VolumeFlags : List Byte
  SystemIdentifier : List Byte
  VolumeIdentifier : List Byte
  UnusedField2 : List Byte
  VolumeSpaceSize : Int
  EscapeSequences : List Byte
  VolumeSetSize : Int
  VolumeSequenceNumber : Int
  LogicalBlockSize : Int
  pathTableSize : Int
  LPathTableLocation : Nat
  LOptionalPathTableLocation : Nat
  MPathTableLocation : Nat
  MOptionalPathTableLocation : Nat
  RootDirectoryEntry : Option D.DirectoryEntry
  VolumeSetIdentifier : List Byte
  PublisherIdentifier : List Byte
  DataPreparerIdentifier : List Byte
  ApplicationIdentifier : List Byte
  CopyRightFileIdentifier : List Byte
  AbstractFileIdentifier : List Byte
  BibliographicFileIdentifier : List Byte
  VolumeCreationDate : List Byte
  VolumeModificationDate : List Byte
  VolumeExpirationDate : List Byte
  VolumeEffectiveDate : List Byte
  FileStructureVersion : Nat
  UnusedField4 : Nat
  ApplicationUse : List Byte
  UnusedField5 : List Byte
  isJoliet : Bool

/-- The composite literal `&SupplementaryVolumeDescriptor{isoFile: isoFile}` of
`ParseSupplementaryVolumeDescriptor`: every other field has its zero value. -/
def zeroSupplementaryVolumeDescriptor (S : SuspPackage) (D : DirectoryPackage S) :
    SupplementaryVolumeDescriptor S D where
  rawData := List.replicate 2048 0
  vdType := 0
  standardIdentifier := []
  volumeDescriptorVersion := 0
  VolumeFlags := List.replicate 1 0
  SystemIdentifier := []
  VolumeIdentifier := []
  UnusedField2 := List.replicate 8 0
  VolumeSpaceSize := 0
  EscapeSequences := List.replicate 32 0
  VolumeSetSize := 0
  VolumeSequenceNumber := 0
  LogicalBlockSize := 0
  pathTableSize := 0
  LPathTableLocation := 0
  LOptionalPathTableLocation := 0
  MPathTableLocation := 0
  MOptionalPathTableLocation := 0
  RootDirectoryEntry := none
  VolumeSetIdentifier := []
  PublisherIdentifier := []
  DataPreparerIdentifier := []
  ApplicationIdentifier := []
  CopyRightFileIdentifier := []
  AbstractFileIdentifier := []
  BibliographicFileIdentifier := []
  VolumeCreationDate := []
  VolumeModificationDate := []
  VolumeExpirationDate := []
  VolumeEffectiveDate := []
  FileStructureVersion := 0
  UnusedField4 := 0
  ApplicationUse := List.replicate 512 0
  UnusedField5 := List.replicate 653 0
  isJoliet := false

namespace SupplementaryVolumeDescriptor

variable {S : SuspPackage} {D : DirectoryPackage S}

/-- IsJoliet returns true if the SVD is a Joliet SVD. -/
def IsJoliet (svd : SupplementaryVolumeDescriptor S D) : Bool := svd.isJoliet

/-- PathTableLocation returns the path table location for the SVD. -/
def PathTableLocation (svd : SupplementaryVolumeDescriptor S D) : Nat := svd.LPathTableLocation

/-- PathTableSize returns the size of the path table for the SVD. -/
def PathTableSize (svd : SupplementaryVolumeDescriptor S D) : Int := svd.pathTableSize

/-- The end of `Unmarshal`, from the path table locations on: nothing here can
fail. -/
def unmarshalTail (svd : SupplementaryVolumeDescriptor S D) (rootRecord : DirectoryRecord S)
    (data : List Byte) : SupplementaryVolumeDescriptor S D :=
  { svd with
    LPathTableLocation := (leUint32 (arraySlice data 140 144)).getD 0,
    LOptionalPathTableLocation := (leUint32 (arraySlice data 144 148)).getD 0,
    MPathTableLocation := (beUint32 (arraySlice data 148 152)).getD 0,
    MOptionalPathTableLocation := (beUint32 (arraySlice data 152 156)).getD 0,
    RootDirectoryEntry := some (D.EntryLiteral rootRecord),
    VolumeSetIdentifier := arraySlice data 190 318,
    PublisherIdentifier := arraySlice data 318 446,
    DataPreparerIdentifier := arraySlice data 446 574,
    ApplicationIdentifier := arraySlice data 574 702,
    CopyRightFileIdentifier := arraySlice data 702 739,
    AbstractFileIdentifier := arraySlice data 739 776,
    BibliographicFileIdentifier := arraySlice data 776 813,
    VolumeCreationDate := arraySlice data 813 830,
    VolumeModificationDate := arraySlice data 830 847,
    VolumeExpirationDate := arraySlice data 847 864,
    VolumeEffectiveDate := arraySlice data 864 881,
    FileStructureVersion := (arrayIndex data 881).val,
    UnusedField4 := (arrayIndex data 882).val,
    ApplicationUse := arraySlice data 883 1395,
    UnusedField5 := arraySlice data 1395 2048 }

/-- The Joliet test at the head of `Unmarshal`: the first three bytes of the
escape sequences against the three Joliet escapes. -/
def escapeIsJoliet (escapeSequences : List Byte) : Bool :=
  decide (arraySlice escapeSequences 0 3 = JOLIET__LEVEL_1_ESCAPE ∨
    arraySlice escapeSequences 0 3 = JOLIET__LEVEL_2_ESCAPE ∨
    arraySlice escapeSequences 0 3 = JOLIET__LEVEL_3_ESCAPE)

/-- Unmarshal parses the given sector and populates the
SupplementaryVolumeDescriptor struct. `data` is the sector, 2048 bytes. -/
def Unmarshal (N : EncodingPackage) (svd : SupplementaryVolumeDescriptor S D)
    (data : List Byte) :
    SupplementaryVolumeDescriptor S D × DescriptorOutcome S.Error N.Error :=
  let svd := { svd with rawData := data }
  let svd := { svd with EscapeSequences := arraySlice data 88 120 }
  let svd := if escapeIsJoliet svd.EscapeSequences then { svd with isJoliet := true } else svd
  match IsoKit.Unmarshal S (zeroRecord S svd.isJoliet) (arraySlice data 156 190) with
  | (_, Outcome.fault) => (svd, DescriptorOutcome.fault)
  | (_, Outcome.error e) => (svd, DescriptorOutcome.error (DescriptorError.record e))
  | (rootRecord, Outcome.nil) =>
    let svd := { svd with
      vdType := (arrayIndex data 0).val,
      standardIdentifier := arraySlice data 1 6,
      volumeDescriptorVersion := toInt8 (arrayIndex data 6),
      VolumeFlags := arraySlice data 7 8,
      SystemIdentifier := arraySlice data 8 40,
      VolumeIdentifier := arraySlice data 40 72,
      UnusedField2 := arraySlice data 72 80,
      VolumeSpaceSize := (N.UnmarshalInt32LSBMSB (arraySlice data 80 88)).1 }
    match (N.UnmarshalInt32LSBMSB (arraySlice data 80 88)).2 with
    | some e => (svd, DescriptorOutcome.error (DescriptorError.encoding e))
    | none =>
      let svd := { svd with
        VolumeSetSize := (N.UnmarshalInt16LSBMSB (arraySlice data 120 124)).1 }
      match (N.UnmarshalInt16LSBMSB (arraySlice data 120 124)).2 with
      | some e => (svd, DescriptorOutcome.error (DescriptorError.encoding e))
      | none =>
        let svd := { svd with
          VolumeSequenceNumber := (N.UnmarshalInt16LSBMSB (arraySlice data 124 128)).1 }
        match (N.UnmarshalInt16LSBMSB (arraySlice data 124 128)).2 with
        | some e => (svd, DescriptorOutcome.error (DescriptorError.encoding e))
        | none =>
          let svd := { svd with
            LogicalBlockSize := (N.UnmarshalInt16LSBMSB (arraySlice data 128 132)).1 }
          match (N.UnmarshalInt16LSBMSB (arraySlice data 128 132)).2 with
          | some e => (svd, DescriptorOutcome.error (DescriptorError.encoding e))
          | none =>
            let svd := { svd with
              pathTableSize := (N.UnmarshalInt32LSBMSB (arraySlice data 132 140)).1 }
            match (N.UnmarshalInt32LSBMSB (arraySlice data 132 140)).2 with
            | some e => (svd, DescriptorOutcome.error (DescriptorError.encoding e))
            | none => (unmarshalTail svd rootRecord data, DescriptorOutcome.nil)

end SupplementaryVolumeDescriptor

/-- The error of a dual-endian field whose halves disagree; it carries both values. -/
inductive DualEndianError
  | BadDualEndian (le be : Nat)
  /-- Fewer bytes than the field needs. -/
  | truncated
  deriving DecidableEq

/-- Go conversion `int32(x)` of an unsigned 32-bit value. -/
def toInt32 (x : Nat) : Int :=
  if x % 4294967296 < 2147483648 then ((x % 4294967296 : Nat) : Int)
  else ((x % 4294967296 : Nat) : Int) - 4294967296

/-- Go conversion `int16(x)` of an unsigned 16-bit value. -/
def toInt16 (x : Nat) : Int :=
  if x % 65536 < 32768 then ((x % 65536 : Nat) : Int) else ((x % 65536 : Nat) : Int) - 65536

/-- Modelled from the spec: the function `encoding.UnmarshalInt32LSBMSB`, whose
package is not under src. Spec 4.1: "`u16_dual(b[4]) -> u16`: first two bytes
little-endian, second two big-endian; fails if they disagree (warn, prefer
LE)" and "`u32_dual(b[8]) -> u32`: analogous"; spec 7 names the error
`BadDualEndian`, carrying both values. The value returned is the little-endian
half, also next to the error. -/
def specUnmarshalInt32LSBMSB (b : List Byte) : Int × Option DualEndianError :=
  match leUint32 b, beUint32 (b.drop 4) with
  | some le, some be =>
    (toInt32 le, if le = be then none else some (DualEndianError.BadDualEndian le be))
  | _, _ => (0, some DualEndianError.truncated)

/-- Modelled from the spec: the function `encoding.UnmarshalInt16LSBMSB`, whose
package is not under src. Spec 4.1: "`u16_dual(b[4]) -> u16`: first two bytes
little-endian, second two big-endian; fails if they disagree (warn, prefer
LE)". -/
def specUnmarshalInt16LSBMSB (b : List Byte) : Int × Option DualEndianError :=
  match leUint16 b, beUint16 (b.drop 2) with
  | some le, some be =>
    (toInt16 le, if le = be then none else some (DualEndianError.BadDualEndian le be))
  | _, _ => (0, some DualEndianError.truncated)

/-- Modelled from the spec: package `encoding`, with the two functions above. -/
@[reducible]
def specEncoding : EncodingPackage where
  Error := DualEndianError
  UnmarshalInt32LSBMSB := specUnmarshalInt32LSBMSB
  UnmarshalInt16LSBMSB := specUnmarshalInt16LSBMSB

/-- A `directory` package whose entries are the arguments they were built from
and whose directories have no children. -/
@[reducible]
def nullDirectory : DirectoryPackage nullSusp where
  DirectoryEntry := DirectoryRecord nullSusp × Bool
  Error := Unit
  NewEntry := fun r useRR => (r, useRR)
  EntryLiteral := fun r => (r, false)
  GetChildren := fun _ => Except.ok []

/-! ## Building directory records (`pkg/directory/record.go`) -/

/-- computeLength computes and sets the LengthOfDirectoryRecord field.
According to ISO9660, the record length is: 33 bytes (fixed fields) +
FileIdentifier length + optional 1-byte padding (if FileIdentifier length is
even). The field is a `uint8`: the conversion `uint8(recLen)` keeps the low
eight bits. -/
def computeLength (S : SuspPackage) (dr : DirectoryRecord S) : DirectoryRecord S :=
  let idLen := dr.FileIdentifier.length
  let recLen := 33 + idLen
  let recLen := if idLen % 2 = 0 then recLen + 1 else recLen
  { dr with LengthOfDirectoryRecord := recLen % 256 }

/-- A `time.Time` value as `FormatRecordingDateAndTime` reads it: the results
of its methods `Year`, `Month`, `Day`, `Hour`, `Minute` and `Second`, and the
offset in seconds east of UTC that `Zone` returns. The calendar fields have the
ranges package `time` gives them. -/
structure Time where
  Year : Int
  Month : Nat
  Day : Nat
  Hour : Nat
  Minute : Nat
  Second : Nat
  zoneOffset : Int
  month_range : 1 ≤ Month ∧ Month ≤ 12
  day_range : 1 ≤ Day ∧ Day ≤ 31
  hour_range : Hour ≤ 23
  minute_range : Minute ≤ 59
  second_range : Second ≤ 59

/-- Go conversion `byte(x)` of an integer: the low eight bits. -/
def intToByte (x : Int) : Byte :=
  ⟨(x % 256).toNat, by
    have h1 : 0 ≤ x % 256 := Int.emod_nonneg x (by decide)
    have h2 : x % 256 < 256 := Int.emod_lt_of_pos x (by decide)
    omega⟩

/-- Go conversion `int8(x)` of an integer: the low eight bits, read as a
signed value. -/
def intToInt8 (x : Int) : Int := (x + 128) % 256 - 128

/-- FormatRecordingDateAndTime converts a time.Time to a 7-byte array per
ISO9660 spec. Byte 0: Year since 1900, Byte 1: Month, Byte 2: Day, Byte 3:
Hour, Byte 4: Minute, Byte 5: Second, Byte 6: GMT offset in 15-minute
intervals. Go's integer division truncates toward zero. -/
def FormatRecordingDateAndTime (t : Time) : List Byte :=
  let year := t.Year - 1900
  let month : Int := t.Month
  let day : Int := t.Day
  let hour : Int := t.Hour
  let minute : Int := t.Minute
  let second : Int := t.Second
  let offsetSeconds := t.zoneOffset
  let offset15 := intToInt8 ((offsetSeconds.tdiv 60).tdiv 15)
  [intToByte year, intToByte month, intToByte day, intToByte hour, intToByte minute,
    intToByte second, intToByte offset15]

/-! ## Open options (`pkg/option/options.go`) -/

/-- The options of `Open`: the struct `OpenOptions` of `options.go`, and the
three fields `RockRidgeEnabled`, `ElToritoEnabled` and `PreferJoliet` that
`Open` sets and reads but the declaration at hand does not list. `C` is the
type of the progress callback, `L` the type of the logger. -/
structure OpenOptions (C L : Type) where
  ParseOnOpen : Bool
  ReadOnly : Bool
  PreloadDir : Bool
  PreferEnhancedVolumes : Bool
  StripVersionInfo : Bool
  BootFileExtractLocation : String
  ExtractionProgressCallback : C
  Logger : L
  RockRidgeEnabled : Bool
  ElToritoEnabled : Bool
  PreferJoliet : Bool

/-- An option of `Open`: a function that updates the options in place. -/
abbrev OpenOption (C L : Type) := OpenOptions C L → OpenOptions C L

/-- WithExtractionProgress sets a progress callback function that will be
called with progress updates. -/
def WithExtractionProgress {C L : Type} (callback : C) : OpenOption C L :=
  fun o => { o with ExtractionProgressCallback := callback }

/-- The option that sets `BootFileExtractLocation`. -/
def WithBootFileExtractLocation {C L : Type} (location : String) : OpenOption C L :=
  fun o => { o with BootFileExtractLocation := location }

/-- The option that sets `Logger`. -/
def WithLogger {C L : Type} (logger : L) : OpenOption C L :=
  fun o => { o with Logger := logger }

/-- The option that sets `ParseOnOpen`. -/
def WithParseOnOpen {C L : Type} (parseOnOpen : Bool) : OpenOption C L :=
  fun o => { o with ParseOnOpen := parseOnOpen }

/-- The option that sets `ReadOnly`. -/
def WithReadOnly {C L : Type} (readOnly : Bool) : OpenOption C L :=
  fun o => { o with ReadOnly := readOnly }

/-- The option that sets `PreloadDir`. -/
def WithPreloadDir {C L : Type} (preloadDir : Bool) : OpenOption C L :=
  fun o => { o with PreloadDir := preloadDir }

/-- The option that sets `StripVersionInfo`. -/
def WithStripVersionInfo {C L : Type} (stripVersionInfo : Bool) : OpenOption C L :=
  fun o => { o with StripVersionInfo := stripVersionInfo }

/-- The option that sets `PreferEnhancedVolumes`. -/
def WithPreferEnhancedVolumes {C L : Type} (preferEnhancedVolumes : Bool) : OpenOption C L :=
  fun o => { o with PreferEnhancedVolumes := preferEnhancedVolumes }

/-! ## The image facade (`pkg/iso9660/iso9660.go`) -/

/-- A Go slice value as the facade handles it: the nil slice, or a slice with
its elements in order. -/
inductive Slice (α : Type)
  | nil
  | mk (elems : List α)
  deriving DecidableEq

/-- The elements a `range` loop visits. -/
def Slice.elems {α : Type} : Slice α → List α
  | Slice.nil => []
  | Slice.mk elems => elems

/-- Go `append(s, x)`. -/
def Slice.append {α : Type} (s : Slice α) (x : α) : Slice α := Slice.mk (s.elems ++ [x])

/-- How a call ends: it returns a value, or the program panics. -/
inductive Call (α : Type)
  | returned (a : α)
  | panicked (message : String)

/-- Modelled from the spec: the constant `consts.ISO9660_SECTOR_SIZE`
("sector size 2048"). -/
def ISO9660_SECTOR_SIZE : Nat := 2048

/-- Modelled from the spec: the constant `consts.ISO9660_SYSTEM_AREA_SECTORS`
("System Area = sectors 0..15"). -/
def ISO9660_SYSTEM_AREA_SECTORS : Nat := 16

/-- The packages the facade calls that are not part of the sources at hand
(`parser`, `boot`, `descriptor` and `directory` under `pkg/iso9660`,
`filesystem`) and the library packages `io`, `os`, `path/filepath` and `logr`.
Their types and functions are parameters of the development. `World` is the
state of everything outside the program (image source, parser, output tree):
a call that can read or change it takes the state and returns the new one.
A pointer to a structure stands for the structure, a Go `string` that is a
path or a label is a `String`, an `os.FileMode` is a number.
`primaryRoot` and `supplementaryRoot` are the field `RootDirectoryRecord` of
the two descriptors; `IsDir`, `FullPath`, `Mode` and `ModTime` are the fields
of a `filesystem.FileSystemEntry`, `GetBytes` its method; `IsZero` is the
method of `time.Time`. -/
structure Packages where
  World : Type
  Error : Type
  Reader : Type
  Callback : Type
  Logger : Type
  Parser : Type
  BootRecordDescriptor : Type
  ElTorito : Type
  PrimaryVolumeDescriptor : Type
  SupplementaryVolumeDescriptor : Type
  DirectoryRecord : Type
  FileSystemEntry : Type
  Timestamp : Type
  File : Type
  emptyCallback : Callback
  Discard : Logger
  ReadAt : Reader → Nat → Nat → World → (List Byte × Option Error) × World
  NewParser : Reader → OpenOptions Callback Logger → World → Parser × World
  GetBootRecord : Parser → World → Except Error BootRecordDescriptor × World
  BootSystemIdentifier : BootRecordDescriptor → String
  IsElTorito : String → Bool
  GetElTorito : Parser → BootRecordDescriptor → World → Except Error ElTorito × World
  GetPrimaryVolumeDescriptor : Parser → World → Except Error PrimaryVolumeDescriptor × World
  GetSupplementaryVolumeDescriptors :
    Parser → World → Except Error (List SupplementaryVolumeDescriptor) × World
  primaryRoot : PrimaryVolumeDescriptor → DirectoryRecord
  supplementaryRoot : SupplementaryVolumeDescriptor → DirectoryRecord
  BuildFileSystemEntries :
    Parser → DirectoryRecord → Bool → World → (Slice FileSystemEntry × Option Error) × World
  WalkDirectoryRecords :
    Parser → DirectoryRecord → World → (Slice DirectoryRecord × Option Error) × World
  IsDir : FileSystemEntry → Bool
  FullPath : FileSystemEntry → String
  Mode : FileSystemEntry → Nat
  ModTime : FileSystemEntry → Timestamp
  IsZero : Timestamp → Bool
  GetBytes : FileSystemEntry → World → Except Error (List Byte) × World
  MkdirAll : String → Nat → World → Option Error × World
  Create : String → World → Except Error File × World
  Write : File → List Byte → World → Option Error × World
  Close : File → World → World
  Chmod : String → Nat → World → Option Error × World
  Chtimes : String → Timestamp → Timestamp → World → Option Error × World
  Join : String → String → String
  Dir : String → String

/-- A value of the interface `descriptor.VolumeDescriptor` as `Open` makes it:
the primary descriptor or a supplementary one. -/
inductive VolumeDescriptor (P : Packages)
  | primary (pvd : P.PrimaryVolumeDescriptor)
  | supplementary (svd : P.SupplementaryVolumeDescriptor)

/-- The image handle. `activeVD` and `elTorito` are `none` when nil; the
field `createOptions`, which `Open` leaves nil, is left out. -/
structure ISO9660 (P : Packages) where
  isoReader : P.Reader
  openOptions : OpenOptions P.Callback P.Logger
  systemArea : List Byte
  bootRecord : P.BootRecordDescriptor
  pvd : P.PrimaryVolumeDescriptor
  svds : List P.SupplementaryVolumeDescriptor
  activeVD : Option (VolumeDescriptor P)
  directoryRecords : Slice P.DirectoryRecord
  filesystemEntries : Slice P.FileSystemEntry
  elTorito : Option P.ElTorito

/-- The composite literal `&option.OpenOptions{...}` at the head of `Open`:
the default open options. -/
def defaultOpenOptions (P : Packages) : OpenOptions P.Callback P.Logger where
  ReadOnly := true
  ParseOnOpen := true
  PreloadDir := true
  StripVersionInfo := true
  RockRidgeEnabled := true
  ElToritoEnabled := true
  PreferJoliet := false
  BootFileExtractLocation := "[BOOT]"
  ExtractionProgressCallback := P.emptyCallback
  Logger := P.Discard
  PreferEnhancedVolumes := false

/-- The local variables of `Open` once the volume descriptors are read. -/
structure OpenState (P : Packages) where
  openOptions : OpenOptions P.Callback P.Logger
  saBuf : List Byte
  p : P.Parser
  bootRecord : P.BootRecordDescriptor
  et : Option P.ElTorito
  pvd : P.PrimaryVolumeDescriptor
  svds : List P.SupplementaryVolumeDescriptor

/-- The first part of `Open`, up to "Read the supplementary volume
descriptors": the options, the System Area, the parser, the boot record, the
El Torito record and the volume descriptors. Each error ends `Open`. -/
def openDescriptors (P : Packages) (isoReader : P.Reader)
    (opts : List (OpenOption P.Callback P.Logger)) (w : P.World) :
    Except P.Error (OpenState P) × P.World :=
  let openOptions := opts.foldl (fun o opt => opt o) (defaultOpenOptions P)
  match P.ReadAt isoReader (ISO9660_SECTOR_SIZE * ISO9660_SYSTEM_AREA_SECTORS) 0 w with
  | ((_, some err), w) => (Except.error err, w)
  | ((saBuf, none), w) =>
    match P.NewParser isoReader openOptions w with
    | (p, w) =>
      match P.GetBootRecord p w with
      | (Except.error err, w) => (Except.error err, w)
      | (Except.ok bootRecord, w) =>
        match (if P.IsElTorito (P.BootSystemIdentifier bootRecord) && openOptions.ElToritoEnabled
            then
              match P.GetElTorito p bootRecord w with
              | (Except.error err, w) => (Except.error err, w)
              | (Except.ok et, w) => (Except.ok (some et), w)
            else (Except.ok none, w) : Except P.Error (Option P.ElTorito) × P.World) with
        | (Except.error err, w) => (Except.error err, w)
        | (Except.ok et, w) =>
          match P.GetPrimaryVolumeDescriptor p w with
          | (Except.error err, w) => (Except.error err, w)
          | (Except.ok pvd, w) =>
            match P.GetSupplementaryVolumeDescriptors p w with
            | (Except.error err, w) => (Except.error err, w)
            | (Except.ok svds, w) =>
              (Except.ok ⟨openOptions, saBuf, p, bootRecord, et, pvd, svds⟩, w)

/-- The variables the block "Handle processing volume descriptor" of `Open`
sets; `err` is the variable `err` as the block leaves it. -/
structure ProcessedVolume (P : Packages) where
  filesystemEntries : Slice P.FileSystemEntry
  directoryRecords : Slice P.DirectoryRecord
  activeVD : VolumeDescriptor P
  err : Option P.Error

/-- The block "Handle processing volume descriptor" of `Open`: the condition
`openOptions.PreferJoliet && len(svds) > 0` holds exactly when the option is
set and `svds` has a first element `svds[0]`. Both calls assign `err`; nothing
reads it. -/
def processVolumeDescriptor (P : Packages) (openOptions : OpenOptions P.Callback P.Logger)
    (p : P.Parser) (pvd : P.PrimaryVolumeDescriptor)
    (svds : List P.SupplementaryVolumeDescriptor) (w : P.World) :
    ProcessedVolume P × P.World :=
  match openOptions.PreferJoliet, svds with
  | true, svd0 :: _ =>
    match P.BuildFileSystemEntries p (P.supplementaryRoot svd0) false w with
    | ((filesystemEntries, _), w) =>
      match P.WalkDirectoryRecords p (P.supplementaryRoot svd0) w with
      | ((directoryRecords, err), w) =>
        (⟨filesystemEntries, directoryRecords, VolumeDescriptor.supplementary svd0, err⟩, w)
  | _, _ =>
    match P.BuildFileSystemEntries p (P.primaryRoot pvd) openOptions.RockRidgeEnabled w with
    | ((filesystemEntries, _), w) =>
      match P.WalkDirectoryRecords p (P.primaryRoot pvd) w with
      | ((directoryRecords, err), w) =>
        (⟨filesystemEntries, directoryRecords, VolumeDescriptor.primary pvd, err⟩, w)

/-- Open reads the descriptors of an image and returns its handle: the part
`openDescriptors`, the block `processVolumeDescriptor`, then the composite
literal `&ISO9660{...}` and `return iso, nil`. -/
def Open (P : Packages) (isoReader : P.Reader) (opts : List (OpenOption P.Callback P.Logger))
    (w : P.World) : Except P.Error (ISO9660 P) × P.World :=
  match openDescriptors P isoReader opts w with
  | (Except.error err, w) => (Except.error err, w)
  | (Except.ok s, w) =>
    match processVolumeDescriptor P s.openOptions s.p s.pvd s.svds w with
    | (v, w) =>
      (Except.ok
        { isoReader := isoReader
          openOptions := s.openOptions
          systemArea := s.saBuf
          bootRecord := s.bootRecord
          pvd := s.pvd
          svds := s.svds
          directoryRecords := v.directoryRecords
          filesystemEntries := v.filesystemEntries
          activeVD := some v.activeVD
          elTorito := s.et }, w)

/-- ListFiles returns the entries of the image that are not directories. -/
def ListFiles (P : Packages) (iso : ISO9660 P) : Slice P.FileSystemEntry × Option P.Error :=
  let files := iso.filesystemEntries.elems.foldl
    (fun files entry => if !P.IsDir entry then files.append entry else files) (Slice.mk [])
  (files, none)

/-- ListDirectories returns the entries of the image that are directories. -/
def ListDirectories (P : Packages) (iso : ISO9660 P) :
    Slice P.FileSystemEntry × Option P.Error :=
  let dirs := iso.filesystemEntries.elems.foldl
    (fun dirs entry => if P.IsDir entry then dirs.append entry else dirs) (Slice.mk [])
  (dirs, none)

/-- ReadFile is `panic("implement me")`. -/
def ReadFile (P : Packages) (_iso : ISO9660 P) (_path : String) :
    Call (Slice Byte × Option P.Error) :=
  Call.panicked "implement me"

/-- The errors `CreateDirectories` and `Extract` return: the error of the
failing call, wrapped with a text and a path by `fmt.Errorf`. -/
inductive ExtractError (E : Type)
  /-- Text "failed to create output directory %s: %w". -/
  | createOutputDirectory (path : String) (err : E)
  /-- Text "failed to list directories: %w". -/
  | listDirectories (err : E)
  /-- Text "failed to create directory %s: %w". -/
  | createDirectory (dirPath : String) (err : E)
  /-- Text "failed to list files: %w". -/
  | listFiles (err : E)
  /-- Text "failed to create parent directories for %s: %w". -/
  | createParentDirectories (outputPath : String) (err : E)
  /-- Text "failed to create file %s: %w". -/
  | createFile (outputPath : String) (err : E)
  /-- Text "failed to read file data for %s: %w". -/
  | readFileData (fullPath : String) (err : E)
  /-- Text "failed to write file %s: %w". -/
  | writeFile (outputPath : String) (err : E)
  /-- Text "failed to set permissions on %s: %w". -/
  | setPermissions (outputPath : String) (err : E)
  /-- Text "failed to set timestamps on %s: %w". -/
  | setTimestamps (outputPath : String) (err : E)
  deriving DecidableEq

/-- The loop of `CreateDirectories` over the directory entries. -/
def createDirectoriesLoop (P : Packages) (path : String) :
    List P.FileSystemEntry → P.World → Option (ExtractError P.Error) × P.World
  | [], w => (none, w)
  | entry :: rest, w =>
    let dirPath := P.Join path (P.FullPath entry)
    match P.MkdirAll dirPath (P.Mode entry) w with
    | (some err, w) => (some (ExtractError.createDirectory dirPath err), w)
    | (none, w) => createDirectoriesLoop P path rest w

/-- CreateDirectories creates all directories from the ISO in the specified
path. -/
def CreateDirectories (P : Packages) (iso : ISO9660 P) (path : String) (w : P.World) :
    Option (ExtractError P.Error) × P.World :=
  match P.MkdirAll path 0o755 w with
  | (some err, w) => (some (ExtractError.createOutputDirectory path err), w)
  | (none, w) =>
    match ListDirectories P iso with
    | (_, some err) => (some (ExtractError.listDirectories err), w)
    | (dirs, none) => createDirectoriesLoop P path dirs.elems w

/-- One turn of the loop of `Extract`, for the file `entry`: the error it
returns with if a step fails, the files whose `Close` is deferred (the latest
first), and the state. -/
def extractFile (P : Packages) (path : String) (entry : P.FileSystemEntry)
    (deferred : List P.File) (w : P.World) :
    Option (ExtractError P.Error) × List P.File × P.World :=
  let outputPath := P.Join path (P.FullPath entry)
  match P.MkdirAll (P.Dir outputPath) 0o755 w with
  | (some err, w) => (some (ExtractError.createParentDirectories outputPath err), deferred, w)
  | (none, w) =>
    match P.Create outputPath w with
    | (Except.error err, w) => (some (ExtractError.createFile outputPath err), deferred, w)
    | (Except.ok outFile, w) =>
      match P.GetBytes entry w with
      | (Except.error err, w) =>
        (some (ExtractError.readFileData (P.FullPath entry) err), outFile :: deferred, w)
      | (Except.ok data, w) =>
        match P.Write outFile data w with
        | (some err, w) => (some (ExtractError.writeFile outputPath err), outFile :: deferred, w)
        | (none, w) =>
          match P.Chmod outputPath (P.Mode entry) w with
          | (some err, w) =>
            (some (ExtractError.setPermissions outputPath err), outFile :: deferred, w)
          | (none, w) =>
            if !P.IsZero (P.ModTime entry) then
              match P.Chtimes outputPath (P.ModTime entry) (P.ModTime entry) w with
              | (some err, w) =>
                (some (ExtractError.setTimestamps outputPath err), outFile :: deferred, w)
              | (none, w) => (none, outFile :: deferred, w)
            else (none, outFile :: deferred, w)

/-- The loop of `Extract` over the files: a turn that fails returns from
`Extract`. -/
def extractLoop (P : Packages) (path : String) :
    List P.FileSystemEntry → List P.File → P.World →
      Option (ExtractError P.Error) × List P.File × P.World
  | [], deferred, w => (none, deferred, w)
  | entry :: rest, deferred, w =>
    match extractFile P path entry deferred w with
    | (some err, deferred, w) => (some err, deferred, w)
    | (none, deferred, w) => extractLoop P path rest deferred w

/-- Extract extracts all files and directories from the ISO to the specified
path. The deferred calls of `Close` run when `Extract` returns, the latest
first. -/
def Extract (P : Packages) (iso : ISO9660 P) (path : String) (w : P.World) :
    Option (ExtractError P.Error) × P.World :=
  match CreateDirectories P iso path w with
  | (some err, w) => (some err, w)
  | (none, w) =>
    match ListFiles P iso with
    | (_, some err) => (some (ExtractError.listFiles err), w)
    | (files, none) =>
      match extractLoop P path files.elems [] w with
      | (err, deferred, w) => (err, deferred.foldl (fun w f => P.Close f w) w)

/-! ## Auxiliary definitions for the statements -/

/-- The fields written by step 1 of `Unmarshal` (and the Joliet flag), which
later steps only read. -/
def headerFields {S : SuspPackage} (dr : DirectoryRecord S) :
    Nat × Nat × Nat × Nat × List Byte × Option Byte × Nat × Nat × Nat × Nat × Bool :=
  (dr.LengthOfDirectoryRecord, dr.ExtendedAttributeRecord, dr.LocationOfExtent, dr.DataLength,
    dr.RecordingDateAndTime, dr.FileFlags, dr.FileUnitSize, dr.InterleaveGapSize,
    dr.VolumeSequenceNumber, dr.FileIdentifierLength, dr.Joliet)

/-- Overwrites the stored first byte of a result. -/
def setLength {S : SuspPackage} (x : Nat) (p : DirectoryRecord S × Outcome S.Error) :
    DirectoryRecord S × Outcome S.Error :=
  ({ p.1 with LengthOfDirectoryRecord := x }, p.2)

/-- The byte at offset `i` of a window, as a number (0 past the end). -/
def byteAt (data : List Byte) (i : Nat) : Nat := (data.getD i 0).val

/-- The record after step 1 of `Unmarshal`, on a window of at least 33 bytes. -/
def decodedHeader {S : SuspPackage} (dr : DirectoryRecord S) (data : List Byte) :
    DirectoryRecord S :=
  { dr with
    LengthOfDirectoryRecord := byteAt data 0,
    ExtendedAttributeRecord := byteAt data 1,
    LocationOfExtent :=
      byteAt data 2 ||| (byteAt data 3 <<< 8) ||| (byteAt data 4 <<< 16) ||| (byteAt data 5 <<< 24),
    DataLength :=
      byteAt data 10 ||| (byteAt data 11 <<< 8) ||| (byteAt data 12 <<< 16)
        ||| (byteAt data 13 <<< 24),
    RecordingDateAndTime := (data.take 25).drop 18,
    FileFlags := some (data.getD 25 0),
    FileUnitSize := byteAt data 26,
    InterleaveGapSize := byteAt data 27,
    VolumeSequenceNumber := byteAt data 28 ||| (byteAt data 29 <<< 8),
    FileIdentifierLength := byteAt data 32 }

/-- The window of a root directory record (34 bytes) whose identifier-length
byte is 255. -/
def wrapWindow : List Byte := [34] ++ List.replicate 31 0 ++ [255, 0]

/-- A window of 33 bytes whose identifier-length byte is 223. -/
def wrapWindow223 : List Byte := [33] ++ List.replicate 31 0 ++ [223]

/-- A 34-byte window whose first byte declares 200 bytes; the identifier is "A". -/
def overlongWindow : List Byte := [200] ++ List.replicate 31 0 ++ [1, 0x41]

/-- A 34-byte window whose first byte declares 1 byte; the identifier is "A". -/
def underlongWindow : List Byte := [1] ++ List.replicate 31 0 ++ [1, 0x41]

/-- A 36-byte window whose first byte declares 34 bytes: identifier "A" and two
more bytes after the declared end of the record. -/
def trailingWindow : List Byte := [34] ++ List.replicate 31 0 ++ [1, 0x41, 0x53, 0x50]

/-- A 35-byte window with the identifier "AB" that ends right after the identifier. -/
def unpaddedWindow : List Byte := [35] ++ List.replicate 31 0 ++ [2, 0x41, 0x42]

/-- A 34-byte window whose identifier-length byte is 0. -/
def emptyIdentifierWindow : List Byte := [34] ++ List.replicate 31 0 ++ [0, 0]

/-- A 34-byte window whose extent field holds 1 in its little-endian half
(bytes 2..5) and 2 in its big-endian half (bytes 6..9). -/
def mismatchWindow : List Byte :=
  [34, 0, 1, 0, 0, 0, 0, 0, 0, 2] ++ List.replicate 22 0 ++ [1, 0x41]

/-- A 34-byte window with the one-byte identifier 0x00. -/
def selfWindow : List Byte := [34] ++ List.replicate 31 0 ++ [1, 0x00]

/-- A 34-byte well-formed window: identifier "A", equal halves everywhere. -/
def plainWindow : List Byte :=
  [34, 0, 20, 0, 0, 0, 0, 0, 0, 20, 0, 8, 0, 0, 0, 0, 8, 0, 120, 1, 2, 3, 4, 5, 0, 2, 0, 0,
    1, 0, 0, 1, 1, 0x41]

/-- A 36-byte window with the Joliet identifier "A" (UCS-2BE) and a padding byte. -/
def jolietWindow : List Byte := [36] ++ List.replicate 31 0 ++ [2, 0x00, 0x41, 0]

/-- Removes the trailing U+0000 runes of a rune sequence. -/
def trimNullRunes (rs : List Nat) : List Nat :=
  (rs.reverse.dropWhile (fun r => decide (r = 0))).reverse

/-- A rune that `string([]rune)` writes as itself. -/
def validRune (r : Nat) : Prop := r < 0xD800 ∨ (0xE000 ≤ r ∧ r ≤ 0x10FFFF)

/-- The `i`-th big-endian 16-bit unit of a byte string: bytes `2i` and `2i+1`. -/
def unitAt (data : List Byte) (i : Nat) : Nat :=
  256 * byteAt data (2 * i) + byteAt data (2 * i + 1)

/-- The UCS-2BE bytes of "A" followed by one U+0000 of padding. -/
def paddedName : List Byte := [0x00, 0x41, 0x00, 0x00]

/-- The UCS-2BE bytes of "A*B". -/
def starName : List Byte := [0x00, 0x41, 0x00, 0x2A, 0x00, 0x42]

/-- The big-endian bytes of a sequence of 16-bit units, two bytes per unit:
the UCS-2BE (UTF-16BE) wire form. The repository has no encoder; this is the
encoding the round-trip statements are about. -/
def uint16sToBE (us : List Nat) : List Byte :=
  us.flatMap (fun u => [toByte (u >>> 8), toByte u])

/-- The loop behind the Go conversion `[]rune(s)`; `fuel` bounds the number of
runes, and each rune takes at least one byte. -/
def stringRunesLoop : Nat → List Byte → List Nat
  | 0, _ => []
  | fuel + 1, s =>
    if s.length = 0 then []
    else
      let (r, size) := decoderune s
      r :: stringRunesLoop fuel (s.drop size)

/-- Go conversion `[]rune(s)` for a string `s`. -/
def stringRunes (s : List Byte) : List Nat :=
  stringRunesLoop s.length s

/-- The function `utf16.Encode` of the Go library: a rune below 0x10000 that
is not a surrogate is one unit, a rune from 0x10000 to 0x10FFFF is a surrogate
pair, anything else is U+FFFD. -/
def utf16Encode : List Nat → List Nat
  | [] => []
  | v :: rest =>
    if v < surr1 ∨ (surr3 ≤ v ∧ v < surrSelf) then v :: utf16Encode rest
    else if surrSelf ≤ v ∧ v ≤ maxRune then
      (surr1 + (((v - surrSelf) >>> 10) &&& 0x3ff)) :: (surr2 + ((v - surrSelf) &&& 0x3ff))
        :: utf16Encode rest
    else replacementChar :: utf16Encode rest

/-- Re-encoding of a Go string as UTF-16 big-endian bytes. -/
def utf16beEncode (s : List Byte) : List Byte :=
  uint16sToBE (utf16Encode (stringRunes s))

/-- The code points of "Résumé.pdf". -/
def resumeName : List Nat := [0x52, 0xE9, 0x73, 0x75, 0x6D, 0xE9, 0x2E, 0x70, 0x64, 0x66]

/-- The UCS-2BE bytes of "Résumé.pdf". -/
def resumeBytes : List Byte :=
  [0x00, 0x52, 0x00, 0xE9, 0x00, 0x73, 0x00, 0x75, 0x00, 0x6D, 0x00, 0xE9, 0x00, 0x2E,
    0x00, 0x70, 0x00, 0x64, 0x00, 0x66]

namespace PrimaryVolumeDescriptor

variable {S : SuspPackage} {D : DirectoryPackage S}

/-- The descriptor `Unmarshal` leaves when it returns nil: every field set from
the sector `data` and from the root record decoded out of bytes 156..189. -/
def decoded (N : EncodingPackage) (pvd : PrimaryVolumeDescriptor S D) (data : List Byte) :
    PrimaryVolumeDescriptor S D :=
  unmarshalTail
    { pvd with
      rawData := data,
      vdType := (arrayIndex data 0).val,
      standardIdentifier := arraySlice data 1 6,
      volumeDescriptorVersion := toInt8 (arrayIndex data 6),
      UnusedField1 := arraySlice data 7 8,
      SystemIdentifier := arraySlice data 8 40,
      VolumeIdentifier := arraySlice data 40 72,
      UnusedField2 := arraySlice data 72 80,
      VolumeSpaceSize := (N.UnmarshalInt32LSBMSB (arraySlice data 80 88)).1,
      UnusedField3 := arraySlice data 88 120,
      VolumeSetSize := (N.UnmarshalInt16LSBMSB (arraySlice data 120 124)).1,
      VolumeSequenceNumber := (N.UnmarshalInt16LSBMSB (arraySlice data 124 128)).1,
      LogicalBlockSize := (N.UnmarshalInt16LSBMSB (arraySlice data 128 132)).1,
      pathTableSize := (N.UnmarshalInt32LSBMSB (arraySlice data 132 140)).1 }
    (IsoKit.Unmarshal S (NewRecord S) (arraySlice data 156 190)).1 data

/-- The condition under which `Unmarshal` returns nil: the root record is
accepted and none of the five dual-endian fields is refused. -/
def succeeds (S : SuspPackage) (N : EncodingPackage) (data : List Byte) : Prop :=
  (IsoKit.Unmarshal S (NewRecord S) (arraySlice data 156 190)).2 = Outcome.nil ∧
  (N.UnmarshalInt32LSBMSB (arraySlice data 80 88)).2 = none ∧
  (N.UnmarshalInt16LSBMSB (arraySlice data 120 124)).2 = none ∧
  (N.UnmarshalInt16LSBMSB (arraySlice data 124 128)).2 = none ∧
  (N.UnmarshalInt16LSBMSB (arraySlice data 128 132)).2 = none ∧
  (N.UnmarshalInt32LSBMSB (arraySlice data 132 140)).2 = none

end PrimaryVolumeDescriptor

/-- Overwrites the bytes of `s` from offset `off` on with `bs`. -/
def patch (s : List Byte) (off : Nat) (bs : List Byte) : List Byte :=
  s.take off ++ bs ++ s.drop (off + bs.length)

/-- Applies a list of patches, first to last. -/
def patchAll (ps : List (Nat × List Byte)) (s : List Byte) : List Byte :=
  ps.foldl (fun s p => patch s p.1 p.2) s

/-- A well-formed primary volume descriptor sector: type 1, "CD001", version 1,
system identifier "LINUX" and volume identifier "TEST" padded with spaces to 32
bytes, dual-endian sizes with equal halves (path table size 42), path tables at
blocks 19 (L) and 21 (M), and a 34-byte root record with the one-byte
identifier 0x00. -/
def primarySector : List Byte :=
  patchAll [ (0, [1, 0x43, 0x44, 0x30, 0x30, 0x31, 1, 0]),
    (8, [0x4C, 0x49, 0x4E, 0x55, 0x58] ++ List.replicate 27 0x20),
    (40, [0x54, 0x45, 0x53, 0x54] ++ List.replicate 28 0x20),
    (80, [100, 0, 0, 0, 0, 0, 0, 100]),
    (120, [1, 0, 0, 1, 1, 0, 0, 1, 0, 8, 8, 0]),
    (132, [42, 0, 0, 0, 0, 0, 0, 42]),
    (140, [19, 0, 0, 0, 0, 0, 0, 0, 0, 0, 0, 21, 0, 0, 0, 0]),
    (156, [34, 0, 20, 0, 0, 0, 0, 0, 0, 20, 0, 8, 0, 0, 0, 0, 8, 0, 120, 1, 2, 3, 4, 5, 0,
      2, 0, 0, 1, 0, 0, 1, 1, 0]),
    (881, [1]) ] (List.replicate 2048 0)

/-- The sector `primarySector` with the path table size 42 in the little-endian
half and 43 in the big-endian half. -/
def mismatchSector : List Byte := patch primarySector 132 [42, 0, 0, 0, 0, 0, 0, 43]

/-- The sector `primarySector` with the standard identifier "XXXXX". -/
def badIdentifierSector : List Byte := patch primarySector 1 [0x58, 0x58, 0x58, 0x58, 0x58]

/-- The sector `primarySector` with the version byte 2. -/
def versionSector : List Byte := patch primarySector 6 [2]

/-- The way a parse ended, without the descriptor. -/
def ParseResult.status {α ES EE ED : Type} : ParseResult α ES EE ED → ParseResult Unit ES EE ED
  | ParseResult.ok _ => ParseResult.ok ()
  | ParseResult.error e => ParseResult.error e
  | ParseResult.fault => ParseResult.fault

/-- Whether a parse returned a descriptor. -/
def ParseResult.isOk {α ES EE ED : Type} : ParseResult α ES EE ED → Bool
  | ParseResult.ok _ => true
  | _ => false

/-- The offsets of a primary volume descriptor sector that hold the version
byte or an unused field: 6, 7, 72..79, 88..119, 882 and 1395..2047. -/
def reservedOffset (i : Nat) : Prop :=
  i = 6 ∨ i = 7 ∨ (72 ≤ i ∧ i ≤ 79) ∨ (88 ≤ i ∧ i ≤ 119) ∨ i = 882 ∨ (1395 ≤ i ∧ i ≤ 2047)

namespace PrimaryVolumeDescriptor

variable {S : SuspPackage} {D : DirectoryPackage S}

/-- The decoded fields of a descriptor other than the version, the unused
fields and the stored raw sector. -/
def mainFields (pvd : PrimaryVolumeDescriptor S D) :
    (Nat × List Byte × List Byte × List Byte × Int × Int × Int × Int × Int) ×
    (Nat × Nat × Nat × Nat × Option D.DirectoryEntry) ×
    (List Byte × List Byte × List Byte × List Byte × List Byte × List Byte × List Byte) ×
    (List Byte × List Byte × List Byte × List Byte × Nat × List Byte) :=
  ((pvd.vdType, pvd.standardIdentifier, pvd.SystemIdentifier, pvd.VolumeIdentifier,
      pvd.VolumeSpaceSize, pvd.VolumeSetSize, pvd.VolumeSequenceNumber, pvd.LogicalBlockSize,
      pvd.pathTableSize),
    (pvd.LPathTableLocation, pvd.LOptionalPathTableLocation, pvd.MPathTableLocation,
      pvd.MOptionalPathTableLocation, pvd.RootDirectoryEntry),
    (pvd.VolumeSetIdentifier, pvd.PublisherIdentifier, pvd.DataPreparerIdentifier,
      pvd.ApplicationIdentifier, pvd.CopyRightFileIdentifier, pvd.AbstractFileIdentifier,
      pvd.BibliographicFileIdentifier),
    (pvd.VolumeCreationDate, pvd.VolumeModificationDate, pvd.VolumeExpirationDate,
      pvd.VolumeEffectiveDate, pvd.FileStructureVersion, pvd.ApplicationUse))

/-- The fields of a descriptor located after offset 139 of the sector. -/
def tailFields (pvd : PrimaryVolumeDescriptor S D) :
    (Nat × Nat × Nat × Nat × Option D.DirectoryEntry) ×
    (List Byte × List Byte × List Byte × List Byte × List Byte × List Byte × List Byte) ×
    (List Byte × List Byte × List Byte × List Byte × Nat × Nat × List Byte × List Byte) :=
  ((pvd.LPathTableLocation, pvd.LOptionalPathTableLocation, pvd.MPathTableLocation,
      pvd.MOptionalPathTableLocation, pvd.RootDirectoryEntry),
    (pvd.VolumeSetIdentifier, pvd.PublisherIdentifier, pvd.DataPreparerIdentifier,
      pvd.ApplicationIdentifier, pvd.CopyRightFileIdentifier, pvd.AbstractFileIdentifier,
      pvd.BibliographicFileIdentifier),
    (pvd.VolumeCreationDate, pvd.VolumeModificationDate, pvd.VolumeExpirationDate,
      pvd.VolumeEffectiveDate, pvd.FileStructureVersion, pvd.UnusedField4, pvd.ApplicationUse,
      pvd.UnusedField5))

end PrimaryVolumeDescriptor

/-- A supplementary volume descriptor sector: the sector `primarySector` with
type 2 and the escape sequence "%/E" (Joliet level 3) at offset 88. -/
def jolietSector : List Byte := patch (patch primarySector 0 [2]) 88 [0x25, 0x2F, 0x45]

/-- A record whose identifier is 222 bytes long (222 times "A"). -/
def longIdentifierRecord : DirectoryRecord nullSusp :=
  { zeroRecord nullSusp false with FileIdentifier := List.replicate 222 0x41 }

/-- A record with the identifier "A.TXT;1". -/
def shortIdentifierRecord : DirectoryRecord nullSusp :=
  { zeroRecord nullSusp false with FileIdentifier := [0x41, 0x2E, 0x54, 0x58, 0x54, 0x3B, 0x31] }

/-- The instant 2024-02-29 13:45:10 in a zone 5 h 30 min east of UTC. -/
def sampleTime : Time where
  Year := 2024
  Month := 2
  Day := 29
  Hour := 13
  Minute := 45
  Second := 10
  zoneOffset := 19800
  month_range := by decide
  day_range := by decide
  hour_range := by decide
  minute_range := by decide
  second_range := by decide

/-- The offsets of a directory record that hold the big-endian half of a
dual-endian field: 6..9, 14..17 and 30..31. -/
def bigEndianOffset (i : Nat) : Prop :=
  (6 ≤ i ∧ i ≤ 9) ∨ (14 ≤ i ∧ i ≤ 17) ∨ (30 ≤ i ∧ i ≤ 31)

/-- A window of 256 bytes whose identifier-length byte is 222; every other
byte is 0. -/
def longWindow : List Byte := patch (List.replicate 256 0) 32 [222]

/-- The window `longWindow` with byte 6, in the big-endian half of the extent,
set to 1. -/
def longWindowBE : List Byte := patch longWindow 6 [1]

/-- The decoded fields a primary volume descriptor has in common with a
supplementary one, the root directory entry apart: type, standard identifier,
version, system and volume identifier, the five dual-endian sizes, the four
path table locations, the seven identifier fields, the four dates, the file
structure version and the application use. -/
def PrimaryVolumeDescriptor.sharedFields {S : SuspPackage} {D : DirectoryPackage S}
    (pvd : PrimaryVolumeDescriptor S D) :
    (Nat × List Byte × Int × List Byte × List Byte × Int × Int × Int × Int × Int) ×
    (Nat × Nat × Nat × Nat) ×
    (List Byte × List Byte × List Byte × List Byte × List Byte × List Byte × List Byte) ×
    (List Byte × List Byte × List Byte × List Byte × Nat × List Byte) :=
  ((pvd.vdType, pvd.standardIdentifier, pvd.volumeDescriptorVersion, pvd.SystemIdentifier,
      pvd.VolumeIdentifier, pvd.VolumeSpaceSize, pvd.VolumeSetSize, pvd.VolumeSequenceNumber,
      pvd.LogicalBlockSize, pvd.pathTableSize),
    (pvd.LPathTableLocation, pvd.LOptionalPathTableLocation, pvd.MPathTableLocation,
      pvd.MOptionalPathTableLocation),
    (pvd.VolumeSetIdentifier, pvd.PublisherIdentifier, pvd.DataPreparerIdentifier,
      pvd.ApplicationIdentifier, pvd.CopyRightFileIdentifier, pvd.AbstractFileIdentifier,
      pvd.BibliographicFileIdentifier),
    (pvd.VolumeCreationDate, pvd.VolumeModificationDate, pvd.VolumeExpirationDate,
      pvd.VolumeEffectiveDate, pvd.FileStructureVersion, pvd.ApplicationUse))

/-- The same fields of a supplementary volume descriptor. -/
def SupplementaryVolumeDescriptor.sharedFields {S : SuspPackage} {D : DirectoryPackage S}
    (svd : SupplementaryVolumeDescriptor S D) :
    (Nat × List Byte × Int × List Byte × List Byte × Int × Int × Int × Int × Int) ×
    (Nat × Nat × Nat × Nat) ×
    (List Byte × List Byte × List Byte × List Byte × List Byte × List Byte × List Byte) ×
    (List Byte × List Byte × List Byte × List Byte × Nat × List Byte) :=
  ((svd.vdType, svd.standardIdentifier, svd.volumeDescriptorVersion, svd.SystemIdentifier,
      svd.VolumeIdentifier, svd.VolumeSpaceSize, svd.VolumeSetSize, svd.VolumeSequenceNumber,
      svd.LogicalBlockSize, svd.pathTableSize),
    (svd.LPathTableLocation, svd.LOptionalPathTableLocation, svd.MPathTableLocation,
      svd.MOptionalPathTableLocation),
    (svd.VolumeSetIdentifier, svd.PublisherIdentifier, svd.DataPreparerIdentifier,
      svd.ApplicationIdentifier, svd.CopyRightFileIdentifier, svd.AbstractFileIdentifier,
      svd.BibliographicFileIdentifier),
    (svd.VolumeCreationDate, svd.VolumeModificationDate, svd.VolumeExpirationDate,
      svd.VolumeEffectiveDate, svd.FileStructureVersion, svd.ApplicationUse))

/-- An entry of the sample images: its path, whether it is a directory, and
whether its bytes can be read from the image. -/
structure SampleEntry where
  FullPath : String
  IsDir : Bool
  readable : Bool
  deriving DecidableEq

/-- Sample packages. The state is the list of the calls made on the output
tree and of the reads of file data, the latest last. An image source is `true` when its directory tree can
be walked; the parser is the image source. Every image has a boot record that
is not El Torito, a primary descriptor whose root is 0 and two supplementary
descriptors whose roots are 1 and 2. `Dir p` is written "dir p". -/
@[reducible]
def samplePackages : Packages where
  World := List String
  Error := String
  Reader := Bool
  Callback := Unit
  Logger := Unit
  Parser := Bool
  BootRecordDescriptor := Unit
  ElTorito := Unit
  PrimaryVolumeDescriptor := Unit
  SupplementaryVolumeDescriptor := Nat
  DirectoryRecord := Nat
  FileSystemEntry := SampleEntry
  Timestamp := Unit
  File := String
  emptyCallback := ()
  Discard := ()
  ReadAt := fun _ n _ w => ((List.replicate n 0, none), w)
  NewParser := fun isoReader _ w => (isoReader, w)
  GetBootRecord := fun _ w => (Except.ok (), w)
  BootSystemIdentifier := fun _ => ""
  IsElTorito := fun _ => false
  GetElTorito := fun _ _ w => (Except.ok (), w)
  GetPrimaryVolumeDescriptor := fun _ w => (Except.ok (), w)
  GetSupplementaryVolumeDescriptors := fun _ w => (Except.ok [1, 2], w)
  primaryRoot := fun _ => 0
  supplementaryRoot := fun svd => svd
  BuildFileSystemEntries := fun p root _ w =>
    if p then ((Slice.mk [⟨if root = 0 then "A.TXT" else "a.txt", false, true⟩], none), w)
    else ((Slice.nil, some "unreadable directory"), w)
  WalkDirectoryRecords := fun p root w =>
    if p then ((Slice.mk [root], none), w) else ((Slice.nil, some "unreadable directory"), w)
  IsDir := fun e => e.IsDir
  FullPath := fun e => e.FullPath
  Mode := fun e => if e.IsDir then 0o755 else 0o644
  ModTime := fun _ => ()
  IsZero := fun _ => true
  GetBytes := fun e w =>
    if e.readable then (Except.ok [0x68, 0x69], w ++ ["read " ++ e.FullPath])
    else (Except.error "read error", w ++ ["read " ++ e.FullPath])
  MkdirAll := fun p _ w => (none, w ++ ["mkdir " ++ p])
  Create := fun p w => (Except.ok p, w ++ ["create " ++ p])
  Write := fun f _ w => (none, w ++ ["write " ++ f])
  Close := fun f w => w ++ ["close " ++ f]
  Chmod := fun p _ w => (none, w ++ ["chmod " ++ p])
  Chtimes := fun p _ _ w => (none, w ++ ["chtimes " ++ p])
  Join := fun a b => a ++ "/" ++ b
  Dir := fun p => "dir " ++ p

/-- A handle of the sample packages that holds the entries `entries`. -/
def sampleImage (entries : List SampleEntry) : ISO9660 samplePackages where
  isoReader := true
  openOptions := defaultOpenOptions samplePackages
  systemArea := []
  bootRecord := ()
  pvd := ()
  svds := []
  activeVD := some (VolumeDescriptor.primary ())
  directoryRecords := Slice.mk []
  filesystemEntries := Slice.mk entries
  elTorito := none

/-- The directory DOCS of the sample images. -/
def docsEntry : SampleEntry := ⟨"DOCS", true, true⟩

/-- The file DOCS/A.TXT, whose bytes cannot be read. -/
def fileA : SampleEntry := ⟨"DOCS/A.TXT", false, false⟩

/-- The file DOCS/B.TXT. -/
def fileB : SampleEntry := ⟨"DOCS/B.TXT", false, true⟩

/-- The option that sets `PreferJoliet`. -/
def withPreferJoliet (C L : Type) : OpenOption C L := fun o => { o with PreferJoliet := true }

/-- The record that a window ending with the identifier and its padding byte
is decoded into when the Joliet flag is off, written from the bytes of the
window: the header fields, the identifier bytes, and the padding byte after an
identifier of even length. Every field of the System Use Area is as in `dr`. -/
def exactRecord {S : SuspPackage} (dr : DirectoryRecord S) (data : List Byte) :
    DirectoryRecord S :=
  { decodedHeader dr data with
    FileIdentifier := (data.take (33 + byteAt data 32)).drop 33,
    PaddingField :=
      if byteAt data 32 % 2 = 0 then [data.getD (33 + byteAt data 32) 0] else [] }

/-- A window of 40 bytes for the identifier "A.TXT;1": byte 32 is 7 and the
identifier follows. -/
def builtWindow : List Byte :=
  patch (List.replicate 40 0) 32 [7, 0x41, 0x2E, 0x54, 0x58, 0x54, 0x3B, 0x31]

/-- One call of an option constructor of `options.go`, with its argument. -/
inductive OptionCall (C L : Type)
  | extractionProgress (callback : C)
  | bootFileExtractLocation (location : String)
  | logger (logger : L)
  | parseOnOpen (parseOnOpen : Bool)
  | readOnly (readOnly : Bool)
  | preloadDir (preloadDir : Bool)
  | stripVersionInfo (stripVersionInfo : Bool)
  | preferEnhancedVolumes (preferEnhancedVolumes : Bool)

/-- The option the call returns. -/
def OptionCall.option {C L : Type} : OptionCall C L → OpenOption C L
  | OptionCall.extractionProgress v => WithExtractionProgress v
  | OptionCall.bootFileExtractLocation v => WithBootFileExtractLocation v
  | OptionCall.logger v => WithLogger v
  | OptionCall.parseOnOpen v => WithParseOnOpen v
  | OptionCall.readOnly v => WithReadOnly v
  | OptionCall.preloadDir v => WithPreloadDir v
  | OptionCall.stripVersionInfo v => WithStripVersionInfo v
  | OptionCall.preferEnhancedVolumes v => WithPreferEnhancedVolumes v

/-- The field the constructor is for, by its place in the declaration of
`OpenOptions`: 0 ParseOnOpen, 1 ReadOnly, 2 PreloadDir, 3 PreferEnhancedVolumes,
4 StripVersionInfo, 5 BootFileExtractLocation, 6 ExtractionProgressCallback,
7 Logger. -/
def OptionCall.field {C L : Type} : OptionCall C L → Nat
  | OptionCall.parseOnOpen _ => 0
  | OptionCall.readOnly _ => 1
  | OptionCall.preloadDir _ => 2
  | OptionCall.preferEnhancedVolumes _ => 3
  | OptionCall.stripVersionInfo _ => 4
  | OptionCall.bootFileExtractLocation _ => 5
  | OptionCall.extractionProgress _ => 6
  | OptionCall.logger _ => 7

/-- The loop `for _, opt := range opts { opt(openOptions) }` of `Open`, for the
options that a list of constructor calls returns. -/
def applyCalls {C L : Type} (calls : List (OptionCall C L)) (o : OpenOptions C L) :
    OpenOptions C L :=
  (calls.map OptionCall.option).foldl (fun o opt => opt o) o

/-- The options hold the argument of the call in the field the call is for. -/
def OptionCall.holds {C L : Type} (c : OptionCall C L) (o : OpenOptions C L) : Prop :=
  match c with
  | OptionCall.extractionProgress v => o.ExtractionProgressCallback = v
  | OptionCall.bootFileExtractLocation v => o.BootFileExtractLocation = v
  | OptionCall.logger v => o.Logger = v
  | OptionCall.parseOnOpen v => o.ParseOnOpen = v
  | OptionCall.readOnly v => o.ReadOnly = v
  | OptionCall.preloadDir v => o.PreloadDir = v
  | OptionCall.stripVersionInfo v => o.StripVersionInfo = v
  | OptionCall.preferEnhancedVolumes v => o.PreferEnhancedVolumes = v

/-- Options with every field false or empty. -/
def blankOptions : OpenOptions Unit Unit where
  ParseOnOpen := false
  ReadOnly := false
  PreloadDir := false
  PreferEnhancedVolumes := false
  StripVersionInfo := false
  BootFileExtractLocation := ""
  ExtractionProgressCallback := ()
  Logger := ()
  RockRidgeEnabled := false
  ElToritoEnabled := false
  PreferJoliet := false

/-- The sector `primarySector` with the version byte 200. -/
def signedVersionSector : List Byte := patch primarySector 6 [200]

/-- The sample packages on an output tree in which no file can be created:
`Create` fails with "permission denied". -/
@[reducible]
def lockedPackages : Packages :=
  { samplePackages with
    Create := fun p w => (Except.error "permission denied", w ++ ["create " ++ p]) }

/-- A handle of `lockedPackages` that holds the entries `entries`. -/
def lockedImage (entries : List SampleEntry) : ISO9660 lockedPackages where
  isoReader := true
  openOptions := defaultOpenOptions lockedPackages
  systemArea := []
  bootRecord := ()
  pvd := ()
  svds := []
  activeVD := some (VolumeDescriptor.primary ())
  directoryRecords := Slice.mk []
  filesystemEntries := Slice.mk entries
  elTorito := none

/-! ## Theorems -/

theorem exists_header (data : List Byte) (h : 33 ≤ data.length) :
    ∃ (b0 b1 b2 b3 b4 b5 b6 b7 b8 b9 b10 b11 b12 b13 b14 b15 b16 b17 b18 b19 b20 b21 b22 b23 b24 b25 b26 b27 b28 b29 b30 b31 b32 : Byte) (rest : List Byte), data = b0 :: b1 :: b2 :: b3 :: b4 :: b5 :: b6 :: b7 :: b8 :: b9 :: b10 :: b11 :: b12 :: b13 :: b14 :: b15 :: b16 :: b17 :: b18 :: b19 :: b20 :: b21 :: b22 :: b23 :: b24 :: b25 :: b26 :: b27 :: b28 :: b29 :: b30 :: b31 :: b32 :: rest := by
  have hlen : (data.take 33).length = 33 := by simp [h]
  have hsplit : data = data.take 33 ++ data.drop 33 := (List.take_append_drop 33 data).symm
  generalize data.take 33 = hd at hlen hsplit
  generalize data.drop 33 = rest at hsplit
  obtain _ | ⟨b0, hd⟩ := hd
  · simp at hlen
  obtain _ | ⟨b1, hd⟩ := hd
  · simp at hlen
  obtain _ | ⟨b2, hd⟩ := hd
  · simp at hlen
  obtain _ | ⟨b3, hd⟩ := hd
  · simp at hlen
  obtain _ | ⟨b4, hd⟩ := hd
  · simp at hlen
  obtain _ | ⟨b5, hd⟩ := hd
  · simp at hlen
  obtain _ | ⟨b6, hd⟩ := hd
  · simp at hlen
  obtain _ | ⟨b7, hd⟩ := hd
  · simp at hlen
  obtain _ | ⟨b8, hd⟩ := hd
  · simp at hlen
  obtain _ | ⟨b9, hd⟩ := hd
  · simp at hlen
  obtain _ | ⟨b10, hd⟩ := hd
  · simp at hlen
  obtain _ | ⟨b11, hd⟩ := hd
  · simp at hlen
  obtain _ | ⟨b12, hd⟩ := hd
  · simp at hlen
  obtain _ | ⟨b13, hd⟩ := hd
  · simp at hlen
  obtain _ | ⟨b14, hd⟩ := hd
  · simp at hlen
  obtain _ | ⟨b15, hd⟩ := hd
  · simp at hlen
  obtain _ | ⟨b16, hd⟩ := hd
  · simp at hlen
  obtain _ | ⟨b17, hd⟩ := hd
  · simp at hlen
  obtain _ | ⟨b18, hd⟩ := hd
  · simp at hlen
  obtain _ | ⟨b19, hd⟩ := hd
  · simp at hlen
  obtain _ | ⟨b20, hd⟩ := hd
  · simp at hlen
  obtain _ | ⟨b21, hd⟩ := hd
  · simp at hlen
  obtain _ | ⟨b22, hd⟩ := hd
  · simp at hlen
  obtain _ | ⟨b23, hd⟩ := hd
  · simp at hlen
  obtain _ | ⟨b24, hd⟩ := hd
  · simp at hlen
  obtain _ | ⟨b25, hd⟩ := hd
  · simp at hlen
  obtain _ | ⟨b26, hd⟩ := hd
  · simp at hlen
  obtain _ | ⟨b27, hd⟩ := hd
  · simp at hlen
  obtain _ | ⟨b28, hd⟩ := hd
  · simp at hlen
  obtain _ | ⟨b29, hd⟩ := hd
  · simp at hlen
  obtain _ | ⟨b30, hd⟩ := hd
  · simp at hlen
  obtain _ | ⟨b31, hd⟩ := hd
  · simp at hlen
  obtain _ | ⟨b32, hd⟩ := hd
  · simp at hlen
  obtain rfl : hd = [] := by simpa using hlen
  exact ⟨b0, b1, b2, b3, b4, b5, b6, b7, b8, b9, b10, b11, b12, b13, b14, b15, b16, b17, b18, b19, b20, b21, b22, b23, b24, b25, b26, b27, b28, b29, b30, b31, b32, rest, by simpa using hsplit⟩

theorem Unmarshal_header (S : SuspPackage) (dr : DirectoryRecord S)
    (b0 b1 b2 b3 b4 b5 b6 b7 b8 b9 b10 b11 b12 b13 b14 b15 b16 b17 b18 b19 b20 b21 b22 b23 b24 b25 b26 b27 b28 b29 b30 b31 b32 : Byte) (rest : List Byte) :
    Unmarshal S dr (b0 :: b1 :: b2 :: b3 :: b4 :: b5 :: b6 :: b7 :: b8 :: b9 :: b10 :: b11 :: b12 :: b13 :: b14 :: b15 :: b16 :: b17 :: b18 :: b19 :: b20 :: b21 :: b22 :: b23 :: b24 :: b25 :: b26 :: b27 :: b28 :: b29 :: b30 :: b31 :: b32 :: rest) =
      unmarshalIdentifier S
        { dr with
          LengthOfDirectoryRecord := b0.val,
          ExtendedAttributeRecord := b1.val,
          LocationOfExtent := b2.val ||| (b3.val <<< 8) ||| (b4.val <<< 16) ||| (b5.val <<< 24),
          DataLength := b10.val ||| (b11.val <<< 8) ||| (b12.val <<< 16) ||| (b13.val <<< 24),
          RecordingDateAndTime := [b18, b19, b20, b21, b22, b23, b24],
          FileFlags := some b25,
          FileUnitSize := b26.val,
          InterleaveGapSize := b27.val,
          VolumeSequenceNumber := b28.val ||| (b29.val <<< 8),
          FileIdentifierLength := b32.val } (b0 :: b1 :: b2 :: b3 :: b4 :: b5 :: b6 :: b7 :: b8 :: b9 :: b10 :: b11 :: b12 :: b13 :: b14 :: b15 :: b16 :: b17 :: b18 :: b19 :: b20 :: b21 :: b22 :: b23 :: b24 :: b25 :: b26 :: b27 :: b28 :: b29 :: b30 :: b31 :: b32 :: rest) := by
  simp [Unmarshal, index, slice, leUint32, leUint16]
  rw [if_neg (by omega), if_neg (by omega)]

theorem slice_eq (data : List Byte) (lo hi : Nat) (h1 : hi ≤ data.length) (h2 : lo ≤ hi) :
    slice data lo hi = some ((data.take hi).drop lo) := by
  simp [slice, h1, h2]

theorem sliceFrom_eq (data : List Byte) (lo : Nat) (h : lo ≤ data.length) :
    sliceFrom data lo = some (data.drop lo) := by
  simp [sliceFrom, slice, h]

theorem index_eq (data : List Byte) (i : Nat) (h : i < data.length) :
    index data i = some (data.getD i 0) := by
  simp [index, h]

/-- Fields that step 4 never writes. -/
theorem unmarshalSystemUse_frame (S : SuspPackage) (dr : DirectoryRecord S) (data : List Byte)
    (s : Nat) :
    (unmarshalSystemUse S dr data s).1.LengthOfDirectoryRecord = dr.LengthOfDirectoryRecord ∧
    (unmarshalSystemUse S dr data s).1.ExtendedAttributeRecord = dr.ExtendedAttributeRecord ∧
    (unmarshalSystemUse S dr data s).1.LocationOfExtent = dr.LocationOfExtent ∧
    (unmarshalSystemUse S dr data s).1.DataLength = dr.DataLength ∧
    (unmarshalSystemUse S dr data s).1.RecordingDateAndTime = dr.RecordingDateAndTime ∧
    (unmarshalSystemUse S dr data s).1.FileFlags = dr.FileFlags ∧
    (unmarshalSystemUse S dr data s).1.FileUnitSize = dr.FileUnitSize ∧
    (unmarshalSystemUse S dr data s).1.InterleaveGapSize = dr.InterleaveGapSize ∧
    (unmarshalSystemUse S dr data s).1.VolumeSequenceNumber = dr.VolumeSequenceNumber ∧
    (unmarshalSystemUse S dr data s).1.FileIdentifierLength = dr.FileIdentifierLength ∧
    (unmarshalSystemUse S dr data s).1.FileIdentifier = dr.FileIdentifier ∧
    (unmarshalSystemUse S dr data s).1.PaddingField = dr.PaddingField ∧
    (unmarshalSystemUse S dr data s).1.Joliet = dr.Joliet := by
  unfold unmarshalSystemUse
  dsimp only
  repeat' split
  all_goals simp

/-- The System Use Area after step 4. -/
theorem unmarshalSystemUse_SystemUse (S : SuspPackage) (dr : DirectoryRecord S)
    (data : List Byte) (s : Nat) (hs : s ≤ data.length) :
    (unmarshalSystemUse S dr data s).1.SystemUse =
      if 0 < (data.drop s).length then data.drop s else dr.SystemUse := by
  unfold unmarshalSystemUse
  rw [if_neg (by omega), sliceFrom_eq data s hs]
  dsimp only
  repeat' split
  all_goals simp_all

/-- Step 4 does not panic. -/
theorem unmarshalSystemUse_no_fault (S : SuspPackage) (dr : DirectoryRecord S)
    (data : List Byte) (s : Nat) :
    (unmarshalSystemUse S dr data s).2 ≠ Outcome.fault := by
  unfold unmarshalSystemUse
  split_ifs with h
  · simp
  · rw [sliceFrom_eq data s (by omega)]
    dsimp only
    repeat' split
    all_goals simp

/-- Step 4 ends with nil or with an error of package `susp`. -/
theorem unmarshalSystemUse_outcome (S : SuspPackage) (dr : DirectoryRecord S)
    (data : List Byte) (s : Nat) :
    (unmarshalSystemUse S dr data s).2 = Outcome.nil ∨
      ∃ e, (unmarshalSystemUse S dr data s).2 = Outcome.error (UnmarshalError.susp e) := by
  unfold unmarshalSystemUse
  split_ifs with h
  · simp
  · rw [sliceFrom_eq data s (by omega)]
    dsimp only
    repeat' split
    all_goals simp

/-- Step 3 with the `uint8` sums written without wrap-around, for identifier
lengths up to 222. -/
theorem unmarshalPadding_eq (S : SuspPackage) (dr : DirectoryRecord S) (data : List Byte)
    (hL : dr.FileIdentifierLength ≤ 222) :
    unmarshalPadding S dr data =
      if dr.FileIdentifierLength % 2 = 0 then
        if 33 + dr.FileIdentifierLength ≥ data.length then (dr, Outcome.nil)
        else unmarshalSystemUse S
          { dr with PaddingField := [data.getD (33 + dr.FileIdentifierLength) 0] } data
          ((34 + dr.FileIdentifierLength) % 256)
      else unmarshalSystemUse S { dr with PaddingField := [] } data
        (33 + dr.FileIdentifierLength) := by
  unfold unmarshalPadding
  have h1 : (33 + dr.FileIdentifierLength) % 256 = 33 + dr.FileIdentifierLength := by omega
  have h2 : (33 + dr.FileIdentifierLength + 1) % 256 = (34 + dr.FileIdentifierLength) % 256 := by
    omega
  simp only [h1, h2]
  split_ifs with ha hb
  · rfl
  · rw [index_eq data _ (by omega)]
  · rfl

/-- Step 3 ends with nil or with an error of package `susp`. -/
theorem unmarshalPadding_outcome (S : SuspPackage) (dr : DirectoryRecord S)
    (data : List Byte) :
    (unmarshalPadding S dr data).2 = Outcome.nil ∨
      ∃ e, (unmarshalPadding S dr data).2 = Outcome.error (UnmarshalError.susp e) := by
  unfold unmarshalPadding
  dsimp only
  split_ifs with ha hb
  · simp
  · rw [index_eq data _ (by omega)]
    exact unmarshalSystemUse_outcome _ _ _ _
  · exact unmarshalSystemUse_outcome _ _ _ _

/-- Step 2 when the wrapped sum still exceeds the window. -/
theorem unmarshalIdentifier_beyond (S : SuspPackage) (dr : DirectoryRecord S)
    (data : List Byte) (h : (33 + dr.FileIdentifierLength) % 256 > data.length) :
    unmarshalIdentifier S dr data = (dr, Outcome.error UnmarshalError.identifierBeyondData) := by
  unfold unmarshalIdentifier
  rw [if_pos h]

/-- Step 2 when the `uint8` sum wraps: the slice `data[33:h]` has `h < 33`. -/
theorem unmarshalIdentifier_fault (S : SuspPackage) (dr : DirectoryRecord S)
    (data : List Byte) (hlen : 33 ≤ data.length) (hL : 223 ≤ dr.FileIdentifierLength)
    (hL2 : dr.FileIdentifierLength < 256) :
    unmarshalIdentifier S dr data = (dr, Outcome.fault) := by
  unfold unmarshalIdentifier
  have h1 : (33 + dr.FileIdentifierLength) % 256 = dr.FileIdentifierLength - 223 := by omega
  rw [h1, if_neg (by omega)]
  have : slice data 33 (dr.FileIdentifierLength - 223) = none := by
    unfold slice
    rw [if_neg (by omega)]
  rw [this]

/-- Step 2 for identifier lengths that fit the window without wrap-around. -/
theorem unmarshalIdentifier_eq (S : SuspPackage) (dr : DirectoryRecord S) (data : List Byte)
    (hL : dr.FileIdentifierLength ≤ 222) (hfit : 33 + dr.FileIdentifierLength ≤ data.length) :
    unmarshalIdentifier S dr data =
      if dr.Joliet = true ∧ dr.FileIdentifierLength ≠ 1 then
        match DecodeJolietName ((data.take (33 + dr.FileIdentifierLength)).drop 33) with
        | Except.error e => (dr, Outcome.error (UnmarshalError.jolietDecode e))
        | Except.ok jolietName =>
          unmarshalPadding S { dr with FileIdentifier := jolietName } data
      else
        unmarshalPadding S
          { dr with FileIdentifier := (data.take (33 + dr.FileIdentifierLength)).drop 33 } data := by
  unfold unmarshalIdentifier
  have h1 : (33 + dr.FileIdentifierLength) % 256 = 33 + dr.FileIdentifierLength := by omega
  rw [h1, if_neg (by omega), slice_eq data _ _ hfit (by omega)]

theorem unmarshalSystemUse_headerFields (S : SuspPackage) (dr : DirectoryRecord S)
    (data : List Byte) (s : Nat) :
    headerFields (unmarshalSystemUse S dr data s).1 = headerFields dr := by
  have h := unmarshalSystemUse_frame S dr data s
  simp only [headerFields]
  simp [h]

theorem unmarshalPadding_headerFields (S : SuspPackage) (dr : DirectoryRecord S)
    (data : List Byte) :
    headerFields (unmarshalPadding S dr data).1 = headerFields dr := by
  unfold unmarshalPadding
  dsimp only
  repeat' split
  all_goals first | rfl | (rw [unmarshalSystemUse_headerFields]; rfl)

theorem unmarshalIdentifier_headerFields (S : SuspPackage) (dr : DirectoryRecord S)
    (data : List Byte) :
    headerFields (unmarshalIdentifier S dr data).1 = headerFields dr := by
  unfold unmarshalIdentifier
  repeat' split
  all_goals first | rfl | (rw [unmarshalPadding_headerFields]; rfl)

theorem unmarshalSystemUse_setLength (S : SuspPackage) (dr : DirectoryRecord S)
    (data : List Byte) (s x : Nat) :
    unmarshalSystemUse S { dr with LengthOfDirectoryRecord := x } data s =
      setLength x (unmarshalSystemUse S dr data s) := by
  unfold unmarshalSystemUse setLength
  dsimp only
  repeat' split
  all_goals simp_all

theorem unmarshalPadding_setLength (S : SuspPackage) (dr : DirectoryRecord S)
    (data : List Byte) (x : Nat) :
    unmarshalPadding S { dr with LengthOfDirectoryRecord := x } data =
      setLength x (unmarshalPadding S dr data) := by
  unfold unmarshalPadding
  dsimp only
  repeat' split
  all_goals first | rfl | rw [← unmarshalSystemUse_setLength]

theorem unmarshalIdentifier_setLength (S : SuspPackage) (dr : DirectoryRecord S)
    (data : List Byte) (x : Nat) :
    unmarshalIdentifier S { dr with LengthOfDirectoryRecord := x } data =
      setLength x (unmarshalIdentifier S dr data) := by
  unfold unmarshalIdentifier
  dsimp only
  repeat' split
  all_goals first | rfl | rw [← unmarshalPadding_setLength]

/-- Step 4 reads the window only through its length and its bytes from the
start offset on. -/
theorem unmarshalSystemUse_congr (S : SuspPackage) (dr : DirectoryRecord S)
    (data data' : List Byte) (s : Nat) (hlen : data.length = data'.length)
    (hdrop : data.drop s = data'.drop s) :
    unmarshalSystemUse S dr data s = unmarshalSystemUse S dr data' s := by
  unfold unmarshalSystemUse
  rw [hlen]
  split_ifs with h
  · rfl
  · rw [sliceFrom_eq data s (by omega), sliceFrom_eq data' s (by omega), hdrop]

theorem drop_eq_of_drop_eq {data data' : List Byte} {k s : Nat} (h : data.drop k = data'.drop k)
    (hks : k ≤ s) : data.drop s = data'.drop s := by
  have e : s = k + (s - k) := by omega
  rw [e, ← List.drop_drop, ← List.drop_drop, h]

theorem getD_eq_of_drop_eq {data data' : List Byte} {k i : Nat} (h : data.drop k = data'.drop k)
    (hki : k ≤ i) : data.getD i 0 = data'.getD i 0 := by
  have e : i = k + (i - k) := by omega
  have h1 : (data.drop k).getD (i - k) 0 = (data'.drop k).getD (i - k) 0 := by rw [h]
  simpa [List.getD_eq_getElem?_getD, ← e] using h1

/-- Step 3 reads the window only through its length and its bytes from
offset 33 on, unless the identifier length is 222. -/
theorem unmarshalPadding_congr (S : SuspPackage) (dr : DirectoryRecord S)
    (data data' : List Byte) (hlen : data.length = data'.length)
    (hdrop : data.drop 33 = data'.drop 33) (hL : dr.FileIdentifierLength ≤ 221) :
    unmarshalPadding S dr data = unmarshalPadding S dr data' := by
  rw [unmarshalPadding_eq S dr data (by omega), unmarshalPadding_eq S dr data' (by omega), hlen]
  have h34 : (34 + dr.FileIdentifierLength) % 256 = 34 + dr.FileIdentifierLength := by omega
  rw [h34, getD_eq_of_drop_eq hdrop (by omega)]
  split_ifs
  · rfl
  · exact unmarshalSystemUse_congr S _ data data' _ hlen (drop_eq_of_drop_eq hdrop (by omega))
  · exact unmarshalSystemUse_congr S _ data data' _ hlen (drop_eq_of_drop_eq hdrop (by omega))

theorem take_drop_eq_of_drop_eq {data data' : List Byte} {k n : Nat}
    (h : data.drop k = data'.drop k) : (data.take n).drop k = (data'.take n).drop k := by
  rw [List.drop_take, List.drop_take, h]

/-- Step 2 reads the window only through its length and its bytes from
offset 33 on, unless the identifier length is 222. -/
theorem unmarshalIdentifier_congr (S : SuspPackage) (dr : DirectoryRecord S)
    (data data' : List Byte) (hlen : data.length = data'.length) (h33 : 33 ≤ data.length)
    (hdrop : data.drop 33 = data'.drop 33) (hL : dr.FileIdentifierLength ≠ 222)
    (hL2 : dr.FileIdentifierLength < 256) :
    unmarshalIdentifier S dr data = unmarshalIdentifier S dr data' := by
  by_cases hbig : 223 ≤ dr.FileIdentifierLength
  · rw [unmarshalIdentifier_fault S dr data h33 hbig hL2,
      unmarshalIdentifier_fault S dr data' (by omega) hbig hL2]
  · by_cases hfit : 33 + dr.FileIdentifierLength ≤ data.length
    · rw [unmarshalIdentifier_eq S dr data (by omega) hfit,
        unmarshalIdentifier_eq S dr data' (by omega) (by omega),
        take_drop_eq_of_drop_eq hdrop]
      split_ifs
      · split
        · rfl
        · exact unmarshalPadding_congr S _ data data' hlen hdrop (by simp; omega)
      · exact unmarshalPadding_congr S _ data data' hlen hdrop (by simp; omega)
    · rw [unmarshalIdentifier_beyond S dr data (by omega),
        unmarshalIdentifier_beyond S dr data' (by omega)]

theorem byteAt_lt (data : List Byte) (i : Nat) : byteAt data i < 256 := (data.getD i 0).isLt

theorem Unmarshal_eq (S : SuspPackage) (dr : DirectoryRecord S) (data : List Byte)
    (h : 33 ≤ data.length) :
    Unmarshal S dr data = unmarshalIdentifier S (decodedHeader dr data) data := by
  obtain ⟨b0, b1, b2, b3, b4, b5, b6, b7, b8, b9, b10, b11, b12, b13, b14, b15, b16, b17, b18,
    b19, b20, b21, b22, b23, b24, b25, b26, b27, b28, b29, b30, b31, b32, rest, rfl⟩ :=
    exists_header data h
  rw [Unmarshal_header]
  simp [decodedHeader, byteAt]

theorem Unmarshal_short (S : SuspPackage) (dr : DirectoryRecord S) (data : List Byte)
    (h : data.length < 33) :
    Unmarshal S dr data = (dr, Outcome.error UnmarshalError.invalidDataLength) := by
  unfold Unmarshal
  rw [if_pos h]

/-- The errors step 2 and the later steps can return. -/
theorem unmarshalIdentifier_error (S : SuspPackage) (dr : DirectoryRecord S) (data : List Byte)
    (e : UnmarshalError S.Error) (h : (unmarshalIdentifier S dr data).2 = Outcome.error e) :
    e = UnmarshalError.identifierBeyondData ∨ (∃ j, e = UnmarshalError.jolietDecode j) ∨
      ∃ x, e = UnmarshalError.susp x := by
  have key : ∀ d : DirectoryRecord S, (unmarshalPadding S d data).2 = Outcome.error e →
      ∃ x, e = UnmarshalError.susp x := by
    intro d hd
    rcases unmarshalPadding_outcome S d data with h1 | ⟨x, h1⟩
    · rw [h1] at hd; cases hd
    · rw [h1] at hd; exact ⟨x, by injection hd with hd; exact hd.symm⟩
  unfold unmarshalIdentifier at h
  split at h
  · left; injection h with h; exact h.symm
  · split at h
    · cases h
    · split at h
      · split at h
        · right; left; injection h with h; exact ⟨_, h.symm⟩
        · right; right; exact key _ h
      · right; right; exact key _ h

/-- C1 (failing case): on every window of at least 33 bytes whose
identifier-length byte at offset 32 is 223 or more, `Unmarshal` neither returns
an error nor a record: the `uint8` sum `33+L` wraps below 33 and the slice
`data[33:33+L]` panics. -/
theorem Unmarshal_fault_of_identifier_length_ge_223 (S : SuspPackage) (dr : DirectoryRecord S)
    (data : List Byte) (hlen : 33 ≤ data.length) (hL : 223 ≤ byteAt data 32) :
    (Unmarshal S dr data).2 = Outcome.fault := by
  rw [Unmarshal_eq S dr data hlen,
    unmarshalIdentifier_fault S _ data hlen hL (byteAt_lt data 32)]

/-- C1, at the root-record window with identifier-length byte 255: the call panics. -/
theorem Unmarshal_fault_of_identifier_length_ge_223_witness :
    33 ≤ wrapWindow.length ∧ 223 ≤ byteAt wrapWindow 32 ∧
      (Unmarshal nullSusp (NewRecord nullSusp) wrapWindow).2 = Outcome.fault :=
  ⟨by decide, by decide,
    Unmarshal_fault_of_identifier_length_ge_223 nullSusp (NewRecord nullSusp) wrapWindow
      (by decide) (by decide)⟩

/-- C2 (what the code checks): on a window of at least 33 bytes `Unmarshal`
returns the error "file identifier extends beyond provided data" exactly when
the sum `33+L` reduced modulo 256 exceeds the window length, where `L` is the
identifier-length byte at offset 32. -/
theorem Unmarshal_identifierBeyondData_iff (S : SuspPackage) (dr : DirectoryRecord S)
    (data : List Byte) (hlen : 33 ≤ data.length) :
    (Unmarshal S dr data).2 = Outcome.error UnmarshalError.identifierBeyondData ↔
      (33 + byteAt data 32) % 256 > data.length := by
  rw [Unmarshal_eq S dr data hlen]
  constructor
  · intro h
    by_contra hn
    have hL := byteAt_lt data 32
    by_cases hbig : 223 ≤ byteAt data 32
    · rw [unmarshalIdentifier_fault S _ data hlen hbig hL] at h
      cases h
    · have hfit : 33 + (decodedHeader dr data).FileIdentifierLength ≤ data.length := by
        show 33 + byteAt data 32 ≤ data.length
        omega
      rw [unmarshalIdentifier_eq S _ data (by show byteAt data 32 ≤ 222; omega) hfit] at h
      have key : ∀ d : DirectoryRecord S,
          (unmarshalPadding S d data).2 ≠ Outcome.error UnmarshalError.identifierBeyondData := by
        intro d hd
        rcases unmarshalPadding_outcome S d data with h1 | ⟨x, h1⟩
        · rw [h1] at hd; cases hd
        · rw [h1] at hd; cases hd
      split at h
      · split at h
        · cases h
        · exact key _ h
      · exact key _ h
  · intro h
    rw [unmarshalIdentifier_beyond S _ data h]

/-- C2, at a 33-byte window with identifier-length byte 223: the identifier
overflows the window, yet the overflow error is not returned. -/
theorem Unmarshal_identifierBeyondData_iff_witness :
    33 ≤ wrapWindow223.length ∧ 33 + byteAt wrapWindow223 32 > wrapWindow223.length ∧
      (Unmarshal nullSusp (NewRecord nullSusp) wrapWindow223).2 ≠
        Outcome.error UnmarshalError.identifierBeyondData :=
  ⟨by decide, by decide, fun h =>
    absurd ((Unmarshal_identifierBeyondData_iff nullSusp (NewRecord nullSusp) wrapWindow223
      (by decide)).mp h) (by decide)⟩

/-- Step 3 on an identifier length of at most 221 that fits the window: what
it leaves in the identifier, the padding field and the System Use Area. -/
theorem unmarshalPadding_fields (S : SuspPackage) (d : DirectoryRecord S) (data : List Byte)
    (hL : d.FileIdentifierLength ≤ 221) (hfit : 33 + d.FileIdentifierLength ≤ data.length) :
    (unmarshalPadding S d data).1.FileIdentifier = d.FileIdentifier ∧
    (unmarshalPadding S d data).1.PaddingField =
      (if d.FileIdentifierLength % 2 = 0 then
        if 33 + d.FileIdentifierLength < data.length then
          [data.getD (33 + d.FileIdentifierLength) 0]
        else d.PaddingField
      else []) ∧
    (unmarshalPadding S d data).1.SystemUse =
      (if 0 < (data.drop (if d.FileIdentifierLength % 2 = 0 then 34 + d.FileIdentifierLength
            else 33 + d.FileIdentifierLength)).length then
        data.drop (if d.FileIdentifierLength % 2 = 0 then 34 + d.FileIdentifierLength
            else 33 + d.FileIdentifierLength)
      else d.SystemUse) := by
  rw [unmarshalPadding_eq S d data (by omega)]
  have h34 : (34 + d.FileIdentifierLength) % 256 = 34 + d.FileIdentifierLength := by omega
  rw [h34]
  by_cases hev : d.FileIdentifierLength % 2 = 0
  · simp only [hev, if_true]
    by_cases hend : 33 + d.FileIdentifierLength ≥ data.length
    · have hd : data.drop (34 + d.FileIdentifierLength) = [] :=
        List.drop_eq_nil_of_le (by omega)
      rw [if_pos hend, if_neg (by omega), hd]
      simp
    · rw [if_neg hend, if_pos (by omega)]
      have hf := unmarshalSystemUse_frame S
        { d with PaddingField := [data.getD (33 + d.FileIdentifierLength) 0] } data
        (34 + d.FileIdentifierLength)
      have hs := unmarshalSystemUse_SystemUse S
        { d with PaddingField := [data.getD (33 + d.FileIdentifierLength) 0] } data
        (34 + d.FileIdentifierLength) (by omega)
      exact ⟨hf.2.2.2.2.2.2.2.2.2.2.1, hf.2.2.2.2.2.2.2.2.2.2.2.1, hs⟩
  · simp only [hev, if_false]
    have hf := unmarshalSystemUse_frame S { d with PaddingField := [] } data
      (33 + d.FileIdentifierLength)
    have hs := unmarshalSystemUse_SystemUse S { d with PaddingField := [] } data
      (33 + d.FileIdentifierLength) (by omega)
    exact ⟨hf.2.2.2.2.2.2.2.2.2.2.1, hf.2.2.2.2.2.2.2.2.2.2.2.1, hs⟩

/-- Step 2 on an identifier that fits the window, when the call ends with nil:
the name it stores. -/
theorem unmarshalIdentifier_accepted (S : SuspPackage) (d : DirectoryRecord S)
    (data : List Byte) (hL : d.FileIdentifierLength ≤ 222)
    (hfit : 33 + d.FileIdentifierLength ≤ data.length)
    (hnil : (unmarshalIdentifier S d data).2 = Outcome.nil) :
    ∃ name : List Byte,
      (if d.Joliet = true ∧ d.FileIdentifierLength ≠ 1 then
          DecodeJolietName ((data.take (33 + d.FileIdentifierLength)).drop 33) = Except.ok name
        else name = (data.take (33 + d.FileIdentifierLength)).drop 33) ∧
      unmarshalIdentifier S d data = unmarshalPadding S { d with FileIdentifier := name } data := by
  rw [unmarshalIdentifier_eq S d data hL hfit] at hnil ⊢
  by_cases hj : d.Joliet = true ∧ d.FileIdentifierLength ≠ 1
  · rw [if_pos hj] at hnil ⊢
    cases hdec : DecodeJolietName ((data.take (33 + d.FileIdentifierLength)).drop 33) with
    | error e => rw [hdec] at hnil; cases hnil
    | ok name => exact ⟨name, by rw [if_pos hj], rfl⟩
  · rw [if_neg hj] at hnil ⊢
    exact ⟨_, by rw [if_neg hj], rfl⟩

/-- An accepted window has at least 33 bytes and an identifier that fits it. -/
theorem Unmarshal_accepted_bounds (S : SuspPackage) (dr : DirectoryRecord S) (data : List Byte)
    (hnil : (Unmarshal S dr data).2 = Outcome.nil) :
    33 ≤ data.length ∧ byteAt data 32 ≤ 222 ∧ 33 + byteAt data 32 ≤ data.length := by
  have hlen : 33 ≤ data.length := by
    by_contra h
    rw [Unmarshal_short S dr data (by omega)] at hnil
    cases hnil
  rw [Unmarshal_eq S dr data hlen] at hnil
  have hL := byteAt_lt data 32
  have hbig : byteAt data 32 ≤ 222 := by
    by_contra h
    rw [unmarshalIdentifier_fault S _ data hlen (by show 223 ≤ byteAt data 32; omega) hL] at hnil
    cases hnil
  refine ⟨hlen, hbig, ?_⟩
  by_contra h
  rw [unmarshalIdentifier_beyond S _ data
    (by show (33 + byteAt data 32) % 256 > data.length; omega)] at hnil
  cases hnil

/-- The record an accepted window yields, for identifier lengths other than 222. -/
theorem Unmarshal_accepted (S : SuspPackage) (dr : DirectoryRecord S) (data : List Byte)
    (hnil : (Unmarshal S dr data).2 = Outcome.nil) (h222 : byteAt data 32 ≠ 222) :
    headerFields (Unmarshal S dr data).1 = headerFields (decodedHeader dr data) ∧
    (if dr.Joliet = true ∧ byteAt data 32 ≠ 1 then
        DecodeJolietName ((data.take (33 + byteAt data 32)).drop 33) =
          Except.ok (Unmarshal S dr data).1.FileIdentifier
      else (Unmarshal S dr data).1.FileIdentifier = (data.take (33 + byteAt data 32)).drop 33) ∧
    (Unmarshal S dr data).1.PaddingField =
      (if byteAt data 32 % 2 = 0 then
        if 33 + byteAt data 32 < data.length then [data.getD (33 + byteAt data 32) 0]
        else dr.PaddingField
      else []) ∧
    (Unmarshal S dr data).1.SystemUse =
      (if 0 < (data.drop (if byteAt data 32 % 2 = 0 then 34 + byteAt data 32
            else 33 + byteAt data 32)).length then
        data.drop (if byteAt data 32 % 2 = 0 then 34 + byteAt data 32 else 33 + byteAt data 32)
      else dr.SystemUse) := by
  obtain ⟨hlen, hL, hfit⟩ := Unmarshal_accepted_bounds S dr data hnil
  rw [Unmarshal_eq S dr data hlen] at hnil ⊢
  refine ⟨unmarshalIdentifier_headerFields S _ data, ?_⟩
  obtain ⟨name, hname, heq⟩ := unmarshalIdentifier_accepted S (decodedHeader dr data) data hL hfit hnil
  rw [heq]
  have hp := unmarshalPadding_fields S { decodedHeader dr data with FileIdentifier := name } data
    (by show byteAt data 32 ≤ 221; omega) hfit
  obtain ⟨h1, h2, h3⟩ := hp
  refine ⟨?_, h2, h3⟩
  rw [h1]
  exact hname

theorem lor_shift8 (a b : Nat) (ha : a < 256) : a ||| (b <<< 8) = a + 256 * b := by
  rw [Nat.shiftLeft_eq, Nat.lor_comm, Nat.mul_comm]
  have := Nat.mul_add_lt_is_or (i := 8) (b := a) (by simpa using ha) b
  rw [← this]; norm_num; omega

theorem lor_shift16 (a b : Nat) (ha : a < 65536) : a ||| (b <<< 16) = a + 65536 * b := by
  rw [Nat.shiftLeft_eq, Nat.lor_comm, Nat.mul_comm]
  have := Nat.mul_add_lt_is_or (i := 16) (b := a) (by simpa using ha) b
  rw [← this]; norm_num; omega

theorem lor_shift24 (a b : Nat) (ha : a < 16777216) : a ||| (b <<< 24) = a + 16777216 * b := by
  rw [Nat.shiftLeft_eq, Nat.lor_comm, Nat.mul_comm]
  have := Nat.mul_add_lt_is_or (i := 24) (b := a) (by simpa using ha) b
  rw [← this]; norm_num; omega

/-- The little-endian 32-bit value of four bytes, as a sum. -/
theorem le32_eq_sum (a b c d : Nat) (ha : a < 256) (hb : b < 256) (hc : c < 256) :
    a ||| (b <<< 8) ||| (c <<< 16) ||| (d <<< 24) = a + 256 * b + 65536 * c + 16777216 * d := by
  rw [lor_shift8 a b ha, lor_shift16 _ c (by omega), lor_shift24 _ d (by omega)]

/-- The big-endian 32-bit value of four bytes (most significant first), as a sum. -/
theorem be32_eq_sum (a b c d : Nat) (hb : b < 256) (hc : c < 256) (hd : d < 256) :
    d ||| (c <<< 8) ||| (b <<< 16) ||| (a <<< 24) = d + 256 * c + 65536 * b + 16777216 * a :=
  le32_eq_sum d c b a hd hc hb

theorem unmarshalPadding_FileIdentifier (S : SuspPackage) (d : DirectoryRecord S)
    (data : List Byte) : (unmarshalPadding S d data).1.FileIdentifier = d.FileIdentifier := by
  unfold unmarshalPadding
  dsimp only
  repeat' split
  all_goals first | rfl | exact (unmarshalSystemUse_frame S _ data _).2.2.2.2.2.2.2.2.2.2.1

/-- The identifier an accepted window yields. -/
theorem Unmarshal_accepted_identifier (S : SuspPackage) (dr : DirectoryRecord S)
    (data : List Byte) (hnil : (Unmarshal S dr data).2 = Outcome.nil) :
    if dr.Joliet = true ∧ byteAt data 32 ≠ 1 then
      DecodeJolietName ((data.take (33 + byteAt data 32)).drop 33) =
        Except.ok (Unmarshal S dr data).1.FileIdentifier
    else (Unmarshal S dr data).1.FileIdentifier = (data.take (33 + byteAt data 32)).drop 33 := by
  obtain ⟨hlen, hL, hfit⟩ := Unmarshal_accepted_bounds S dr data hnil
  rw [Unmarshal_eq S dr data hlen] at hnil ⊢
  obtain ⟨name, hname, heq⟩ :=
    unmarshalIdentifier_accepted S (decodedHeader dr data) data hL hfit hnil
  rw [heq, unmarshalPadding_FileIdentifier]
  exact hname

theorem unmarshalSystemUse_at_end (S : SuspPackage) (dr : DirectoryRecord S)
    (data : List Byte) (s : Nat) (hs : s = data.length) :
    unmarshalSystemUse S dr data s = (dr, Outcome.nil) := by
  unfold unmarshalSystemUse
  rw [if_neg (by omega), sliceFrom_eq data s (by omega)]
  have : data.drop s = [] := List.drop_eq_nil_of_le (by omega)
  simp [this]

theorem decodedHeader_cons (S : SuspPackage) (dr : DirectoryRecord S) (b b' : Byte)
    (rest : List Byte) :
    decodedHeader dr (b :: rest) =
      { decodedHeader dr (b' :: rest) with LengthOfDirectoryRecord := b.val } := by
  simp [decodedHeader, byteAt]

theorem ite_length_pos (l : List Byte) : (if 0 < l.length then l else []) = l := by
  cases l <;> simp

/-- C3 (counterexample): a 34-byte window whose first byte declares 200 bytes,
more than the window holds, is accepted: `Unmarshal` returns nil. -/
theorem Unmarshal_accepts_overlong_declared_length :
    33 ≤ overlongWindow.length ∧ overlongWindow.length < byteAt overlongWindow 0 ∧
      (Unmarshal nullSusp (NewRecord nullSusp) overlongWindow).2 = Outcome.nil := by
  decide

/-- C3 (amended): `Unmarshal` never compares the first byte with the window
length. For every window whose identifier-length byte is not 222, replacing the
first byte changes neither the way the call ends (nil, which error, or panic)
nor any field of the record other than `LengthOfDirectoryRecord`, which on a
window of at least 33 bytes is the first byte as found. -/
theorem Unmarshal_first_byte_not_checked (S : SuspPackage) (dr : DirectoryRecord S)
    (b b' : Byte) (rest : List Byte) (hL : byteAt (b :: rest) 32 ≠ 222) :
    (Unmarshal S dr (b :: rest)).2 = (Unmarshal S dr (b' :: rest)).2 ∧
    { (Unmarshal S dr (b :: rest)).1 with LengthOfDirectoryRecord := 0 } =
      { (Unmarshal S dr (b' :: rest)).1 with LengthOfDirectoryRecord := 0 } ∧
    (33 ≤ (b :: rest).length →
      (Unmarshal S dr (b :: rest)).1.LengthOfDirectoryRecord = b.val) := by
  by_cases hlen : 33 ≤ (b :: rest).length
  · have hlen' : 33 ≤ (b' :: rest).length := by simpa using hlen
    have hcongr : unmarshalIdentifier S (decodedHeader dr (b' :: rest)) (b :: rest) =
        unmarshalIdentifier S (decodedHeader dr (b' :: rest)) (b' :: rest) :=
      unmarshalIdentifier_congr S _ (b :: rest) (b' :: rest) (by simp) hlen (by simp)
        (by simpa [decodedHeader, byteAt] using hL) (byteAt_lt _ 32)
    rw [Unmarshal_eq S dr _ hlen, Unmarshal_eq S dr _ hlen', decodedHeader_cons S dr b b' rest,
      unmarshalIdentifier_setLength, hcongr]
    exact ⟨rfl, rfl, fun _ => rfl⟩
  · have hlen' : ¬ 33 ≤ (b' :: rest).length := by simpa using hlen
    rw [Unmarshal_short S dr _ (by omega), Unmarshal_short S dr _ (by omega)]
    exact ⟨rfl, rfl, fun h => absurd h hlen⟩

/-- C3, at a well-formed 34-byte window: declaring 200 bytes instead of 34 changes
nothing but the stored first byte. -/
theorem Unmarshal_first_byte_not_checked_witness :
    byteAt ((200 : Byte) :: plainWindow.tail) 32 ≠ 222 ∧
    (Unmarshal nullSusp (NewRecord nullSusp) ((200 : Byte) :: plainWindow.tail)).2 =
      (Unmarshal nullSusp (NewRecord nullSusp) ((34 : Byte) :: plainWindow.tail)).2 ∧
    (Unmarshal nullSusp (NewRecord nullSusp)
      ((200 : Byte) :: plainWindow.tail)).1.LengthOfDirectoryRecord = 200 :=
  ⟨by decide,
    (Unmarshal_first_byte_not_checked nullSusp (NewRecord nullSusp) 200 34 plainWindow.tail
      (by decide)).1,
    (Unmarshal_first_byte_not_checked nullSusp (NewRecord nullSusp) 200 34 plainWindow.tail
      (by decide)).2.2 (by decide)⟩

/-- C4 (counterexample): a 34-byte window whose first byte is 1, non-zero and
below 33, is accepted: `Unmarshal` returns nil. -/
theorem Unmarshal_accepts_declared_length_below_33 :
    33 ≤ underlongWindow.length ∧ 0 < byteAt underlongWindow 0 ∧
      byteAt underlongWindow 0 < 33 ∧
      (Unmarshal nullSusp (NewRecord nullSusp) underlongWindow).2 = Outcome.nil := by
  decide

/-- C4 (amended): `Unmarshal` returns the error "invalid data length" exactly
on the windows shorter than 33 bytes; the value of the first byte plays no
part in it. -/
theorem Unmarshal_invalidDataLength_iff (S : SuspPackage) (dr : DirectoryRecord S)
    (data : List Byte) :
    (Unmarshal S dr data).2 = Outcome.error UnmarshalError.invalidDataLength ↔
      data.length < 33 := by
  constructor
  · intro h
    by_contra hlen
    rw [Unmarshal_eq S dr data (by omega)] at h
    rcases unmarshalIdentifier_error S _ data _ h with h1 | ⟨j, h1⟩ | ⟨x, h1⟩ <;> cases h1
  · intro h
    rw [Unmarshal_short S dr data h]

/-- C5 (counterexample): a 36-byte window whose first byte declares 34 bytes is
accepted; the stored first byte, 34, is not the number of bytes decoded, 36,
and the System Use Area holds the two bytes past the declared length. -/
theorem Unmarshal_length_byte_not_consumed :
    (Unmarshal nullSusp (NewRecord nullSusp) trailingWindow).2 = Outcome.nil ∧
    (Unmarshal nullSusp (NewRecord nullSusp) trailingWindow).1.LengthOfDirectoryRecord = 34 ∧
    33 + (Unmarshal nullSusp (NewRecord nullSusp) trailingWindow).1.FileIdentifierLength
      + (if (Unmarshal nullSusp (NewRecord nullSusp) trailingWindow).1.FileIdentifierLength % 2
          = 0 then 1 else 0)
      + (Unmarshal nullSusp (NewRecord nullSusp) trailingWindow).1.SystemUse.length = 36 ∧
    (Unmarshal nullSusp (NewRecord nullSusp) trailingWindow).1.SystemUse = [0x53, 0x50] := by
  decide

/-- C5 (amended): for every window that `Unmarshal` accepts into a fresh
record, with an identifier length other than 222, the bytes decoded are the
whole window: its length is 33 + FileIdentifierLength + len(PaddingField) +
len(SystemUse), where the padding field holds one byte when the identifier
length is even and the window goes on past the identifier, and none otherwise.
`LengthOfDirectoryRecord` is the first byte as found. -/
theorem Unmarshal_consumes_window (S : SuspPackage) (joliet : Bool) (data : List Byte)
    (hnil : (Unmarshal S (zeroRecord S joliet) data).2 = Outcome.nil)
    (h222 : byteAt data 32 ≠ 222) :
    data.length =
      33 + (Unmarshal S (zeroRecord S joliet) data).1.FileIdentifierLength
        + (Unmarshal S (zeroRecord S joliet) data).1.PaddingField.length
        + (Unmarshal S (zeroRecord S joliet) data).1.SystemUse.length ∧
    (Unmarshal S (zeroRecord S joliet) data).1.PaddingField.length =
      (if (Unmarshal S (zeroRecord S joliet) data).1.FileIdentifierLength % 2 = 0 ∧
          33 + (Unmarshal S (zeroRecord S joliet) data).1.FileIdentifierLength < data.length
        then 1 else 0) ∧
    (Unmarshal S (zeroRecord S joliet) data).1.LengthOfDirectoryRecord = byteAt data 0 := by
  obtain ⟨hlen, hL, hfit⟩ := Unmarshal_accepted_bounds S _ data hnil
  obtain ⟨hh, -, hp, hs⟩ := Unmarshal_accepted S _ data hnil h222
  simp only [headerFields, decodedHeader, Prod.mk.injEq] at hh
  obtain ⟨h0, -, -, -, -, -, -, -, -, hfil, -⟩ := hh
  have hsu : (zeroRecord S joliet).SystemUse = [] := rfl
  have hpf : (zeroRecord S joliet).PaddingField = [] := rfl
  rw [hfil, hp, hs, h0, hsu, hpf, ite_length_pos]
  change byteAt data 32 ≤ 222 at hL
  change 33 + byteAt data 32 ≤ data.length at hfit
  refine ⟨?_, ?_, rfl⟩
  · by_cases hev : byteAt data 32 % 2 = 0
    · by_cases hend : 33 + byteAt data 32 < data.length
      · simp only [hev, hend, if_true, List.length_drop, List.length_singleton]; omega
      · simp only [hev, hend, if_true, if_false, List.length_drop, List.length_nil]; omega
    · simp only [hev, if_false, List.length_drop, List.length_nil]; omega
  · by_cases hev : byteAt data 32 % 2 = 0
    · by_cases hend : 33 + byteAt data 32 < data.length
      · simp [hev, hend]
      · simp [hev, hend]
    · simp [hev]

/-- C5, at a 36-byte window declaring 34 bytes: all 36 bytes are decoded. -/
theorem Unmarshal_consumes_window_witness :
    (Unmarshal nullSusp (zeroRecord nullSusp false) trailingWindow).2 = Outcome.nil ∧
    byteAt trailingWindow 32 ≠ 222 ∧
    trailingWindow.length =
      33 + (Unmarshal nullSusp (zeroRecord nullSusp false) trailingWindow).1.FileIdentifierLength
        + (Unmarshal nullSusp (zeroRecord nullSusp false) trailingWindow).1.PaddingField.length
        + (Unmarshal nullSusp (zeroRecord nullSusp false) trailingWindow).1.SystemUse.length :=
  ⟨by decide, by decide,
    (Unmarshal_consumes_window nullSusp false trailingWindow (by decide) (by decide)).1⟩

/-- C6 (counterexample): a 35-byte window with the two-byte identifier "AB"
and nothing after it is accepted, yet no padding byte is consumed: the padding
field stays empty although the identifier length is even. -/
theorem Unmarshal_accepts_missing_padding :
    (Unmarshal nullSusp (NewRecord nullSusp) unpaddedWindow).2 = Outcome.nil ∧
    (Unmarshal nullSusp (NewRecord nullSusp) unpaddedWindow).1.FileIdentifierLength % 2 = 0 ∧
    (Unmarshal nullSusp (NewRecord nullSusp) unpaddedWindow).1.PaddingField = [] := by
  decide

/-- C6 (amended): for every window that `Unmarshal` accepts into a fresh
record, with identifier length `L` (the byte at offset 32) other than 222, the
identifier bytes are the `L` bytes at offsets 33..33+L-1, which lie within the
window, and `FileIdentifier` is these bytes when the Joliet flag is off. If `L`
is even and the window goes on past the identifier, `PaddingField` is the
single byte at offset 33+L and `SystemUse` is the window from offset 34+L; if
`L` is even and the window ends with the identifier, the record is accepted
with no padding byte and an empty `SystemUse`; if `L` is odd, `PaddingField` is
absent and `SystemUse` is the window from offset 33+L. -/
theorem Unmarshal_layout (S : SuspPackage) (joliet : Bool) (data : List Byte)
    (hnil : (Unmarshal S (zeroRecord S joliet) data).2 = Outcome.nil)
    (h222 : byteAt data 32 ≠ 222) :
    (Unmarshal S (zeroRecord S joliet) data).1.FileIdentifierLength = byteAt data 32 ∧
    33 + byteAt data 32 ≤ data.length ∧
    ((data.take (33 + byteAt data 32)).drop 33).length = byteAt data 32 ∧
    (joliet = false → (Unmarshal S (zeroRecord S joliet) data).1.FileIdentifier =
      (data.take (33 + byteAt data 32)).drop 33) ∧
    (byteAt data 32 % 2 = 0 → 33 + byteAt data 32 < data.length →
      (Unmarshal S (zeroRecord S joliet) data).1.PaddingField =
        [data.getD (33 + byteAt data 32) 0] ∧
      (Unmarshal S (zeroRecord S joliet) data).1.SystemUse = data.drop (34 + byteAt data 32)) ∧
    (byteAt data 32 % 2 = 0 → 33 + byteAt data 32 = data.length →
      (Unmarshal S (zeroRecord S joliet) data).1.PaddingField = [] ∧
      (Unmarshal S (zeroRecord S joliet) data).1.SystemUse = []) ∧
    (byteAt data 32 % 2 = 1 →
      (Unmarshal S (zeroRecord S joliet) data).1.PaddingField = [] ∧
      (Unmarshal S (zeroRecord S joliet) data).1.SystemUse = data.drop (33 + byteAt data 32)) := by
  obtain ⟨hlen, hL, hfit⟩ := Unmarshal_accepted_bounds S _ data hnil
  obtain ⟨hh, hid, hp, hs⟩ := Unmarshal_accepted S _ data hnil h222
  simp only [headerFields, decodedHeader, Prod.mk.injEq] at hh
  obtain ⟨-, -, -, -, -, -, -, -, -, hfil, -⟩ := hh
  have hsu : (zeroRecord S joliet).SystemUse = [] := rfl
  have hpf : (zeroRecord S joliet).PaddingField = [] := rfl
  have hjo : (zeroRecord S joliet).Joliet = joliet := rfl
  rw [hsu, ite_length_pos] at hs
  rw [hpf] at hp
  rw [hjo] at hid
  refine ⟨hfil, hfit, ?_, ?_, ?_, ?_, ?_⟩
  · simp only [List.length_drop, List.length_take]; omega
  · intro hj
    simpa [hj] using hid
  · intro hev hend
    rw [hp, hs]
    simp [hev, hend]
  · intro hev hend
    rw [hp, hs]
    have hd : data.drop (34 + byteAt data 32) = [] := List.drop_eq_nil_of_le (by omega)
    simp [hev, hend, hd]
  · intro hodd
    rw [hp, hs]
    have hne : ¬ byteAt data 32 % 2 = 0 := by omega
    simp [hne]

/-- C6, at a 36-byte Joliet window with a two-byte identifier. -/
theorem Unmarshal_layout_witness :
    (Unmarshal nullSusp (zeroRecord nullSusp true) jolietWindow).2 = Outcome.nil ∧
    byteAt jolietWindow 32 ≠ 222 ∧
    (Unmarshal nullSusp (zeroRecord nullSusp true) jolietWindow).1.FileIdentifierLength
      = byteAt jolietWindow 32 ∧
    33 + byteAt jolietWindow 32 ≤ jolietWindow.length :=
  ⟨by decide, by decide,
    (Unmarshal_layout nullSusp true jolietWindow (by decide) (by decide)).1,
    (Unmarshal_layout nullSusp true jolietWindow (by decide) (by decide)).2.1⟩

/-- C7 (counterexample): a 34-byte window whose identifier-length byte is 0 is
accepted both without and with the Joliet flag, and `DecodeJolietName` returns
the empty name, not an error, on the empty identifier. -/
theorem Unmarshal_accepts_empty_identifier :
    33 ≤ emptyIdentifierWindow.length ∧ byteAt emptyIdentifierWindow 32 = 0 ∧
    (Unmarshal nullSusp (zeroRecord nullSusp false) emptyIdentifierWindow).2 = Outcome.nil ∧
    (Unmarshal nullSusp (zeroRecord nullSusp true) emptyIdentifierWindow).2 = Outcome.nil ∧
    DecodeJolietName [] = Except.ok [] := by
  decide

/-- C7 (amended): an identifier length of 0 is not rejected. For every window
of at least 33 bytes whose identifier-length byte is 0, with or without the
Joliet flag, `Unmarshal` stores the empty identifier and does not panic; it
returns nil when the window has at most 34 bytes, and the only error it can
return is one handed up from the System Use decoder. `DecodeJolietName` on the
empty identifier returns the empty name and no error. -/
theorem Unmarshal_empty_identifier (S : SuspPackage) (dr : DirectoryRecord S)
    (data : List Byte) (hlen : 33 ≤ data.length) (h0 : byteAt data 32 = 0) :
    (Unmarshal S dr data).1.FileIdentifier = [] ∧
    (Unmarshal S dr data).2 ≠ Outcome.fault ∧
    (data.length ≤ 34 → (Unmarshal S dr data).2 = Outcome.nil) ∧
    (∀ e, (Unmarshal S dr data).2 = Outcome.error e → ∃ x, e = UnmarshalError.susp x) ∧
    DecodeJolietName [] = Except.ok [] := by
  have hfil : (decodedHeader dr data).FileIdentifierLength = 0 := h0
  have hraw : (data.take (33 + (decodedHeader dr data).FileIdentifierLength)).drop 33 = [] := by
    rw [hfil]; exact List.drop_eq_nil_of_le (by simp)
  have hdec : DecodeJolietName [] = Except.ok [] := by decide
  have hstep : Unmarshal S dr data =
      unmarshalPadding S { decodedHeader dr data with FileIdentifier := [] } data := by
    rw [Unmarshal_eq S dr data hlen,
      unmarshalIdentifier_eq S _ data (by rw [hfil]; omega) (by rw [hfil]; omega), hraw, hdec]
    split_ifs <;> rfl
  rw [hstep]
  refine ⟨unmarshalPadding_FileIdentifier S _ data, ?_, ?_, ?_, hdec⟩
  · rcases unmarshalPadding_outcome S { decodedHeader dr data with FileIdentifier := [] } data
      with h | ⟨x, h⟩ <;> rw [h] <;> simp
  · intro hle
    rw [unmarshalPadding_eq S _ data (by show byteAt data 32 ≤ 222; omega)]
    show (if byteAt data 32 % 2 = 0 then _ else _ : DirectoryRecord S × Outcome S.Error).2 = _
    rw [h0]
    by_cases h33 : data.length = 33
    · simp [h33]
    · have h34 : data.length = 34 := by omega
      simp only [Nat.zero_mod, if_true, Nat.add_zero, h34]
      rw [if_neg (by omega), unmarshalSystemUse_at_end S _ data _ (by omega)]
  · intro e he
    rcases unmarshalPadding_outcome S { decodedHeader dr data with FileIdentifier := [] } data
      with h | ⟨x, h⟩
    · rw [h] at he; cases he
    · rw [h] at he; injection he with he; exact ⟨x, he.symm⟩

/-- C7, at a 34-byte window with identifier length 0 and the Joliet flag set. -/
theorem Unmarshal_empty_identifier_witness :
    33 ≤ emptyIdentifierWindow.length ∧ byteAt emptyIdentifierWindow 32 = 0 ∧
    (Unmarshal nullSusp (zeroRecord nullSusp true) emptyIdentifierWindow).1.FileIdentifier = [] ∧
    (Unmarshal nullSusp (zeroRecord nullSusp true) emptyIdentifierWindow).2 ≠ Outcome.fault :=
  ⟨by decide, by decide,
    (Unmarshal_empty_identifier nullSusp (zeroRecord nullSusp true) emptyIdentifierWindow
      (by decide) (by decide)).1,
    (Unmarshal_empty_identifier nullSusp (zeroRecord nullSusp true) emptyIdentifierWindow
      (by decide) (by decide)).2.1⟩

/-- C8 (counterexample): a window is accepted although the two halves of its
extent field disagree: bytes 2..5 read little-endian give 1, bytes 6..9 read
big-endian give 2, and the decoded extent is 1. -/
theorem Unmarshal_accepts_mismatched_halves :
    (Unmarshal nullSusp (NewRecord nullSusp) mismatchWindow).2 = Outcome.nil ∧
    leUint32 (mismatchWindow.drop 2) = some 1 ∧
    beUint32 (mismatchWindow.drop 6) = some 2 ∧
    (Unmarshal nullSusp (NewRecord nullSusp) mismatchWindow).1.LocationOfExtent = 1 := by
  decide

/-- C8 (amended): for every window that `Unmarshal` accepts, the decoded extent
LBA, data length and volume sequence number are the little-endian halves of
their fields: bytes 2..5, bytes 10..13 and bytes 28..29, least significant byte
first. The big-endian halves are not compared with them. -/
theorem Unmarshal_reads_little_endian_halves (S : SuspPackage) (dr : DirectoryRecord S)
    (data : List Byte) (hnil : (Unmarshal S dr data).2 = Outcome.nil) :
    (Unmarshal S dr data).1.LocationOfExtent =
      byteAt data 2 + 256 * byteAt data 3 + 65536 * byteAt data 4 + 16777216 * byteAt data 5 ∧
    (Unmarshal S dr data).1.DataLength =
      byteAt data 10 + 256 * byteAt data 11 + 65536 * byteAt data 12
        + 16777216 * byteAt data 13 ∧
    (Unmarshal S dr data).1.VolumeSequenceNumber = byteAt data 28 + 256 * byteAt data 29 := by
  obtain ⟨hlen, -, -⟩ := Unmarshal_accepted_bounds S dr data hnil
  have hh : headerFields (Unmarshal S dr data).1 = headerFields (decodedHeader dr data) := by
    rw [Unmarshal_eq S dr data hlen]
    exact unmarshalIdentifier_headerFields S _ data
  simp only [headerFields, decodedHeader, Prod.mk.injEq] at hh
  obtain ⟨-, -, hloc, hdl, -, -, -, -, hvsn, -, -⟩ := hh
  rw [hloc, hdl, hvsn]
  exact ⟨le32_eq_sum _ _ _ _ (byteAt_lt _ _) (byteAt_lt _ _) (byteAt_lt _ _),
    le32_eq_sum _ _ _ _ (byteAt_lt _ _) (byteAt_lt _ _) (byteAt_lt _ _),
    lor_shift8 _ _ (byteAt_lt _ _)⟩

/-- C8, at a well-formed 34-byte window. -/
theorem Unmarshal_reads_little_endian_halves_witness :
    (Unmarshal nullSusp (NewRecord nullSusp) plainWindow).2 = Outcome.nil ∧
    (Unmarshal nullSusp (NewRecord nullSusp) plainWindow).1.LocationOfExtent =
      byteAt plainWindow 2 + 256 * byteAt plainWindow 3 + 65536 * byteAt plainWindow 4
        + 16777216 * byteAt plainWindow 5 :=
  ⟨by decide,
    (Unmarshal_reads_little_endian_halves nullSusp (NewRecord nullSusp) plainWindow
      (by decide)).1⟩

/-- C10 (counterexample): with the Joliet flag set, the one-byte identifier
0x00 is accepted and stored as the byte 0x00, while `DecodeJolietName` maps
that identifier to ".". -/
theorem Unmarshal_joliet_single_byte_not_decoded :
    (Unmarshal nullSusp (zeroRecord nullSusp true) selfWindow).2 = Outcome.nil ∧
    (Unmarshal nullSusp (zeroRecord nullSusp true) selfWindow).1.FileIdentifier = [0x00] ∧
    DecodeJolietName ((selfWindow.take 34).drop 33) = Except.ok [0x2E] := by
  decide

/-- C10 (amended): for every record with the Joliet flag set that `Unmarshal`
accepts, `FileIdentifier` is the result of `DecodeJolietName` on the raw
identifier bytes when the identifier length is not 1; an identifier of length 1
is not decoded: `FileIdentifier` is the raw byte itself, so 0x00 stays the
one-byte string 0x00 and 0x01 the one-byte string 0x01. -/
theorem Unmarshal_joliet_identifier (S : SuspPackage) (dr : DirectoryRecord S)
    (data : List Byte) (hj : dr.Joliet = true)
    (hnil : (Unmarshal S dr data).2 = Outcome.nil) :
    (byteAt data 32 ≠ 1 →
      DecodeJolietName ((data.take (33 + byteAt data 32)).drop 33) =
        Except.ok (Unmarshal S dr data).1.FileIdentifier) ∧
    (byteAt data 32 = 1 → (Unmarshal S dr data).1.FileIdentifier = [data.getD 33 0]) := by
  have hid := Unmarshal_accepted_identifier S dr data hnil
  obtain ⟨hlen, -, hfit⟩ := Unmarshal_accepted_bounds S dr data hnil
  constructor
  · intro h1
    rw [if_pos ⟨hj, h1⟩] at hid
    exact hid
  · intro h1
    rw [if_neg (by simp [h1])] at hid
    rw [hid, h1]
    rw [h1] at hfit
    rw [List.drop_take]
    have hne : data.drop 33 ≠ [] := by
      intro h
      have := congrArg List.length h
      simp at this
      omega
    obtain ⟨x, xs, hx⟩ := List.exists_cons_of_ne_nil hne
    have hg : data.getD 33 0 = x := by
      have : (data.drop 33).getD 0 0 = x := by rw [hx]; rfl
      simpa [List.getD_eq_getElem?_getD] using this
    rw [hx, hg]
    rfl

/-- C10, at a 36-byte Joliet window with the identifier "A" in UCS-2BE. -/
theorem Unmarshal_joliet_identifier_witness :
    (zeroRecord nullSusp true).Joliet = true ∧
    (Unmarshal nullSusp (zeroRecord nullSusp true) jolietWindow).2 = Outcome.nil ∧
    (byteAt jolietWindow 32 ≠ 1 →
      DecodeJolietName ((jolietWindow.take (33 + byteAt jolietWindow 32)).drop 33) =
        Except.ok (Unmarshal nullSusp (zeroRecord nullSusp true) jolietWindow).1.FileIdentifier) :=
  ⟨rfl, by decide,
    (Unmarshal_joliet_identifier nullSusp (zeroRecord nullSusp true) jolietWindow rfl
      (by decide)).1⟩

/-! ### UTF-8 and UTF-16 facts -/

theorem toByte_val (x : Nat) : (toByte x).val = x % 256 := rfl

theorem lor_eq_add (i x y : Nat) (hx : x % 2 ^ i = 0) (hy : y < 2 ^ i) : x ||| y = x + y := by
  have hx' : x = 2 ^ i * (x / 2 ^ i) := by
    have := Nat.div_add_mod x (2 ^ i)
    omega
  rw [hx']
  exact (Nat.mul_add_lt_is_or hy _).symm

theorem and_3F (x : Nat) : x &&& 0x3F = x % 64 := Nat.and_pow_two_sub_one_eq_mod x 6

theorem and_1F (x : Nat) : x &&& 0x1F = x % 32 := Nat.and_pow_two_sub_one_eq_mod x 5

theorem and_0F (x : Nat) : x &&& 0x0F = x % 16 := Nat.and_pow_two_sub_one_eq_mod x 4

theorem and_07 (x : Nat) : x &&& 0x07 = x % 8 := Nat.and_pow_two_sub_one_eq_mod x 3

theorem cont_byte (x : Nat) : toByte (0x80 ||| ((toByte x).val &&& 0x3F)) = toByte (0x80 + x % 64) := by
  rw [toByte_val, and_3F, lor_eq_add 6 _ _ (by norm_num) (by norm_num; omega)]
  congr 1
  omega

theorem encoderune_1 (r : Nat) (h : r ≤ 0x7F) : encoderune r = [toByte r] := by
  simp [encoderune, rune1Max, h]

theorem encoderune_2 (r : Nat) (h1 : 0x7F < r) (h2 : r ≤ 0x7FF) :
    encoderune r = [toByte (0xC0 + r / 64), toByte (0x80 + r % 64)] := by
  have c1 : ¬ r ≤ rune1Max := by simp only [rune1Max]; omega
  have c2 : r ≤ rune2Max := by simp only [rune2Max]; omega
  unfold encoderune
  rw [if_neg c1, if_pos c2, cont_byte,
    toByte_val, Nat.shiftRight_eq_div_pow,
    lor_eq_add 6 _ _ (by norm_num) (by norm_num; omega)]
  congr 2
  norm_num
  omega

theorem encode3_eq (r : Nat) (h2 : r ≤ 0xFFFF) :
    encode3 r = [toByte (0xE0 + r / 4096), toByte (0x80 + r / 64 % 64), toByte (0x80 + r % 64)] := by
  unfold encode3
  rw [cont_byte, cont_byte, toByte_val, Nat.shiftRight_eq_div_pow, Nat.shiftRight_eq_div_pow,
    lor_eq_add 4 _ _ (by norm_num) (by norm_num; omega)]
  congr 2
  norm_num
  omega

theorem encoderune_3 (r : Nat) (h1 : 0x7FF < r) (h2 : r ≤ 0xFFFF)
    (hs : ¬ (0xD800 ≤ r ∧ r ≤ 0xDFFF)) :
    encoderune r = [toByte (0xE0 + r / 4096), toByte (0x80 + r / 64 % 64), toByte (0x80 + r % 64)] := by
  have c1 : ¬ r ≤ rune1Max := by simp only [rune1Max]; omega
  have c2 : ¬ r ≤ rune2Max := by simp only [rune2Max]; omega
  have c3 : ¬ (maxRune < r ∨ (surrogateMin ≤ r ∧ r ≤ surrogateMax)) := by
    simp only [maxRune, surrogateMin, surrogateMax]; omega
  have c4 : r ≤ rune3Max := by simp only [rune3Max]; omega
  unfold encoderune
  rw [if_neg c1, if_neg c2, if_neg c3, if_pos c4, encode3_eq r h2]

theorem encoderune_4 (r : Nat) (h1 : 0xFFFF < r) (h2 : r ≤ 0x10FFFF) :
    encoderune r = [toByte (0xF0 + r / 262144), toByte (0x80 + r / 4096 % 64),
      toByte (0x80 + r / 64 % 64), toByte (0x80 + r % 64)] := by
  have c1 : ¬ r ≤ rune1Max := by simp only [rune1Max]; omega
  have c2 : ¬ r ≤ rune2Max := by simp only [rune2Max]; omega
  have c3 : ¬ (maxRune < r ∨ (surrogateMin ≤ r ∧ r ≤ surrogateMax)) := by
    simp only [maxRune, surrogateMin, surrogateMax]; omega
  have c4 : ¬ r ≤ rune3Max := by simp only [rune3Max]; omega
  unfold encoderune
  rw [if_neg c1, if_neg c2, if_neg c3, if_neg c4, cont_byte, cont_byte, cont_byte,
    toByte_val, Nat.shiftRight_eq_div_pow, Nat.shiftRight_eq_div_pow, Nat.shiftRight_eq_div_pow,
    lor_eq_add 4 _ _ (by norm_num) (by norm_num; omega)]
  congr 2
  norm_num
  omega

theorem dec2_eq (a b : Nat) :
    ((a &&& 0x1F) <<< 6) ||| (b &&& 0x3F) = a % 32 * 64 + b % 64 := by
  rw [and_1F, and_3F, Nat.shiftLeft_eq,
    lor_eq_add 6 _ _ (by norm_num) (by norm_num; omega)]

theorem dec3_eq (a b c : Nat) :
    ((a &&& 0x0F) <<< 12) ||| ((b &&& 0x3F) <<< 6) ||| (c &&& 0x3F) =
      a % 16 * 4096 + b % 64 * 64 + c % 64 := by
  rw [and_0F, and_3F, and_3F, Nat.shiftLeft_eq, Nat.shiftLeft_eq,
    lor_eq_add 12 (a % 16 * 2 ^ 12) (b % 64 * 2 ^ 6) (by norm_num) (by norm_num; omega),
    lor_eq_add 6 _ (c % 64) (by norm_num; omega) (by norm_num; omega)]

theorem dec4_eq (a b c d : Nat) :
    ((a &&& 0x07) <<< 18) ||| ((b &&& 0x3F) <<< 12) ||| ((c &&& 0x3F) <<< 6) ||| (d &&& 0x3F) =
      a % 8 * 262144 + b % 64 * 4096 + c % 64 * 64 + d % 64 := by
  rw [and_07, and_3F, and_3F, and_3F, Nat.shiftLeft_eq, Nat.shiftLeft_eq, Nat.shiftLeft_eq,
    lor_eq_add 18 (a % 8 * 2 ^ 18) (b % 64 * 2 ^ 12) (by norm_num) (by norm_num; omega),
    lor_eq_add 12 _ (c % 64 * 2 ^ 6) (by norm_num; omega) (by norm_num; omega),
    lor_eq_add 6 _ (d % 64) (by norm_num; omega) (by norm_num; omega)]

theorem isCont_toByte (x : Nat) (h : x < 64) : isCont (toByte (0x80 + x)) = true := by
  simp only [isCont, toByte_val, decide_eq_true_eq]
  omega

/-- Decoding the UTF-8 bytes of a valid rune gives the rune back, together
with the number of bytes written for it. -/
theorem decoderune_encoderune (r : Nat) (hv : validRune r) (rest : List Byte) :
    decoderune (encoderune r ++ rest) = (r, (encoderune r).length) := by
  unfold validRune at hv
  by_cases h1 : r ≤ 0x7F
  · rw [encoderune_1 r h1]
    simp only [List.cons_append, List.nil_append, decoderune, toByte_val, List.length_singleton]
    rw [if_pos (by omega)]
    have e : r % 256 = r := by omega
    rw [e]
  · by_cases h2 : r ≤ 0x7FF
    · rw [encoderune_2 r (by omega) h2]
      simp only [List.cons_append, List.nil_append, decoderune, toByte_val, dec2_eq,
        isCont_toByte _ (Nat.mod_lt r (by norm_num : 64 > 0)), rune1Max, if_true]
      rw [if_neg (by omega), if_pos (by omega), if_pos (by omega)]
      have e : (192 + r / 64) % 256 % 32 * 64 + (128 + r % 64) % 256 % 64 = r := by omega
      rw [e]
      rfl
    · by_cases h3 : r ≤ 0xFFFF
      · rw [encoderune_3 r (by omega) h3 (by omega)]
        simp only [List.cons_append, List.nil_append, decoderune, toByte_val, dec3_eq,
          isCont_toByte _ (Nat.mod_lt _ (by norm_num : 64 > 0)), rune2Max, surrogateMin,
          surrogateMax, if_true, and_self]
        rw [if_neg (by omega), if_neg (by omega), if_pos (by omega), if_pos (by omega)]
        have e : (224 + r / 4096) % 256 % 16 * 4096 + (128 + r / 64 % 64) % 256 % 64 * 64
            + (128 + r % 64) % 256 % 64 = r := by omega
        rw [e]
        rfl
      · rw [encoderune_4 r (by omega) (by omega)]
        simp only [List.cons_append, List.nil_append, decoderune, toByte_val, dec4_eq,
          isCont_toByte _ (Nat.mod_lt _ (by norm_num : 64 > 0)), rune3Max, maxRune,
          if_true, and_self]
        rw [if_neg (by omega), if_neg (by omega), if_neg (by omega), if_pos (by omega),
          if_pos (by omega)]
        have e : (240 + r / 262144) % 256 % 8 * 262144 + (128 + r / 4096 % 64) % 256 % 64 * 4096
            + (128 + r / 64 % 64) % 256 % 64 * 64 + (128 + r % 64) % 256 % 64 = r := by omega
        rw [e]
        rfl

theorem encoderune_ne_nil (r : Nat) : encoderune r ≠ [] := by
  unfold encoderune encode3
  repeat' split
  all_goals simp

theorem encoderune_length_pos (r : Nat) : 0 < (encoderune r).length :=
  List.length_pos.mpr (encoderune_ne_nil r)

theorem runesToString_cons (r : Nat) (rs : List Nat) :
    runesToString (r :: rs) = encoderune r ++ runesToString rs := by
  simp [runesToString]

theorem runesToString_append (rs rs' : List Nat) :
    runesToString (rs ++ rs') = runesToString rs ++ runesToString rs' := by
  simp [runesToString]

/-- The loop of `validateJolietCharacters` on the UTF-8 bytes of valid runes
reports the first forbidden rune, if there is one. -/
theorem validateLoop_runesToString (rs : List Nat) (hv : ∀ r ∈ rs, validRune r) :
    ∀ fuel, (runesToString rs).length ≤ fuel →
      validateLoop fuel (runesToString rs) =
        (rs.find? (fun r => forbiddenRune r)).map JolietError.invalidCharacter := by
  induction rs with
  | nil =>
    intro fuel _
    cases fuel <;> simp [validateLoop, runesToString]
  | cons r rs ih =>
    intro fuel hf
    rw [runesToString_cons] at hf ⊢
    have hpos := encoderune_length_pos r
    rw [List.length_append] at hf
    obtain ⟨f, rfl⟩ : ∃ f, fuel = f + 1 := ⟨fuel - 1, by omega⟩
    have hne : ¬ (encoderune r ++ runesToString rs).length = 0 := by
      rw [List.length_append]; omega
    unfold validateLoop
    rw [if_neg hne, decoderune_encoderune r (hv r (List.mem_cons_self _ _))]
    simp only [List.find?_cons]
    by_cases hfb : forbiddenRune r = true
    · simp [hfb]
    · simp only [hfb, Bool.false_eq_true, if_false]
      rw [List.drop_left]
      exact ih (fun x hx => hv x (List.mem_cons_of_mem _ hx)) f (by omega)

theorem validateJolietCharacters_runesToString (rs : List Nat) (hv : ∀ r ∈ rs, validRune r) :
    validateJolietCharacters (runesToString rs) =
      (rs.find? (fun r => forbiddenRune r)).map JolietError.invalidCharacter :=
  validateLoop_runesToString rs hv _ (Nat.le_refl _)

/-- The loop of `trimNullPadding` removes exactly the trailing null bytes. -/
theorem trimLoop_eq : ∀ (fuel : Nat) (s : List Byte), s.length ≤ fuel →
    trimLoop fuel s = (s.reverse.dropWhile (fun b => decide (b = 0))).reverse := by
  intro fuel
  induction fuel with
  | zero =>
    intro s hs
    have : s = [] := List.length_eq_zero.mp (by omega)
    subst this
    simp [trimLoop]
  | succ n ih =>
    intro s hs
    rcases List.eq_nil_or_concat s with rfl | ⟨s', a, rfl⟩
    · simp [trimLoop]
    · rw [List.concat_eq_append] at hs ⊢
      unfold trimLoop
      by_cases ha : a = 0
      · subst ha
        have hs' : s'.length ≤ n := by simp at hs; omega
        simp [ih s' hs']
      · have : ¬ (0 < (s' ++ [a]).length ∧ (s' ++ [a]).getLast? = some 0) := by
          simp; intro h; exact absurd h ha
        rw [if_neg this]
        simp [ha]

theorem trimNullPadding_eq (s : List Byte) :
    trimNullPadding s = (s.reverse.dropWhile (fun b => decide (b = 0))).reverse :=
  trimLoop_eq s.length s (Nat.le_refl _)

theorem toByte_cont_ne_zero (x : Nat) : toByte (0x80 + x % 64) ≠ 0 := by
  intro h
  have := congrArg Fin.val h
  rw [toByte_val] at this
  simp at this
  omega

/-- The last UTF-8 byte of a rune other than U+0000 is not null. -/
theorem encoderune_last (r : Nat) (hr : r ≠ 0) :
    ∃ bs b, encoderune r = bs ++ [b] ∧ b ≠ 0 := by
  unfold encoderune encode3
  split
  · rename_i h1
    refine ⟨[], toByte r, rfl, ?_⟩
    intro h
    have h2 := congrArg Fin.val h
    rw [toByte_val] at h2
    have h1' : r ≤ 0x7F := h1
    have h3 : r % 256 = 0 := h2
    omega
  · split
    · exact ⟨[_], _, rfl, by rw [cont_byte]; exact toByte_cont_ne_zero _⟩
    · split
      · exact ⟨[_, _], _, rfl, by rw [cont_byte]; exact toByte_cont_ne_zero _⟩
      · split
        · exact ⟨[_, _], _, rfl, by rw [cont_byte]; exact toByte_cont_ne_zero _⟩
        · exact ⟨[_, _, _], _, rfl, by rw [cont_byte]; exact toByte_cont_ne_zero _⟩

theorem trimNullPadding_append_zero (s : List Byte) :
    trimNullPadding (s ++ [0]) = trimNullPadding s := by
  simp [trimNullPadding_eq]

theorem trimNullPadding_append_nonzero (s : List Byte) (b : Byte) (hb : b ≠ 0) :
    trimNullPadding (s ++ [b]) = s ++ [b] := by
  simp [trimNullPadding_eq, hb]

theorem trimNullRunes_append_zero (rs : List Nat) :
    trimNullRunes (rs ++ [0]) = trimNullRunes rs := by
  simp [trimNullRunes]

theorem trimNullRunes_append_nonzero (rs : List Nat) (r : Nat) (hr : r ≠ 0) :
    trimNullRunes (rs ++ [r]) = rs ++ [r] := by
  simp [trimNullRunes, hr]

/-- Trimming the null bytes of an encoded rune sequence removes exactly its
trailing U+0000 runes. -/
theorem trimNullPadding_runesToString (rs : List Nat) :
    trimNullPadding (runesToString rs) = runesToString (trimNullRunes rs) := by
  induction rs using List.reverseRecOn with
  | nil => simp [trimNullPadding_eq, trimNullRunes, runesToString]
  | append_singleton rs r ih =>
    by_cases hr : r = 0
    · subst hr
      have h0 : runesToString [0] = [0] := by decide
      rw [runesToString_append, h0, trimNullPadding_append_zero, trimNullRunes_append_zero, ih]
    · obtain ⟨bs, b, hbs, hb⟩ := encoderune_last r hr
      have h1 : runesToString [r] = bs ++ [b] := by
        rw [runesToString_cons, hbs]; simp [runesToString]
      rw [trimNullRunes_append_nonzero rs r hr, runesToString_append, h1, ← List.append_assoc,
        trimNullPadding_append_nonzero _ b hb]

theorem trimNullRunes_sublist (rs : List Nat) : ∀ r ∈ trimNullRunes rs, r ∈ rs := by
  intro r hr
  unfold trimNullRunes at hr
  rw [List.mem_reverse] at hr
  exact List.mem_reverse.mp ((List.dropWhile_sublist _).subset hr)

theorem mem_dropWhile_of_split {p : Nat → Bool} (l1 l2 : List Nat) (x : Nat)
    (h : ∃ y ∈ l1 ++ [x], p y = false) : x ∈ (l1 ++ x :: l2).dropWhile p := by
  induction l1 with
  | nil =>
    obtain ⟨y, hy, hp⟩ := h
    simp at hy
    subst hy
    simp [List.dropWhile_cons, hp]
  | cons a l1 ih =>
    rw [List.cons_append, List.dropWhile_cons]
    by_cases ha : p a = true
    · rw [if_pos ha]
      apply ih
      obtain ⟨y, hy, hp⟩ := h
      rcases List.mem_cons.mp hy with rfl | hy'
      · rw [ha] at hp; cases hp
      · exact ⟨y, hy', hp⟩
    · rw [if_neg ha]
      simp

/-- A rune survives the trimming when it or a later rune is not U+0000. -/
theorem mem_trimNullRunes (a b : List Nat) (u : Nat) (h : u ≠ 0 ∨ ∃ v ∈ b, v ≠ 0) :
    u ∈ trimNullRunes (a ++ u :: b) := by
  unfold trimNullRunes
  rw [List.mem_reverse]
  have hrev : (a ++ u :: b).reverse = b.reverse ++ u :: a.reverse := by simp
  rw [hrev]
  apply mem_dropWhile_of_split
  rcases h with h | ⟨v, hv, hv0⟩
  · exact ⟨u, by simp, by simpa using h⟩
  · exact ⟨v, by simp [hv], by simpa using hv0⟩

theorem utf16Decode_nil : utf16Decode [] = [] := rfl

theorem utf16Decode_cons_plain (u : Nat) (rest : List Nat) (hu : u < 0xd800 ∨ 0xe000 ≤ u) :
    utf16Decode (u :: rest) = u :: utf16Decode rest := by
  have c : u < surr1 ∨ surr3 ≤ u := hu
  cases rest with
  | nil => simp only [utf16Decode, if_pos c]
  | cons r2 rest => simp only [utf16Decode, if_pos c]

theorem utf16Decode_single (r : Nat) (hr : ¬ (r < surr1 ∨ surr3 ≤ r)) :
    utf16Decode [r] = [replacementChar] := by
  simp only [utf16Decode, if_neg hr]

theorem utf16Decode_pair (r r2 : Nat) (rest : List Nat) (hr : ¬ (r < surr1 ∨ surr3 ≤ r))
    (hp : surr1 ≤ r ∧ r < surr2 ∧ surr2 ≤ r2 ∧ r2 < surr3) :
    utf16Decode (r :: r2 :: rest) = utf16DecodeRune r r2 :: utf16Decode rest := by
  simp only [utf16Decode, if_neg hr, if_pos hp]

theorem utf16Decode_lone (r r2 : Nat) (rest : List Nat) (hr : ¬ (r < surr1 ∨ surr3 ≤ r))
    (hp : ¬ (surr1 ≤ r ∧ r < surr2 ∧ surr2 ≤ r2 ∧ r2 < surr3)) :
    utf16Decode (r :: r2 :: rest) = replacementChar :: utf16Decode (r2 :: rest) := by
  simp only [utf16Decode, if_neg hr, if_neg hp]

/-- A unit that is not a surrogate is decoded as itself, whatever surrounds it. -/
theorem utf16Decode_append_plain (u : Nat) (post : List Nat) (hu : u < 0xd800 ∨ 0xe000 ≤ u) :
    ∀ (n : Nat) (pre : List Nat), pre.length ≤ n →
      utf16Decode (pre ++ u :: post) = utf16Decode pre ++ u :: utf16Decode post := by
  intro n
  induction n with
  | zero =>
    intro pre hpre
    have : pre = [] := List.length_eq_zero.mp (by omega)
    subst this
    simp [utf16Decode_cons_plain u post hu, utf16Decode_nil]
  | succ n ih =>
    intro pre hpre
    match pre, hpre with
    | [], _ => simp [utf16Decode_cons_plain u post hu, utf16Decode_nil]
    | [r], _ =>
      by_cases hr : r < surr1 ∨ surr3 ≤ r
      · rw [List.singleton_append, utf16Decode_cons_plain r _ hr,
          utf16Decode_cons_plain u post hu, utf16Decode_cons_plain r [] hr, utf16Decode_nil]
        rfl
      · have hnp : ¬ (surr1 ≤ r ∧ r < surr2 ∧ surr2 ≤ u ∧ u < surr3) := by
          simp only [surr1, surr2, surr3]; omega
        rw [List.singleton_append, utf16Decode_lone r u post hr hnp,
          utf16Decode_cons_plain u post hu, utf16Decode_single r hr]
        rfl
    | r :: r2 :: pre', hpre =>
      have h1 : (r2 :: pre').length ≤ n := by simp at hpre ⊢; omega
      have h2 : pre'.length ≤ n := by simp at hpre ⊢; omega
      have ih1 := ih (r2 :: pre') h1
      have ih2 := ih pre' h2
      simp only [List.cons_append] at ih1 ⊢
      by_cases hr : r < surr1 ∨ surr3 ≤ r
      · rw [utf16Decode_cons_plain r _ hr, ih1, utf16Decode_cons_plain r _ hr]
        rfl
      · by_cases hp : surr1 ≤ r ∧ r < surr2 ∧ surr2 ≤ r2 ∧ r2 < surr3
        · rw [utf16Decode_pair r r2 _ hr hp, ih2, utf16Decode_pair r r2 _ hr hp]
          rfl
        · rw [utf16Decode_lone r r2 _ hr hp, ih1, utf16Decode_lone r r2 _ hr hp]
          rfl

theorem utf16DecodeRune_bounds (r r2 : Nat) (h : surr1 ≤ r ∧ r < surr2 ∧ surr2 ≤ r2 ∧ r2 < surr3) :
    0x10000 ≤ utf16DecodeRune r r2 ∧ utf16DecodeRune r r2 ≤ 0x10FFFF := by
  simp only [surr1, surr2, surr3] at h
  unfold utf16DecodeRune
  simp only [surr1, surr2, surrSelf]
  rw [Nat.shiftLeft_eq, lor_eq_add 10 _ _ (by norm_num) (by norm_num; omega)]
  omega

/-- Every rune `utf16.Decode` produces from 16-bit units is a valid rune. -/
theorem utf16Decode_valid : ∀ (n : Nat) (units : List Nat), units.length ≤ n →
    (∀ u ∈ units, u < 0x10000) → ∀ r ∈ utf16Decode units, validRune r := by
  intro n
  induction n with
  | zero =>
    intro units hlen _ r hr
    have : units = [] := List.length_eq_zero.mp (by omega)
    subst this
    simp [utf16Decode_nil] at hr
  | succ n ih =>
    intro units hlen hu r hr
    match units, hlen, hu, hr with
    | [], _, _, hr => simp [utf16Decode_nil] at hr
    | u :: rest, hlen, hu, hr =>
      have hrest : rest.length ≤ n := by simp at hlen; omega
      have hu0 : u < 0x10000 := hu u (List.mem_cons_self _ _)
      have hur : ∀ x ∈ rest, x < 0x10000 := fun x hx => hu x (List.mem_cons_of_mem _ hx)
      have hrepl : validRune replacementChar := by
        unfold validRune replacementChar; omega
      by_cases hp : u < surr1 ∨ surr3 ≤ u
      · rw [utf16Decode_cons_plain u rest hp] at hr
        rcases List.mem_cons.mp hr with rfl | hr'
        · simp only [surr1, surr3] at hp
          unfold validRune; omega
        · exact ih rest hrest hur r hr'
      · match rest, hrest, hur, hr with
        | [], _, _, hr =>
          rw [utf16Decode_single u hp] at hr
          simp at hr
          rw [hr]; exact hrepl
        | r2 :: rest2, hrest, hur, hr =>
          have hrest2 : rest2.length ≤ n := by simp at hrest; omega
          by_cases hq : surr1 ≤ u ∧ u < surr2 ∧ surr2 ≤ r2 ∧ r2 < surr3
          · rw [utf16Decode_pair u r2 rest2 hp hq] at hr
            rcases List.mem_cons.mp hr with rfl | hr'
            · have := utf16DecodeRune_bounds u r2 hq
              unfold validRune; omega
            · exact ih rest2 hrest2 (fun x hx => hur x (List.mem_cons_of_mem _ hx)) r hr'
          · rw [utf16Decode_lone u r2 rest2 hp hq] at hr
            rcases List.mem_cons.mp hr with rfl | hr'
            · exact hrepl
            · exact ih (r2 :: rest2) hrest hur r hr'

/-- A unit other than 0 leaves a rune other than U+0000 in the decoded text. -/
theorem utf16Decode_nonzero : ∀ (n : Nat) (units : List Nat), units.length ≤ n →
    (∃ v ∈ units, v ≠ 0) → ∃ r ∈ utf16Decode units, r ≠ 0 := by
  intro n
  induction n with
  | zero =>
    intro units hlen hv
    have : units = [] := List.length_eq_zero.mp (by omega)
    subst this
    simp at hv
  | succ n ih =>
    intro units hlen hv
    match units, hlen, hv with
    | [], _, hv => simp at hv
    | u :: rest, hlen, hv =>
      have hrest : rest.length ≤ n := by simp at hlen; omega
      by_cases hp : u < surr1 ∨ surr3 ≤ u
      · rw [utf16Decode_cons_plain u rest hp]
        obtain ⟨v, hvm, hv0⟩ := hv
        rcases List.mem_cons.mp hvm with rfl | hvm'
        · exact ⟨v, List.mem_cons_self _ _, hv0⟩
        · obtain ⟨r, hr, hr0⟩ := ih rest hrest ⟨v, hvm', hv0⟩
          exact ⟨r, List.mem_cons_of_mem _ hr, hr0⟩
      · match rest with
        | [] =>
          rw [utf16Decode_single u hp]
          exact ⟨replacementChar, by simp, by decide⟩
        | r2 :: rest2 =>
          by_cases hq : surr1 ≤ u ∧ u < surr2 ∧ surr2 ≤ r2 ∧ r2 < surr3
          · rw [utf16Decode_pair u r2 rest2 hp hq]
            have := utf16DecodeRune_bounds u r2 hq
            exact ⟨_, List.mem_cons_self _ _, by omega⟩
          · rw [utf16Decode_lone u r2 rest2 hp hq]
            exact ⟨replacementChar, List.mem_cons_self _ _, by decide⟩

theorem readUint16sBE_cons (b0 b1 : Byte) (rest : List Byte) :
    readUint16sBE (b0 :: b1 :: rest) = (256 * b0.val + b1.val) :: readUint16sBE rest := by
  simp only [readUint16sBE]
  rw [lor_shift8 _ _ b1.isLt]
  congr 1
  omega

theorem readUint16sBE_lt (data : List Byte) : ∀ n, data.length ≤ n →
    ∀ u ∈ readUint16sBE data, u < 0x10000 := by
  intro n
  induction n generalizing data with
  | zero =>
    intro h u hu
    have : data = [] := List.length_eq_zero.mp (by omega)
    subst this
    simp [readUint16sBE] at hu
  | succ n ih =>
    intro h u hu
    match data, h, hu with
    | [], _, hu => simp [readUint16sBE] at hu
    | [_], _, hu => simp [readUint16sBE] at hu
    | b0 :: b1 :: rest, h, hu =>
      rw [readUint16sBE_cons] at hu
      rcases List.mem_cons.mp hu with rfl | hu'
      · have := b0.isLt
        have := b1.isLt
        omega
      · exact ih rest (by simp at h; omega) u hu'

theorem unitAt_cons_cons (b0 b1 : Byte) (rest : List Byte) (k : Nat) :
    unitAt (b0 :: b1 :: rest) (k + 1) = unitAt rest k := by
  have e1 : 2 * (k + 1) = 2 * k + 1 + 1 := by omega
  have e2 : 2 * (k + 1) + 1 = 2 * k + 1 + 1 + 1 := by omega
  simp only [unitAt, byteAt, e1, e2, List.getD_cons_succ]

theorem unitAt_zero (b0 b1 : Byte) (rest : List Byte) :
    unitAt (b0 :: b1 :: rest) 0 = 256 * b0.val + b1.val := by
  simp [unitAt, byteAt]

theorem unitAt_mem : ∀ (j : Nat) (data : List Byte), 2 * j + 1 < data.length →
    unitAt data j ∈ readUint16sBE data := by
  intro j
  induction j with
  | zero =>
    intro data h
    match data, h with
    | b0 :: b1 :: rest, _ =>
      rw [readUint16sBE_cons, unitAt_zero]
      exact List.mem_cons_self _ _
  | succ j ih =>
    intro data h
    match data, h with
    | b0 :: b1 :: rest, h =>
      rw [readUint16sBE_cons, unitAt_cons_cons]
      exact List.mem_cons_of_mem _ (ih rest (by simp at h; omega))

/-- The units read from a byte string, split at the `i`-th unit. -/
theorem readUint16sBE_split : ∀ (i : Nat) (data : List Byte), 2 * i + 1 < data.length →
    ∃ pre post, readUint16sBE data = pre ++ unitAt data i :: post ∧
      ∀ j, i < j → 2 * j + 1 < data.length → unitAt data j ∈ post := by
  intro i
  induction i with
  | zero =>
    intro data h
    match data, h with
    | b0 :: b1 :: rest, _ =>
      refine ⟨[], readUint16sBE rest, ?_, ?_⟩
      · rw [readUint16sBE_cons, unitAt_zero]; rfl
      · intro j hj hlen
        obtain ⟨k, rfl⟩ : ∃ k, j = k + 1 := ⟨j - 1, by omega⟩
        rw [unitAt_cons_cons]
        exact unitAt_mem k rest (by simp at hlen; omega)
  | succ i ih =>
    intro data h
    match data, h with
    | b0 :: b1 :: rest, h =>
      obtain ⟨pre, post, hsplit, hpost⟩ := ih rest (by simp at h; omega)
      refine ⟨(256 * b0.val + b1.val) :: pre, post, ?_, ?_⟩
      · rw [readUint16sBE_cons, unitAt_cons_cons, hsplit]; rfl
      · intro j hj hlen
        obtain ⟨k, rfl⟩ : ∃ k, j = k + 1 := ⟨j - 1, by omega⟩
        rw [unitAt_cons_cons]
        exact hpost k (by omega) (by simp at hlen; omega)

theorem forbiddenRune_plain (u : Nat) (h : forbiddenRune u = true) : u < 0xd800 ∨ 0xe000 ≤ u := by
  simp only [forbiddenRune, decide_eq_true_eq] at h
  omega

/-- On an even number of bytes, two or more, `DecodeJolietName` decodes the
units as UTF-16, drops the trailing U+0000 runes and reports the first
forbidden rune that is left. -/
theorem DecodeJolietName_even (data : List Byte) (heven : data.length % 2 = 0)
    (hlen : 2 ≤ data.length) :
    DecodeJolietName data =
      match (trimNullRunes (utf16Decode (readUint16sBE data))).find? (fun r => forbiddenRune r) with
      | some r => Except.error (JolietError.invalidCharacter r)
      | none => Except.ok (runesToString (trimNullRunes (utf16Decode (readUint16sBE data)))) := by
  have hvalid : ∀ r ∈ trimNullRunes (utf16Decode (readUint16sBE data)), validRune r := by
    intro r hr
    exact utf16Decode_valid _ _ (Nat.le_refl _) (readUint16sBE_lt data _ (Nat.le_refl _)) r
      (trimNullRunes_sublist _ r hr)
  match data, hlen, heven, hvalid with
  | b0 :: b1 :: rest, _, heven, hvalid =>
    unfold DecodeJolietName
    simp only
    rw [if_neg (by omega), trimNullPadding_runesToString,
      validateJolietCharacters_runesToString _ hvalid]
    cases (trimNullRunes (utf16Decode (readUint16sBE (b0 :: b1 :: rest)))).find?
      (fun r => forbiddenRune r) <;> rfl

/-- C9 (counterexample): the four bytes 00 41 00 00 have even length and their
second big-endian unit is U+0000, a code point below 0x20, yet
`DecodeJolietName` returns the name "A" and no error: the trailing U+0000 is
trimmed as padding before the characters are checked. -/
theorem DecodeJolietName_accepts_trailing_null :
    paddedName.length % 2 = 0 ∧ 2 ≤ paddedName.length ∧ unitAt paddedName 1 ≤ 0x001F ∧
      DecodeJolietName paddedName = Except.ok [0x41] := by
  decide

/-- C9 (amended): for every even-length byte string of at least 2 bytes in
which some big-endian 16-bit unit is a code point <= 0x001F or one of '*', '/',
':', ';', '?', '\' and that unit or a later one is not 0x0000 (so the unit is
not part of the trailing U+0000 padding), `DecodeJolietName` returns the error
"invalid character", for a forbidden code point. -/
theorem DecodeJolietName_rejects_forbidden_unit (data : List Byte)
    (heven : data.length % 2 = 0) (hlen : 2 ≤ data.length) (i j : Nat) (hij : i ≤ j)
    (hj : 2 * j + 1 < data.length) (hforb : forbiddenRune (unitAt data i) = true)
    (hnz : unitAt data j ≠ 0) :
    ∃ r, forbiddenRune r = true ∧
      DecodeJolietName data = Except.error (JolietError.invalidCharacter r) := by
  obtain ⟨pre, post, hsplit, hpost⟩ := readUint16sBE_split i data (by omega)
  have hplain := forbiddenRune_plain _ hforb
  have hmem : unitAt data i ∈ trimNullRunes (utf16Decode (readUint16sBE data)) := by
    rw [hsplit, utf16Decode_append_plain _ post hplain _ pre (Nat.le_refl _)]
    apply mem_trimNullRunes
    by_cases hji : j = i
    · left; rw [← hji]; exact hnz
    · right
      exact utf16Decode_nonzero _ post (Nat.le_refl _)
        ⟨unitAt data j, hpost j (by omega) hj, hnz⟩
  rw [DecodeJolietName_even data heven hlen]
  cases hfind : (trimNullRunes (utf16Decode (readUint16sBE data))).find?
      (fun r => forbiddenRune r) with
  | none =>
    have := List.find?_eq_none.mp hfind _ hmem
    simp [hforb] at this
  | some r =>
    have hr := List.find?_some hfind
    exact ⟨r, hr, rfl⟩

/-- C9, at the UCS-2BE bytes of "A*B": the unit '*' is followed by a non-zero unit. -/
theorem DecodeJolietName_rejects_forbidden_unit_witness :
    starName.length % 2 = 0 ∧ 2 ≤ starName.length ∧ forbiddenRune (unitAt starName 1) = true ∧
      unitAt starName 2 ≠ 0 ∧
      ∃ r, forbiddenRune r = true ∧
        DecodeJolietName starName = Except.error (JolietError.invalidCharacter r) :=
  ⟨by decide, by decide, by decide, by decide,
    DecodeJolietName_rejects_forbidden_unit starName (by decide) (by decide) 1 2 (by decide)
      (by decide) (by decide) (by decide)⟩

/-! ### Joliet names: single bytes, odd lengths and the round trip -/

/-- C11: on a one-byte input `DecodeJolietName` returns "." for 0x00, ".."
for 0x01 and the error "invalid single-byte directory identifier" for each of
the other 254 values; on every input of odd length 3 or more it returns the
error "odd byte length". -/
theorem DecodeJolietName_single_and_odd :
    (∀ b : Byte, DecodeJolietName [b] =
      if b = 0x00 then Except.ok [0x2E]
      else if b = 0x01 then Except.ok [0x2E, 0x2E]
      else Except.error (JolietError.invalidSingleByte b)) ∧
    (∀ data : List Byte, data.length % 2 = 1 → 3 ≤ data.length →
      DecodeJolietName data = Except.error JolietError.oddLength) := by
  constructor
  · intro b
    rfl
  · intro data hodd hlen
    match data, hlen, hodd with
    | b0 :: b1 :: rest, _, hodd =>
      unfold DecodeJolietName
      simp only
      rw [if_pos (by omega)]

/-- C11, at the bytes 00, 01, 41 and at the three bytes 00 41 00. -/
theorem DecodeJolietName_single_and_odd_witness :
    DecodeJolietName [0x00] = Except.ok [0x2E] ∧
    DecodeJolietName [0x01] = Except.ok [0x2E, 0x2E] ∧
    DecodeJolietName [0x41] = Except.error (JolietError.invalidSingleByte 0x41) ∧
    DecodeJolietName [0x00, 0x41, 0x00] = Except.error JolietError.oddLength :=
  ⟨DecodeJolietName_single_and_odd.1 0x00, DecodeJolietName_single_and_odd.1 0x01,
    DecodeJolietName_single_and_odd.1 0x41,
    DecodeJolietName_single_and_odd.2 [0x00, 0x41, 0x00] (by decide) (by decide)⟩

theorem utf16Decode_all_plain (us : List Nat) (h : ∀ u ∈ us, u < 0xd800 ∨ 0xe000 ≤ u) :
    utf16Decode us = us := by
  induction us with
  | nil => rfl
  | cons u us ih =>
    rw [utf16Decode_cons_plain u us (h u (List.mem_cons_self _ _)),
      ih (fun x hx => h x (List.mem_cons_of_mem _ hx))]

theorem trimNullRunes_of_ne_zero (rs : List Nat) (h : ∀ r ∈ rs, r ≠ 0) :
    trimNullRunes rs = rs := by
  unfold trimNullRunes
  cases hrev : rs.reverse with
  | nil =>
    have : rs = [] := by simpa using hrev
    simp [this]
  | cons a l =>
    have ha : a ∈ rs := by
      rw [← List.mem_reverse, hrev]; exact List.mem_cons_self _ _
    have hne : decide (a = 0) = false := by simpa using h a ha
    rw [List.dropWhile_cons, hne]
    simp only [Bool.false_eq_true, if_false]
    rw [← hrev, List.reverse_reverse]

theorem utf16Encode_all_plain (rs : List Nat)
    (h : ∀ r ∈ rs, r < 0xd800 ∨ (0xe000 ≤ r ∧ r < 0x10000)) : utf16Encode rs = rs := by
  induction rs with
  | nil => rfl
  | cons r rs ih =>
    have c : r < surr1 ∨ (surr3 ≤ r ∧ r < surrSelf) := h r (List.mem_cons_self _ _)
    simp only [utf16Encode, if_pos c]
    rw [ih (fun x hx => h x (List.mem_cons_of_mem _ hx))]

/-- Converting the UTF-8 bytes of valid runes back to runes gives the runes. -/
theorem stringRunesLoop_runesToString (rs : List Nat) (hv : ∀ r ∈ rs, validRune r) :
    ∀ fuel, (runesToString rs).length ≤ fuel →
      stringRunesLoop fuel (runesToString rs) = rs := by
  induction rs with
  | nil =>
    intro fuel _
    cases fuel <;> simp [stringRunesLoop, runesToString]
  | cons r rs ih =>
    intro fuel hf
    rw [runesToString_cons] at hf ⊢
    have hpos := encoderune_length_pos r
    rw [List.length_append] at hf
    obtain ⟨f, rfl⟩ : ∃ f, fuel = f + 1 := ⟨fuel - 1, by omega⟩
    have hne : ¬ (encoderune r ++ runesToString rs).length = 0 := by
      rw [List.length_append]; omega
    unfold stringRunesLoop
    rw [if_neg hne, decoderune_encoderune r (hv r (List.mem_cons_self _ _))]
    simp only
    rw [List.drop_left, ih (fun x hx => hv x (List.mem_cons_of_mem _ hx)) f (by omega)]

theorem stringRunes_runesToString (rs : List Nat) (hv : ∀ r ∈ rs, validRune r) :
    stringRunes (runesToString rs) = rs :=
  stringRunesLoop_runesToString rs hv _ (Nat.le_refl _)

theorem uint16sToBE_cons (u : Nat) (us : List Nat) :
    uint16sToBE (u :: us) = toByte (u >>> 8) :: toByte u :: uint16sToBE us := by
  simp [uint16sToBE]

theorem toByte_unit_hi (b0 b1 : Byte) : toByte ((256 * b0.val + b1.val) >>> 8) = b0 := by
  apply Fin.ext
  rw [toByte_val, Nat.shiftRight_eq_div_pow]
  have := b0.isLt
  have := b1.isLt
  omega

theorem toByte_unit_lo (b0 b1 : Byte) : toByte (256 * b0.val + b1.val) = b1 := by
  apply Fin.ext
  rw [toByte_val]
  have := b1.isLt
  omega

/-- Writing the units read from an even number of bytes gives the bytes back. -/
theorem uint16sToBE_readUint16sBE : ∀ (n : Nat) (b : List Byte), b.length ≤ n →
    b.length % 2 = 0 → uint16sToBE (readUint16sBE b) = b := by
  intro n
  induction n with
  | zero =>
    intro b h _
    have : b = [] := List.length_eq_zero.mp (by omega)
    subst this
    rfl
  | succ n ih =>
    intro b h heven
    match b, h, heven with
    | [], _, _ => rfl
    | [_], _, heven => simp at heven
    | b0 :: b1 :: rest, h, heven =>
      rw [readUint16sBE_cons, uint16sToBE_cons, toByte_unit_hi, toByte_unit_lo,
        ih rest (by simp at h; omega) (by simp at heven; omega)]

/-- Reading the bytes written for 16-bit units gives the units back. -/
theorem readUint16sBE_uint16sToBE (us : List Nat) (h : ∀ u ∈ us, u < 0x10000) :
    readUint16sBE (uint16sToBE us) = us := by
  induction us with
  | nil => rfl
  | cons u us ih =>
    rw [uint16sToBE_cons, readUint16sBE_cons, ih (fun x hx => h x (List.mem_cons_of_mem _ hx)),
      toByte_val, toByte_val, Nat.shiftRight_eq_div_pow]
    have := h u (List.mem_cons_self _ _)
    congr 1
    omega

theorem uint16sToBE_length (us : List Nat) : (uint16sToBE us).length = 2 * us.length := by
  induction us with
  | nil => rfl
  | cons u us ih => rw [uint16sToBE_cons]; simp [ih]; omega

theorem mem_readUint16sBE : ∀ (n : Nat) (b : List Byte), b.length ≤ n →
    ∀ u ∈ readUint16sBE b, ∃ i, 2 * i + 1 < b.length ∧ u = unitAt b i := by
  intro n
  induction n with
  | zero =>
    intro b h u hu
    have : b = [] := List.length_eq_zero.mp (by omega)
    subst this
    simp [readUint16sBE] at hu
  | succ n ih =>
    intro b h u hu
    match b, h, hu with
    | [], _, hu => simp [readUint16sBE] at hu
    | [_], _, hu => simp [readUint16sBE] at hu
    | b0 :: b1 :: rest, h, hu =>
      rw [readUint16sBE_cons] at hu
      rcases List.mem_cons.mp hu with rfl | hu'
      · exact ⟨0, by simp, (unitAt_zero b0 b1 rest).symm⟩
      · obtain ⟨i, hi, hui⟩ := ih rest (by simp at h; omega) u hu'
        exact ⟨i + 1, by simp; omega, by rw [unitAt_cons_cons]; exact hui⟩

/-- What `DecodeJolietName` returns on an even number of bytes, two or more,
whose units are all plain code points outside the forbidden set. -/
theorem DecodeJolietName_of_clean_units (data : List Byte) (heven : data.length % 2 = 0)
    (hlen : 2 ≤ data.length)
    (hclean : ∀ u ∈ readUint16sBE data,
      ¬ (0xD800 ≤ u ∧ u ≤ 0xDFFF) ∧ forbiddenRune u = false) :
    DecodeJolietName data = Except.ok (runesToString (readUint16sBE data)) := by
  have hplain : ∀ u ∈ readUint16sBE data, u < 0xd800 ∨ 0xe000 ≤ u := by
    intro u hu
    have := (hclean u hu).1
    omega
  have hnz : ∀ u ∈ readUint16sBE data, u ≠ 0 := by
    intro u hu h0
    have hf := (hclean u hu).2
    rw [h0] at hf
    exact absurd hf (by decide)
  rw [DecodeJolietName_even data heven hlen, utf16Decode_all_plain _ hplain,
    trimNullRunes_of_ne_zero _ hnz]
  have hfind : (readUint16sBE data).find? (fun r => forbiddenRune r) = none := by
    rw [List.find?_eq_none]
    intro u hu
    simp [(hclean u hu).2]
  rw [hfind]

/-- C12: for every non-empty string whose characters are all code points of the
Basic Multilingual Plane, none a surrogate and none in the Joliet forbidden
set, `DecodeJolietName` on the UCS-2 big-endian encoding of the string
succeeds and returns exactly the string (as a Go string, its UTF-8 bytes). -/
theorem DecodeJolietName_ucs2be (rs : List Nat) (hne : rs ≠ [])
    (h : ∀ r ∈ rs, r < 0x10000 ∧ ¬ (0xD800 ≤ r ∧ r ≤ 0xDFFF) ∧ forbiddenRune r = false) :
    DecodeJolietName (uint16sToBE rs) = Except.ok (runesToString rs) := by
  have hread : readUint16sBE (uint16sToBE rs) = rs :=
    readUint16sBE_uint16sToBE rs (fun u hu => (h u hu).1)
  have hlen := uint16sToBE_length rs
  have hpos : 0 < rs.length := List.length_pos.mpr hne
  have hdec := DecodeJolietName_of_clean_units (uint16sToBE rs) (by omega) (by omega)
    (by rw [hread]; exact fun u hu => (h u hu).2)
  rw [hdec, hread]

/-- C12, at the name "Résumé.pdf". -/
theorem DecodeJolietName_ucs2be_witness :
    resumeName ≠ [] ∧ uint16sToBE resumeName = resumeBytes ∧
      DecodeJolietName (uint16sToBE resumeName) = Except.ok (runesToString resumeName) ∧
      runesToString resumeName =
        [0x52, 0xC3, 0xA9, 0x73, 0x75, 0x6D, 0xC3, 0xA9, 0x2E, 0x70, 0x64, 0x66] :=
  ⟨by decide, by decide,
    DecodeJolietName_ucs2be resumeName (by decide) (by decide), by decide⟩

/-- C13: for every even-length byte string of at least 2 bytes in which every
big-endian 16-bit unit is a code point that is neither a surrogate nor in the
forbidden set, `DecodeJolietName` succeeds and re-encoding the name it
returns as UTF-16 big-endian gives the input back, byte for byte. -/
theorem DecodeJolietName_reencode (b : List Byte) (heven : b.length % 2 = 0)
    (hlen : 2 ≤ b.length)
    (hvalid : ∀ i, 2 * i + 1 < b.length →
      ¬ (0xD800 ≤ unitAt b i ∧ unitAt b i ≤ 0xDFFF) ∧ forbiddenRune (unitAt b i) = false) :
    ∃ name, DecodeJolietName b = Except.ok name ∧ utf16beEncode name = b := by
  have hclean : ∀ u ∈ readUint16sBE b,
      ¬ (0xD800 ≤ u ∧ u ≤ 0xDFFF) ∧ forbiddenRune u = false := by
    intro u hu
    obtain ⟨i, hi, rfl⟩ := mem_readUint16sBE _ b (Nat.le_refl _) u hu
    exact hvalid i hi
  have hlt := readUint16sBE_lt b _ (Nat.le_refl _)
  refine ⟨runesToString (readUint16sBE b),
    DecodeJolietName_of_clean_units b heven hlen hclean, ?_⟩
  have hv : ∀ r ∈ readUint16sBE b, validRune r := by
    intro r hr
    have h1 := (hclean r hr).1
    have h2 := hlt r hr
    unfold validRune
    omega
  have hp : ∀ r ∈ readUint16sBE b, r < 0xd800 ∨ (0xe000 ≤ r ∧ r < 0x10000) := by
    intro r hr
    have h1 := (hclean r hr).1
    have h2 := hlt r hr
    omega
  unfold utf16beEncode
  rw [stringRunes_runesToString _ hv, utf16Encode_all_plain _ hp,
    uint16sToBE_readUint16sBE _ b (Nat.le_refl _) heven]

/-- C13, at the UCS-2BE bytes of "Résumé.pdf". -/
theorem DecodeJolietName_reencode_witness :
    resumeBytes.length % 2 = 0 ∧ 2 ≤ resumeBytes.length ∧
      ∃ name, DecodeJolietName resumeBytes = Except.ok name ∧ utf16beEncode name = resumeBytes :=
  ⟨by decide, by decide,
    DecodeJolietName_reencode resumeBytes (by decide) (by decide) (by
      intro i hi
      have hi' : i < 10 := by
        have : resumeBytes.length = 20 := by decide
        omega
      interval_cases i <;> decide)⟩

/-! ### Volume descriptors -/

namespace PrimaryVolumeDescriptor

variable {S : SuspPackage} {D : DirectoryPackage S}

/-- When the conditions for success hold, `Unmarshal` returns nil and leaves
the fully decoded descriptor. -/
theorem Unmarshal_of_succeeds (N : EncodingPackage) (pvd : PrimaryVolumeDescriptor S D)
    (data : List Byte) (h : succeeds S N data) :
    Unmarshal N pvd data = (decoded N pvd data, DescriptorOutcome.nil) := by
  obtain ⟨h0, h1, h2, h3, h4, h5⟩ := h
  unfold Unmarshal decoded
  cases hroot : IsoKit.Unmarshal S (NewRecord S) (arraySlice data 156 190) with
  | mk r o =>
    rw [hroot] at h0
    simp only at h0
    subst h0
    simp only [h1, h2, h3, h4, h5]

/-- When `Unmarshal` returns nil, the conditions for success hold. -/
theorem succeeds_of_Unmarshal_nil (N : EncodingPackage) (pvd : PrimaryVolumeDescriptor S D)
    (data : List Byte) (h : (Unmarshal N pvd data).2 = DescriptorOutcome.nil) :
    succeeds S N data := by
  unfold Unmarshal at h
  unfold succeeds
  cases hroot : IsoKit.Unmarshal S (NewRecord S) (arraySlice data 156 190) with
  | mk r o =>
    rw [hroot] at h
    cases o with
    | fault => simp at h
    | error e => simp at h
    | nil =>
      simp only at h
      cases h1 : (N.UnmarshalInt32LSBMSB (arraySlice data 80 88)).2 with
      | some e => rw [h1] at h; simp at h
      | none =>
        rw [h1] at h
        simp only at h
        cases h2 : (N.UnmarshalInt16LSBMSB (arraySlice data 120 124)).2 with
        | some e => rw [h2] at h; simp at h
        | none =>
          rw [h2] at h
          simp only at h
          cases h3 : (N.UnmarshalInt16LSBMSB (arraySlice data 124 128)).2 with
          | some e => rw [h3] at h; simp at h
          | none =>
            rw [h3] at h
            simp only at h
            cases h4 : (N.UnmarshalInt16LSBMSB (arraySlice data 128 132)).2 with
            | some e => rw [h4] at h; simp at h
            | none =>
              rw [h4] at h
              simp only at h
              cases h5 : (N.UnmarshalInt32LSBMSB (arraySlice data 132 140)).2 with
              | some e => rw [h5] at h; simp at h
              | none => exact ⟨rfl, rfl, rfl, rfl, rfl, rfl⟩

theorem Unmarshal_nil_iff (N : EncodingPackage) (pvd : PrimaryVolumeDescriptor S D)
    (data : List Byte) :
    (Unmarshal N pvd data).2 = DescriptorOutcome.nil ↔ succeeds S N data :=
  ⟨succeeds_of_Unmarshal_nil N pvd data, fun h => by rw [Unmarshal_of_succeeds N pvd data h]⟩

theorem Unmarshal_nil_decoded (N : EncodingPackage) (pvd : PrimaryVolumeDescriptor S D)
    (data : List Byte) (h : (Unmarshal N pvd data).2 = DescriptorOutcome.nil) :
    (Unmarshal N pvd data).1 = decoded N pvd data := by
  rw [Unmarshal_of_succeeds N pvd data (succeeds_of_Unmarshal_nil N pvd data h)]

end PrimaryVolumeDescriptor

theorem getElem?_eq_of_getD_eq {s s' : List Byte} (hlen : s.length = s'.length) (k : Nat)
    (h : s.getD k 0 = s'.getD k 0) : s[k]? = s'[k]? := by
  by_cases hk : k < s.length
  · have hk' : k < s'.length := by omega
    rw [List.getD_eq_getElem?_getD, List.getD_eq_getElem?_getD, List.getElem?_eq_getElem hk,
      List.getElem?_eq_getElem hk'] at h
    rw [List.getElem?_eq_getElem hk, List.getElem?_eq_getElem hk']
    simpa using h
  · rw [List.getElem?_eq_none (by omega), List.getElem?_eq_none (by omega)]

/-- Two sectors of the same length that agree at the offsets `lo..hi-1` have
the same slice `[lo:hi]`. -/
theorem arraySlice_congr (s s' : List Byte) (lo hi : Nat) (hlen : s.length = s'.length)
    (h : ∀ i, lo ≤ i → i < hi → s.getD i 0 = s'.getD i 0) :
    arraySlice s lo hi = arraySlice s' lo hi := by
  unfold arraySlice
  apply List.ext_getElem?
  intro n
  rw [List.getElem?_drop, List.getElem?_drop, List.getElem?_take, List.getElem?_take]
  by_cases hn : lo + n < hi
  · rw [if_pos hn, if_pos hn]
    exact getElem?_eq_of_getD_eq hlen _ (h _ (by omega) hn)
  · rw [if_neg hn, if_neg hn]

theorem arrayIndex_eq_byteAt (data : List Byte) (i : Nat) :
    (arrayIndex data i).val = byteAt data i := rfl

theorem arraySlice_length (data : List Byte) (lo hi : Nat) (h : hi ≤ data.length) :
    (arraySlice data lo hi).length = hi - lo := by
  unfold arraySlice
  rw [List.length_drop, List.length_take]
  omega

/-- Four bytes of a sector as an explicit list. -/
theorem arraySlice_four : ∀ (lo : Nat) (data : List Byte), lo + 4 ≤ data.length →
    arraySlice data lo (lo + 4) =
      [data.getD lo 0, data.getD (lo + 1) 0, data.getD (lo + 2) 0, data.getD (lo + 3) 0] := by
  intro lo
  induction lo with
  | zero =>
    intro data h
    match data, h with
    | a :: b :: c :: d :: rest, _ => simp [arraySlice]
  | succ lo ih =>
    intro data h
    match data, h with
    | a :: rest, h =>
      have h' : lo + 4 ≤ rest.length := by simp at h; omega
      have e : lo + 1 + 4 = (lo + 4) + 1 := by omega
      have := ih rest h'
      unfold arraySlice at this ⊢
      rw [e, List.take_succ_cons, List.drop_succ_cons, this]
      simp [List.getD_cons_succ]

theorem leUint32_arraySlice (data : List Byte) (lo : Nat) (h : lo + 4 ≤ data.length) :
    (leUint32 (arraySlice data lo (lo + 4))).getD 0 =
      byteAt data lo + 256 * byteAt data (lo + 1) + 65536 * byteAt data (lo + 2)
        + 16777216 * byteAt data (lo + 3) := by
  rw [arraySlice_four lo data h]
  simp only [leUint32, Option.getD_some]
  exact le32_eq_sum _ _ _ _ (byteAt_lt _ _) (byteAt_lt _ _) (byteAt_lt _ _)

theorem beUint32_arraySlice (data : List Byte) (lo : Nat) (h : lo + 4 ≤ data.length) :
    (beUint32 (arraySlice data lo (lo + 4))).getD 0 =
      byteAt data (lo + 3) + 256 * byteAt data (lo + 2) + 65536 * byteAt data (lo + 1)
        + 16777216 * byteAt data lo := by
  rw [arraySlice_four lo data h]
  simp only [beUint32, Option.getD_some]
  exact le32_eq_sum _ _ _ _ (byteAt_lt _ _) (byteAt_lt _ _) (byteAt_lt _ _)

theorem patch_length (s bs : List Byte) (off : Nat) (h : off + bs.length ≤ s.length) :
    (patch s off bs).length = s.length := by
  unfold patch
  simp only [List.length_append, List.length_take, List.length_drop]
  omega

theorem patchAll_length : ∀ (ps : List (Nat × List Byte)) (s : List Byte),
    (∀ p ∈ ps, p.1 + p.2.length ≤ s.length) → (patchAll ps s).length = s.length := by
  intro ps
  induction ps with
  | nil => intro s _; rfl
  | cons p ps ih =>
    intro s h
    have hp := h p (List.mem_cons_self _ _)
    show (patchAll ps (patch s p.1 p.2)).length = s.length
    rw [ih (patch s p.1 p.2) (by
      intro q hq
      rw [patch_length s p.2 p.1 hp]
      exact h q (List.mem_cons_of_mem _ hq)), patch_length s p.2 p.1 hp]

theorem primarySector_length : primarySector.length = 2048 := by
  unfold primarySector
  rw [patchAll_length _ _ (by rw [List.length_replicate]; decide), List.length_replicate]

theorem mismatchSector_length : mismatchSector.length = 2048 := by
  unfold mismatchSector
  rw [patch_length _ _ _ (by rw [primarySector_length]; decide), primarySector_length]

theorem badIdentifierSector_length : badIdentifierSector.length = 2048 := by
  unfold badIdentifierSector
  rw [patch_length _ _ _ (by rw [primarySector_length]; decide), primarySector_length]

theorem versionSector_length : versionSector.length = 2048 := by
  unfold versionSector
  rw [patch_length _ _ _ (by rw [primarySector_length]; decide), primarySector_length]

namespace PrimaryVolumeDescriptor

variable {S : SuspPackage} {D : DirectoryPackage S}

/-- The way `Unmarshal` ends depends on the sector only through the root record
window and the five dual-endian fields. -/
theorem Unmarshal_outcome_congr (N : EncodingPackage) (pvd pvd' : PrimaryVolumeDescriptor S D)
    (data data' : List Byte)
    (h156 : arraySlice data 156 190 = arraySlice data' 156 190)
    (h80 : arraySlice data 80 88 = arraySlice data' 80 88)
    (h120 : arraySlice data 120 124 = arraySlice data' 120 124)
    (h124 : arraySlice data 124 128 = arraySlice data' 124 128)
    (h128 : arraySlice data 128 132 = arraySlice data' 128 132)
    (h132 : arraySlice data 132 140 = arraySlice data' 132 140) :
    (Unmarshal N pvd data).2 = (Unmarshal N pvd' data').2 := by
  unfold Unmarshal
  rw [h156, h80, h120, h124, h128, h132]
  cases hroot : IsoKit.Unmarshal S (NewRecord S) (arraySlice data' 156 190) with
  | mk r o =>
    cases o with
    | fault => rfl
    | error e => rfl
    | nil =>
      simp only
      cases (N.UnmarshalInt32LSBMSB (arraySlice data' 80 88)).2 with
      | some e => rfl
      | none =>
        simp only
        cases (N.UnmarshalInt16LSBMSB (arraySlice data' 120 124)).2 with
        | some e => rfl
        | none =>
          simp only
          cases (N.UnmarshalInt16LSBMSB (arraySlice data' 124 128)).2 with
          | some e => rfl
          | none =>
            simp only
            cases (N.UnmarshalInt16LSBMSB (arraySlice data' 128 132)).2 with
            | some e => rfl
            | none =>
              simp only
              cases (N.UnmarshalInt32LSBMSB (arraySlice data' 132 140)).2 with
              | some e => rfl
              | none => rfl

end PrimaryVolumeDescriptor

/-- How `ParsePrimaryVolumeDescriptor` ends, in terms of how `Unmarshal` ends
and of the children of the root entry. -/
theorem ParsePrimaryVolumeDescriptor_status (S : SuspPackage) (D : DirectoryPackage S)
    (N : EncodingPackage) (data : List Byte) (useRR : Bool) :
    (ParsePrimaryVolumeDescriptor S D N data useRR).1.status =
      match (PrimaryVolumeDescriptor.Unmarshal N (zeroPrimaryVolumeDescriptor S D useRR)
        data).2 with
      | DescriptorOutcome.fault => ParseResult.fault
      | DescriptorOutcome.error e => ParseResult.error (ParseError.unmarshal e)
      | DescriptorOutcome.nil =>
        match D.GetChildren (D.NewEntry
          (IsoKit.Unmarshal S (NewRecord S) (arraySlice data 156 190)).1 useRR) with
        | Except.error e => ParseResult.error (ParseError.children e)
        | Except.ok _ => ParseResult.ok () := by
  unfold ParsePrimaryVolumeDescriptor
  cases hU : PrimaryVolumeDescriptor.Unmarshal N (zeroPrimaryVolumeDescriptor S D useRR) data with
  | mk p o =>
    cases o with
    | fault => rfl
    | error e => rfl
    | nil =>
      have hnil : (PrimaryVolumeDescriptor.Unmarshal N (zeroPrimaryVolumeDescriptor S D useRR)
          data).2 = DescriptorOutcome.nil := by rw [hU]
      have hp := PrimaryVolumeDescriptor.Unmarshal_nil_decoded N _ data hnil
      rw [hU] at hp
      simp only at hp
      subst hp
      simp only
      have hroot : (PrimaryVolumeDescriptor.decoded N (zeroPrimaryVolumeDescriptor S D useRR)
          data).RootDirectoryEntry = some (D.NewEntry
            (IsoKit.Unmarshal S (NewRecord S) (arraySlice data 156 190)).1 useRR) := rfl
      rw [hroot]
      simp only
      cases D.GetChildren (D.NewEntry
        (IsoKit.Unmarshal S (NewRecord S) (arraySlice data 156 190)).1 useRR) with
      | error e => rfl
      | ok c => rfl

theorem patch_getD (s bs : List Byte) (off i : Nat) (hfit : off + bs.length ≤ s.length)
    (h : i < off ∨ off + bs.length ≤ i) : (patch s off bs).getD i 0 = s.getD i 0 := by
  unfold patch
  rw [List.getD_eq_getElem?_getD, List.getD_eq_getElem?_getD]
  congr 1
  rcases h with h | h
  · rw [List.append_assoc, List.getElem?_append_left (by rw [List.length_take]; omega),
      List.getElem?_take_of_lt h]
  · rw [List.getElem?_append_right (by
        rw [List.length_append, List.length_take]; omega),
      List.getElem?_drop]
    congr 1
    rw [List.length_append, List.length_take]
    omega

/-- C15 (counterexample): a 2048-byte sector whose standard identifier is
"XXXXX" and that is well-formed otherwise is parsed into a descriptor;
`ParsePrimaryVolumeDescriptor` only logs the warning "Invalid standard
identifier". -/
theorem ParsePrimaryVolumeDescriptor_accepts_bad_identifier :
    badIdentifierSector.length = 2048 ∧
    (badIdentifierSector.take 6).drop 1 ≠ [0x43, 0x44, 0x30, 0x30, 0x31] ∧
    (ParsePrimaryVolumeDescriptor nullSusp nullDirectory specEncoding badIdentifierSector
      false).1.isOk = true ∧
    (ParsePrimaryVolumeDescriptor nullSusp nullDirectory specEncoding badIdentifierSector
      false).2 = [ParseWarning.invalidIdentifier [0x58, 0x58, 0x58, 0x58, 0x58]] :=
  ⟨badIdentifierSector_length, by decide, by decide, by decide⟩

/-- C15 (amended): `ParsePrimaryVolumeDescriptor` does not fail on a standard
identifier other than "CD001". For any two 2048-byte sectors that differ only
in bytes 1..5, it ends the same way on both (a descriptor, the same error, or a
panic); when it returns a descriptor, `Identifier()` is bytes 1..5 as found,
and the warning "Invalid standard identifier" is logged exactly when they are
not "CD001". -/
theorem ParsePrimaryVolumeDescriptor_identifier_not_checked (S : SuspPackage)
    (D : DirectoryPackage S) (N : EncodingPackage) (data data' : List Byte) (useRR : Bool)
    (hlen : data.length = 2048) (hlen' : data'.length = 2048)
    (hagree : ∀ i, ¬ (1 ≤ i ∧ i ≤ 5) → data.getD i 0 = data'.getD i 0) :
    (ParsePrimaryVolumeDescriptor S D N data useRR).1.status =
      (ParsePrimaryVolumeDescriptor S D N data' useRR).1.status ∧
    (∀ pvd, (ParsePrimaryVolumeDescriptor S D N data useRR).1 = ParseResult.ok pvd →
      pvd.Identifier = (data.take 6).drop 1 ∧
      (ParseWarning.invalidIdentifier ((data.take 6).drop 1) ∈
          (ParsePrimaryVolumeDescriptor S D N data useRR).2 ↔
        (data.take 6).drop 1 ≠ ISO9660_STD_IDENTIFIER)) := by
  have hl : data.length = data'.length := by omega
  have hs : ∀ lo hi, 6 ≤ lo → arraySlice data lo hi = arraySlice data' lo hi := by
    intro lo hi hlo
    exact arraySlice_congr data data' lo hi hl (fun i h1 _ => hagree i (by omega))
  constructor
  · rw [ParsePrimaryVolumeDescriptor_status, ParsePrimaryVolumeDescriptor_status,
      PrimaryVolumeDescriptor.Unmarshal_outcome_congr N _ (zeroPrimaryVolumeDescriptor S D useRR)
        data data' (hs _ _ (by omega)) (hs _ _ (by omega)) (hs _ _ (by omega))
        (hs _ _ (by omega)) (hs _ _ (by omega)) (hs _ _ (by omega)),
      hs 156 190 (by omega)]
  · intro pvd hok
    unfold ParsePrimaryVolumeDescriptor at hok ⊢
    cases hU : PrimaryVolumeDescriptor.Unmarshal N (zeroPrimaryVolumeDescriptor S D useRR)
        data with
    | mk p o =>
      rw [hU] at hok
      cases o with
      | fault => simp at hok
      | error e => simp at hok
      | nil =>
        have hnil : (PrimaryVolumeDescriptor.Unmarshal N (zeroPrimaryVolumeDescriptor S D useRR)
            data).2 = DescriptorOutcome.nil := by rw [hU]
        have hp := PrimaryVolumeDescriptor.Unmarshal_nil_decoded N _ data hnil
        rw [hU] at hp
        simp only at hp
        subst hp
        have hid : (PrimaryVolumeDescriptor.decoded N (zeroPrimaryVolumeDescriptor S D useRR)
            data).Identifier = (data.take 6).drop 1 := rfl
        simp only at hok ⊢
        cases hroot : (PrimaryVolumeDescriptor.decoded N (zeroPrimaryVolumeDescriptor S D useRR)
            data).RootDirectoryEntry with
        | none => rw [hroot] at hok; simp at hok
        | some root =>
          rw [hroot] at hok
          simp only at hok ⊢
          cases hc : D.GetChildren root with
          | error e => rw [hc] at hok; simp at hok
          | ok c =>
            rw [hc] at hok
            simp only at hok ⊢
            injection hok with hok
            subst hok
            refine ⟨hid, ?_⟩
            rw [hid]
            by_cases hne : (data.take 6).drop 1 = ISO9660_STD_IDENTIFIER
            · simp [hne]
            · simp [hne]

/-- C15, at the sample sector and the same sector with the identifier "XXXXX":
both are parsed into a descriptor. -/
theorem ParsePrimaryVolumeDescriptor_identifier_not_checked_witness :
    badIdentifierSector.length = 2048 ∧ primarySector.length = 2048 ∧
    (ParsePrimaryVolumeDescriptor nullSusp nullDirectory specEncoding badIdentifierSector
      false).1.status =
      (ParsePrimaryVolumeDescriptor nullSusp nullDirectory specEncoding primarySector
        false).1.status :=
  ⟨badIdentifierSector_length, primarySector_length,
    (ParsePrimaryVolumeDescriptor_identifier_not_checked nullSusp nullDirectory specEncoding
      badIdentifierSector primarySector false badIdentifierSector_length primarySector_length
      (fun i hi => patch_getD primarySector _ 1 i (by rw [primarySector_length]; decide)
        (by simp only [List.length_cons, List.length_nil]; omega))).1⟩

namespace PrimaryVolumeDescriptor

variable {S : SuspPackage} {D : DirectoryPackage S}

/-- Whatever way `Unmarshal` ends short of nil, the fields located after
offset 139 are as they were. -/
theorem Unmarshal_tailFields_of_not_nil (N : EncodingPackage)
    (pvd : PrimaryVolumeDescriptor S D) (data : List Byte)
    (h : (Unmarshal N pvd data).2 ≠ DescriptorOutcome.nil) :
    tailFields (Unmarshal N pvd data).1 = tailFields pvd := by
  unfold Unmarshal at h ⊢
  cases hroot : IsoKit.Unmarshal S (NewRecord S) (arraySlice data 156 190) with
  | mk r o =>
    rw [hroot] at h
    cases o with
    | fault => rfl
    | error e => rfl
    | nil =>
      simp only at h ⊢
      cases h1 : (N.UnmarshalInt32LSBMSB (arraySlice data 80 88)).2 with
      | some e => rfl
      | none =>
        rw [h1] at h
        simp only at h ⊢
        cases h2 : (N.UnmarshalInt16LSBMSB (arraySlice data 120 124)).2 with
        | some e => rfl
        | none =>
          rw [h2] at h
          simp only at h ⊢
          cases h3 : (N.UnmarshalInt16LSBMSB (arraySlice data 124 128)).2 with
          | some e => rfl
          | none =>
            rw [h3] at h
            simp only at h ⊢
            cases h4 : (N.UnmarshalInt16LSBMSB (arraySlice data 128 132)).2 with
            | some e => rfl
            | none =>
              rw [h4] at h
              simp only at h ⊢
              cases h5 : (N.UnmarshalInt32LSBMSB (arraySlice data 132 140)).2 with
              | some e => rfl
              | none => rw [h5] at h; simp at h

/-- The error `Unmarshal` returns when everything before the path table size
is in order and package `encoding` refuses the path table size. -/
theorem Unmarshal_path_table_size_error (N : EncodingPackage)
    (pvd : PrimaryVolumeDescriptor S D) (data : List Byte) (e : N.Error)
    (h0 : (IsoKit.Unmarshal S (NewRecord S) (arraySlice data 156 190)).2 = Outcome.nil)
    (h1 : (N.UnmarshalInt32LSBMSB (arraySlice data 80 88)).2 = none)
    (h2 : (N.UnmarshalInt16LSBMSB (arraySlice data 120 124)).2 = none)
    (h3 : (N.UnmarshalInt16LSBMSB (arraySlice data 124 128)).2 = none)
    (h4 : (N.UnmarshalInt16LSBMSB (arraySlice data 128 132)).2 = none)
    (h5 : (N.UnmarshalInt32LSBMSB (arraySlice data 132 140)).2 = some e) :
    (Unmarshal N pvd data).2 = DescriptorOutcome.error (DescriptorError.encoding e) := by
  unfold Unmarshal
  cases hroot : IsoKit.Unmarshal S (NewRecord S) (arraySlice data 156 190) with
  | mk r o =>
    rw [hroot] at h0
    simp only at h0
    subst h0
    simp only [h1, h2, h3, h4, h5]

end PrimaryVolumeDescriptor

/-- C16 (counterexample): on a primary volume descriptor sector that is
well-formed except for a path table size of 42 in the little-endian half and
43 in the big-endian half, `Unmarshal` does not complete: it returns the
mismatch error, and the fields after offset 139 are not populated (the L path
table location stays 0 although bytes 140..143 hold 19, the volume set
identifier stays empty). The same sector with 42 in both halves is decoded. -/
theorem PrimaryVolumeDescriptor_Unmarshal_stops_at_mismatch :
    mismatchSector.length = 2048 ∧
    leUint32 ((mismatchSector.take 136).drop 132) = some 42 ∧
    beUint32 ((mismatchSector.take 140).drop 136) = some 43 ∧
    (PrimaryVolumeDescriptor.Unmarshal specEncoding
      (zeroPrimaryVolumeDescriptor nullSusp nullDirectory false) mismatchSector).2 =
        DescriptorOutcome.error (DescriptorError.encoding (DualEndianError.BadDualEndian 42 43)) ∧
    byteAt mismatchSector 140 = 19 ∧
    (PrimaryVolumeDescriptor.Unmarshal specEncoding
      (zeroPrimaryVolumeDescriptor nullSusp nullDirectory false)
        mismatchSector).1.LPathTableLocation = 0 ∧
    (PrimaryVolumeDescriptor.Unmarshal specEncoding
      (zeroPrimaryVolumeDescriptor nullSusp nullDirectory false)
        mismatchSector).1.VolumeSetIdentifier = [] ∧
    (PrimaryVolumeDescriptor.Unmarshal specEncoding
      (zeroPrimaryVolumeDescriptor nullSusp nullDirectory false) primarySector).2 =
        DescriptorOutcome.nil :=
  ⟨mismatchSector_length, by decide, by decide, by decide, by decide, by decide, by decide,
    by decide⟩

/-- C16 (amended): when `UnmarshalInt32LSBMSB` reports an error for the path
table size field (bytes 132..139), as it does when the two halves disagree,
decoding does not continue: `PrimaryVolumeDescriptor.Unmarshal` does not return
nil, and every field located after offset 139 keeps the value it had before
the call. On a sector that is in order up to that field, the error returned is
the one `UnmarshalInt32LSBMSB` reported. -/
theorem PrimaryVolumeDescriptor_Unmarshal_stops_on_path_table_size (S : SuspPackage)
    (D : DirectoryPackage S) (N : EncodingPackage) (pvd : PrimaryVolumeDescriptor S D)
    (data : List Byte) (e : N.Error)
    (h : (N.UnmarshalInt32LSBMSB ((data.take 140).drop 132)).2 = some e) :
    (PrimaryVolumeDescriptor.Unmarshal N pvd data).2 ≠ DescriptorOutcome.nil ∧
    PrimaryVolumeDescriptor.tailFields (PrimaryVolumeDescriptor.Unmarshal N pvd data).1 =
      PrimaryVolumeDescriptor.tailFields pvd ∧
    ((IsoKit.Unmarshal S (NewRecord S) ((data.take 190).drop 156)).2 = Outcome.nil →
      (N.UnmarshalInt32LSBMSB ((data.take 88).drop 80)).2 = none →
      (N.UnmarshalInt16LSBMSB ((data.take 124).drop 120)).2 = none →
      (N.UnmarshalInt16LSBMSB ((data.take 128).drop 124)).2 = none →
      (N.UnmarshalInt16LSBMSB ((data.take 132).drop 128)).2 = none →
      (PrimaryVolumeDescriptor.Unmarshal N pvd data).2 =
        DescriptorOutcome.error (DescriptorError.encoding e)) := by
  have hnot : (PrimaryVolumeDescriptor.Unmarshal N pvd data).2 ≠ DescriptorOutcome.nil := by
    intro hnil
    have hs := PrimaryVolumeDescriptor.succeeds_of_Unmarshal_nil N pvd data hnil
    have h5 := hs.2.2.2.2.2
    unfold arraySlice at h5
    rw [h] at h5
    cases h5
  exact ⟨hnot, PrimaryVolumeDescriptor.Unmarshal_tailFields_of_not_nil N pvd data hnot,
    fun h0 h1 h2 h3 h4 =>
      PrimaryVolumeDescriptor.Unmarshal_path_table_size_error N pvd data e h0 h1 h2 h3 h4 h⟩

/-- C16, at the sector with the path table size 42 / 43 and the function
`UnmarshalInt32LSBMSB` modelled from the spec. -/
theorem PrimaryVolumeDescriptor_Unmarshal_stops_on_path_table_size_witness :
    (specEncoding.UnmarshalInt32LSBMSB ((mismatchSector.take 140).drop 132)).2 =
      some (DualEndianError.BadDualEndian 42 43) ∧
    (PrimaryVolumeDescriptor.Unmarshal specEncoding
      (zeroPrimaryVolumeDescriptor nullSusp nullDirectory false) mismatchSector).2 ≠
        DescriptorOutcome.nil :=
  ⟨by decide,
    (PrimaryVolumeDescriptor_Unmarshal_stops_on_path_table_size nullSusp nullDirectory
      specEncoding (zeroPrimaryVolumeDescriptor nullSusp nullDirectory false) mismatchSector
      (DualEndianError.BadDualEndian 42 43) (by decide)).1⟩

namespace PrimaryVolumeDescriptor

variable {S : SuspPackage} {D : DirectoryPackage S}

/-- The fields other than the version, the unused fields and the raw sector
depend on the sector only through the bytes outside `reservedOffset`. -/
theorem mainFields_decoded_congr (N : EncodingPackage) (pvd : PrimaryVolumeDescriptor S D)
    (data data' : List Byte) (hl : data.length = data'.length)
    (hagree : ∀ i, ¬ reservedOffset i → data.getD i 0 = data'.getD i 0) :
    mainFields (decoded N pvd data) = mainFields (decoded N pvd data') := by
  have hs : ∀ lo hi, (∀ i, lo ≤ i → i < hi → ¬ reservedOffset i) →
      arraySlice data lo hi = arraySlice data' lo hi := by
    intro lo hi h
    exact arraySlice_congr data data' lo hi hl (fun i h1 h2 => hagree i (h i h1 h2))
  have hi : ∀ k, ¬ reservedOffset k → arrayIndex data k = arrayIndex data' k :=
    fun k hk => hagree k hk
  have i0 := hi 0 (by unfold reservedOffset; omega)
  have i881 := hi 881 (by unfold reservedOffset; omega)
  have s1 := hs 1 6 (by intro i h1 h2; unfold reservedOffset; omega)
  have s8 := hs 8 40 (by intro i h1 h2; unfold reservedOffset; omega)
  have s40 := hs 40 72 (by intro i h1 h2; unfold reservedOffset; omega)
  have s80 := hs 80 88 (by intro i h1 h2; unfold reservedOffset; omega)
  have s120 := hs 120 124 (by intro i h1 h2; unfold reservedOffset; omega)
  have s124 := hs 124 128 (by intro i h1 h2; unfold reservedOffset; omega)
  have s128 := hs 128 132 (by intro i h1 h2; unfold reservedOffset; omega)
  have s132 := hs 132 140 (by intro i h1 h2; unfold reservedOffset; omega)
  have s140 := hs 140 144 (by intro i h1 h2; unfold reservedOffset; omega)
  have s144 := hs 144 148 (by intro i h1 h2; unfold reservedOffset; omega)
  have s148 := hs 148 152 (by intro i h1 h2; unfold reservedOffset; omega)
  have s152 := hs 152 156 (by intro i h1 h2; unfold reservedOffset; omega)
  have s156 := hs 156 190 (by intro i h1 h2; unfold reservedOffset; omega)
  have s190 := hs 190 318 (by intro i h1 h2; unfold reservedOffset; omega)
  have s318 := hs 318 446 (by intro i h1 h2; unfold reservedOffset; omega)
  have s446 := hs 446 574 (by intro i h1 h2; unfold reservedOffset; omega)
  have s574 := hs 574 702 (by intro i h1 h2; unfold reservedOffset; omega)
  have s702 := hs 702 739 (by intro i h1 h2; unfold reservedOffset; omega)
  have s739 := hs 739 776 (by intro i h1 h2; unfold reservedOffset; omega)
  have s776 := hs 776 813 (by intro i h1 h2; unfold reservedOffset; omega)
  have s813 := hs 813 830 (by intro i h1 h2; unfold reservedOffset; omega)
  have s830 := hs 830 847 (by intro i h1 h2; unfold reservedOffset; omega)
  have s847 := hs 847 864 (by intro i h1 h2; unfold reservedOffset; omega)
  have s864 := hs 864 881 (by intro i h1 h2; unfold reservedOffset; omega)
  have s883 := hs 883 1395 (by intro i h1 h2; unfold reservedOffset; omega)
  simp only [mainFields, decoded, unmarshalTail, i0, i881, s1, s8, s40, s80, s120, s124, s128,
    s132, s140, s144, s148, s152, s156, s190, s318, s446, s574, s702, s739, s776, s813, s830,
    s847, s864, s883]

end PrimaryVolumeDescriptor

/-- C17: a wrong version byte and non-zero unused fields are never fatal. For
any two 2048-byte sectors that differ only at offset 6 (version) and in the
unused ranges (offset 7, 72..79, 88..119, 882, 1395..2047),
`PrimaryVolumeDescriptor.Unmarshal` ends the same way on both, so it succeeds
on one if and only if it succeeds on the other; when it succeeds, every decoded
field read from the other offsets (all fields but the version, the unused
fields and the stored raw sector) is equal; and `ParsePrimaryVolumeDescriptor`
ends the same way on both. -/
theorem PrimaryVolumeDescriptor_Unmarshal_reserved_bytes (S : SuspPackage)
    (D : DirectoryPackage S) (N : EncodingPackage) (pvd : PrimaryVolumeDescriptor S D)
    (data data' : List Byte) (useRR : Bool)
    (hlen : data.length = 2048) (hlen' : data'.length = 2048)
    (hagree : ∀ i, ¬ reservedOffset i → data.getD i 0 = data'.getD i 0) :
    (PrimaryVolumeDescriptor.Unmarshal N pvd data).2 =
      (PrimaryVolumeDescriptor.Unmarshal N pvd data').2 ∧
    ((PrimaryVolumeDescriptor.Unmarshal N pvd data).2 = DescriptorOutcome.nil →
      PrimaryVolumeDescriptor.mainFields (PrimaryVolumeDescriptor.Unmarshal N pvd data).1 =
        PrimaryVolumeDescriptor.mainFields (PrimaryVolumeDescriptor.Unmarshal N pvd data').1) ∧
    (ParsePrimaryVolumeDescriptor S D N data useRR).1.status =
      (ParsePrimaryVolumeDescriptor S D N data' useRR).1.status := by
  have hl : data.length = data'.length := by omega
  have hs : ∀ lo hi, 120 ≤ lo → hi ≤ 190 → arraySlice data lo hi = arraySlice data' lo hi := by
    intro lo hi hlo hhi
    exact arraySlice_congr data data' lo hi hl
      (fun i h1 h2 => hagree i (by unfold reservedOffset; omega))
  have h80 : arraySlice data 80 88 = arraySlice data' 80 88 :=
    arraySlice_congr data data' 80 88 hl
      (fun i h1 h2 => hagree i (by unfold reservedOffset; omega))
  have hout : ∀ p : PrimaryVolumeDescriptor S D,
      (PrimaryVolumeDescriptor.Unmarshal N p data).2 =
        (PrimaryVolumeDescriptor.Unmarshal N p data').2 := fun p =>
    PrimaryVolumeDescriptor.Unmarshal_outcome_congr N p p data data'
      (hs _ _ (by omega) (by omega)) h80 (hs _ _ (by omega) (by omega))
      (hs _ _ (by omega) (by omega)) (hs _ _ (by omega) (by omega))
      (hs _ _ (by omega) (by omega))
  refine ⟨hout pvd, ?_, ?_⟩
  · intro hnil
    have hnil' := hnil
    rw [hout pvd] at hnil'
    rw [PrimaryVolumeDescriptor.Unmarshal_nil_decoded N pvd data hnil,
      PrimaryVolumeDescriptor.Unmarshal_nil_decoded N pvd data' hnil']
    exact PrimaryVolumeDescriptor.mainFields_decoded_congr N pvd data data' hl hagree
  · rw [ParsePrimaryVolumeDescriptor_status, ParsePrimaryVolumeDescriptor_status,
      hout (zeroPrimaryVolumeDescriptor S D useRR), hs 156 190 (by omega) (by omega)]

/-- C17, at the sample sector and the same sector with the version byte 2. -/
theorem PrimaryVolumeDescriptor_Unmarshal_reserved_bytes_witness :
    primarySector.length = 2048 ∧ versionSector.length = 2048 ∧
    (PrimaryVolumeDescriptor.Unmarshal specEncoding
      (zeroPrimaryVolumeDescriptor nullSusp nullDirectory false) primarySector).2 =
    (PrimaryVolumeDescriptor.Unmarshal specEncoding
      (zeroPrimaryVolumeDescriptor nullSusp nullDirectory false) versionSector).2 :=
  ⟨primarySector_length, versionSector_length,
    (PrimaryVolumeDescriptor_Unmarshal_reserved_bytes nullSusp nullDirectory specEncoding
      (zeroPrimaryVolumeDescriptor nullSusp nullDirectory false) primarySector versionSector
      false primarySector_length versionSector_length
      (fun i hi => (patch_getD primarySector [2] 6 i (by rw [primarySector_length]; decide)
        (by simp only [List.length_cons, List.length_nil]
            unfold reservedOffset at hi
            omega)).symm)).1⟩

/-- The integer `int8(b)` has the bits of the byte `b`. -/
theorem toInt8_emod (b : Byte) : toInt8 b % 256 = (b.val : Int) := by
  unfold toInt8
  have hb := b.isLt
  split <;> omega

theorem signedVersionSector_length : signedVersionSector.length = 2048 := by
  unfold signedVersionSector
  rw [patch_length _ _ _ (by rw [primarySector_length]; decide), primarySector_length]

/-- C18 (counterexample): on a well-formed 2048-byte sector whose byte 6 is
200, `Unmarshal` returns nil and `Version()` is -56, not 200: the byte is
converted to a signed 8-bit integer. -/
theorem PrimaryVolumeDescriptor_Unmarshal_version_negative :
    signedVersionSector.length = 2048 ∧ byteAt signedVersionSector 6 = 200 ∧
    (PrimaryVolumeDescriptor.Unmarshal specEncoding
      (zeroPrimaryVolumeDescriptor nullSusp nullDirectory false) signedVersionSector).2 =
        DescriptorOutcome.nil ∧
    (PrimaryVolumeDescriptor.Unmarshal specEncoding
      (zeroPrimaryVolumeDescriptor nullSusp nullDirectory false)
        signedVersionSector).1.Version = -56 ∧
    (PrimaryVolumeDescriptor.Unmarshal specEncoding
      (zeroPrimaryVolumeDescriptor nullSusp nullDirectory false)
        signedVersionSector).1.Version ≠ 200 :=
  ⟨signedVersionSector_length, by decide, by decide, by decide, by decide⟩

/-- C18 (amended): for every 2048-byte sector on which
`PrimaryVolumeDescriptor.Unmarshal` returns nil, `Type()` is byte 0,
`Identifier()` is the 5 bytes at offsets 1..5, `Version()` is byte 6 converted
to a signed 8-bit integer (byte 6 itself when it is at most 127, byte 6 minus
256 when it is 128 or more), the root directory entry is made from the record
that `DirectoryRecord.Unmarshal` decodes (without error) from the 34 bytes at
offsets 156..189, and `Data()` is the input sector, all 2048 bytes. -/
theorem PrimaryVolumeDescriptor_Unmarshal_header (S : SuspPackage) (D : DirectoryPackage S)
    (N : EncodingPackage) (pvd p : PrimaryVolumeDescriptor S D) (data : List Byte)
    (hlen : data.length = 2048)
    (h : PrimaryVolumeDescriptor.Unmarshal N pvd data = (p, DescriptorOutcome.nil)) :
    p.Type_ = byteAt data 0 ∧
    p.Identifier = (data.take 6).drop 1 ∧ p.Identifier.length = 5 ∧
    p.Version = toInt8 (data.getD 6 0) ∧ p.Version % 256 = (byteAt data 6 : Int) ∧
    ((data.take 190).drop 156).length = 34 ∧
    (IsoKit.Unmarshal S (NewRecord S) ((data.take 190).drop 156)).2 = Outcome.nil ∧
    p.RootDirectoryEntry = some (D.NewEntry
      (IsoKit.Unmarshal S (NewRecord S) ((data.take 190).drop 156)).1 pvd.useRR) ∧
    p.Data = data ∧ p.Data.length = 2048 ∧
    (byteAt data 6 < 128 → p.Version = (byteAt data 6 : Int)) ∧
    (128 ≤ byteAt data 6 → p.Version = (byteAt data 6 : Int) - 256) := by
  have hnil : (PrimaryVolumeDescriptor.Unmarshal N pvd data).2 = DescriptorOutcome.nil := by
    rw [h]
  have hp := PrimaryVolumeDescriptor.Unmarshal_nil_decoded N pvd data hnil
  rw [h] at hp
  simp only at hp
  subst hp
  have hs := PrimaryVolumeDescriptor.succeeds_of_Unmarshal_nil N pvd data hnil
  have hv : (PrimaryVolumeDescriptor.decoded N pvd data).Version = toInt8 (data.getD 6 0) := rfl
  refine ⟨rfl, rfl, ?_, rfl, ?_, ?_, hs.1, rfl, rfl, hlen, ?_, ?_⟩
  · exact arraySlice_length data 1 6 (by omega)
  · exact toInt8_emod _
  · exact arraySlice_length data 156 190 (by omega)
  · intro h6
    have h6' : (data.getD 6 0).val < 128 := h6
    rw [hv]
    unfold toInt8
    rw [if_pos h6']
    rfl
  · intro h6
    have h6' : ¬ (data.getD 6 0).val < 128 := fun hlt => absurd h6 (Nat.not_le.mpr hlt)
    rw [hv]
    unfold toInt8
    rw [if_neg h6']
    rfl

/-- C18, at the sample sector, whose version byte is 1. -/
theorem PrimaryVolumeDescriptor_Unmarshal_header_witness :
    primarySector.length = 2048 ∧
    (PrimaryVolumeDescriptor.Unmarshal specEncoding
      (zeroPrimaryVolumeDescriptor nullSusp nullDirectory false) primarySector).2 =
        DescriptorOutcome.nil ∧
    (PrimaryVolumeDescriptor.Unmarshal specEncoding
      (zeroPrimaryVolumeDescriptor nullSusp nullDirectory false) primarySector).1.Identifier =
        (primarySector.take 6).drop 1 :=
  ⟨primarySector_length, by decide,
    (PrimaryVolumeDescriptor_Unmarshal_header nullSusp nullDirectory specEncoding
      (zeroPrimaryVolumeDescriptor nullSusp nullDirectory false) _ primarySector
      primarySector_length (Prod.ext rfl (by decide))).2.1⟩

/-- C19 (counterexample): on a well-formed sector whose bytes 8..39 are "LINUX"
followed by 27 spaces and whose bytes 40..71 are "TEST" followed by 28 spaces,
`Unmarshal` returns nil and leaves the 32 bytes in `SystemIdentifier` and in
`VolumeIdentifier` as they are, trailing spaces included. -/
theorem PrimaryVolumeDescriptor_Unmarshal_keeps_padding :
    primarySector.length = 2048 ∧
    (PrimaryVolumeDescriptor.Unmarshal specEncoding
      (zeroPrimaryVolumeDescriptor nullSusp nullDirectory false) primarySector).2 =
        DescriptorOutcome.nil ∧
    (PrimaryVolumeDescriptor.Unmarshal specEncoding
      (zeroPrimaryVolumeDescriptor nullSusp nullDirectory false) primarySector).1.SystemIdentifier
        = [0x4C, 0x49, 0x4E, 0x55, 0x58] ++ List.replicate 27 0x20 ∧
    (PrimaryVolumeDescriptor.Unmarshal specEncoding
      (zeroPrimaryVolumeDescriptor nullSusp nullDirectory false) primarySector).1.VolumeIdentifier
        = [0x54, 0x45, 0x53, 0x54] ++ List.replicate 28 0x20 :=
  ⟨primarySector_length, by decide, by decide, by decide⟩

/-- C19 (amended): for every 2048-byte sector on which
`PrimaryVolumeDescriptor.Unmarshal` returns nil, `SystemIdentifier` and
`VolumeIdentifier` are the 32 bytes at sector offsets 8..39 and 40..71 as
stored: nothing is trimmed, padding stays in the strings. -/
theorem PrimaryVolumeDescriptor_Unmarshal_identifiers (S : SuspPackage)
    (D : DirectoryPackage S) (N : EncodingPackage) (pvd p : PrimaryVolumeDescriptor S D)
    (data : List Byte) (hlen : data.length = 2048)
    (h : PrimaryVolumeDescriptor.Unmarshal N pvd data = (p, DescriptorOutcome.nil)) :
    p.SystemIdentifier = (data.take 40).drop 8 ∧ p.SystemIdentifier.length = 32 ∧
    p.VolumeIdentifier = (data.take 72).drop 40 ∧ p.VolumeIdentifier.length = 32 := by
  have hnil : (PrimaryVolumeDescriptor.Unmarshal N pvd data).2 = DescriptorOutcome.nil := by
    rw [h]
  have hp := PrimaryVolumeDescriptor.Unmarshal_nil_decoded N pvd data hnil
  rw [h] at hp
  simp only at hp
  subst hp
  exact ⟨rfl, arraySlice_length data 8 40 (by omega), rfl,
    arraySlice_length data 40 72 (by omega)⟩

/-- C19, at the sample sector. -/
theorem PrimaryVolumeDescriptor_Unmarshal_identifiers_witness :
    primarySector.length = 2048 ∧
    (PrimaryVolumeDescriptor.Unmarshal specEncoding
      (zeroPrimaryVolumeDescriptor nullSusp nullDirectory false)
        primarySector).1.SystemIdentifier.length = 32 :=
  ⟨primarySector_length,
    (PrimaryVolumeDescriptor_Unmarshal_identifiers nullSusp nullDirectory specEncoding
      (zeroPrimaryVolumeDescriptor nullSusp nullDirectory false) _ primarySector
      primarySector_length (Prod.ext rfl (by decide))).2.1⟩

/-- C20: for every 2048-byte sector on which `PrimaryVolumeDescriptor.Unmarshal`
returns nil, the L path table location and its optional variant are the
little-endian 32-bit values of bytes 140..143 and 144..147, the M path table
location and its optional variant are the big-endian 32-bit values of bytes
148..151 and 152..155, and `PathTableLocation()` returns the L location. -/
theorem PrimaryVolumeDescriptor_Unmarshal_path_table_locations (S : SuspPackage)
    (D : DirectoryPackage S) (N : EncodingPackage) (pvd p : PrimaryVolumeDescriptor S D)
    (data : List Byte) (hlen : data.length = 2048)
    (h : PrimaryVolumeDescriptor.Unmarshal N pvd data = (p, DescriptorOutcome.nil)) :
    p.LPathTableLocation = byteAt data 140 + 256 * byteAt data 141 + 65536 * byteAt data 142
      + 16777216 * byteAt data 143 ∧
    p.LOptionalPathTableLocation = byteAt data 144 + 256 * byteAt data 145
      + 65536 * byteAt data 146 + 16777216 * byteAt data 147 ∧
    p.MPathTableLocation = byteAt data 151 + 256 * byteAt data 150 + 65536 * byteAt data 149
      + 16777216 * byteAt data 148 ∧
    p.MOptionalPathTableLocation = byteAt data 155 + 256 * byteAt data 154
      + 65536 * byteAt data 153 + 16777216 * byteAt data 152 ∧
    p.PathTableLocation = p.LPathTableLocation := by
  have hnil : (PrimaryVolumeDescriptor.Unmarshal N pvd data).2 = DescriptorOutcome.nil := by
    rw [h]
  have hp := PrimaryVolumeDescriptor.Unmarshal_nil_decoded N pvd data hnil
  rw [h] at hp
  simp only at hp
  subst hp
  exact ⟨leUint32_arraySlice data 140 (by omega), leUint32_arraySlice data 144 (by omega),
    beUint32_arraySlice data 148 (by omega), beUint32_arraySlice data 152 (by omega), rfl⟩

/-- C20, at the sample sector: the L path table is at block 19, the M path
table at block 21. -/
theorem PrimaryVolumeDescriptor_Unmarshal_path_table_locations_witness :
    primarySector.length = 2048 ∧
    (PrimaryVolumeDescriptor.Unmarshal specEncoding
      (zeroPrimaryVolumeDescriptor nullSusp nullDirectory false)
        primarySector).1.PathTableLocation =
      (PrimaryVolumeDescriptor.Unmarshal specEncoding
        (zeroPrimaryVolumeDescriptor nullSusp nullDirectory false)
          primarySector).1.LPathTableLocation ∧
    (PrimaryVolumeDescriptor.Unmarshal specEncoding
      (zeroPrimaryVolumeDescriptor nullSusp nullDirectory false)
        primarySector).1.LPathTableLocation = 19 ∧
    (PrimaryVolumeDescriptor.Unmarshal specEncoding
      (zeroPrimaryVolumeDescriptor nullSusp nullDirectory false)
        primarySector).1.MPathTableLocation = 21 :=
  ⟨primarySector_length,
    (PrimaryVolumeDescriptor_Unmarshal_path_table_locations nullSusp nullDirectory specEncoding
      (zeroPrimaryVolumeDescriptor nullSusp nullDirectory false) _ primarySector
      primarySector_length (Prod.ext rfl (by decide))).2.2.2.2, by decide, by decide⟩

theorem jolietSector_length : jolietSector.length = 2048 := by
  unfold jolietSector
  have h : (patch primarySector 0 [2]).length = 2048 := by
    rw [patch_length _ _ _ (by rw [primarySector_length]; decide), primarySector_length]
  rw [patch_length _ _ _ (by rw [h]; decide), h]

/-- An accepted window of less than 255 bytes leaves the Joliet flag of the
record as it was. -/
theorem Unmarshal_Joliet (S : SuspPackage) (dr : DirectoryRecord S) (data : List Byte)
    (hlen : data.length < 255) (hnil : (Unmarshal S dr data).2 = Outcome.nil) :
    (Unmarshal S dr data).1.Joliet = dr.Joliet := by
  obtain ⟨_, _, hfit⟩ := Unmarshal_accepted_bounds S dr data hnil
  have h := (Unmarshal_accepted S dr data hnil (by omega)).1
  simp only [headerFields, Prod.mk.injEq] at h
  exact h.2.2.2.2.2.2.2.2.2.2

namespace SupplementaryVolumeDescriptor

variable {S : SuspPackage} {D : DirectoryPackage S}

/-- What a nil return of `Unmarshal` says about the Joliet flag and the root
directory entry. -/
theorem Unmarshal_nil_root (N : EncodingPackage) (svd p : SupplementaryVolumeDescriptor S D)
    (data : List Byte) (h : Unmarshal N svd data = (p, DescriptorOutcome.nil)) :
    p.isJoliet = (if escapeIsJoliet (arraySlice data 88 120) then true else svd.isJoliet) ∧
    (IsoKit.Unmarshal S (zeroRecord S p.isJoliet) (arraySlice data 156 190)).2 = Outcome.nil ∧
    p.RootDirectoryEntry = some (D.EntryLiteral
      (IsoKit.Unmarshal S (zeroRecord S p.isJoliet) (arraySlice data 156 190)).1) := by
  unfold Unmarshal at h
  dsimp only at h
  generalize hj : (if escapeIsJoliet (arraySlice data 88 120) then true else svd.isJoliet) = j
  have hsvd : (if escapeIsJoliet (arraySlice data 88 120) = true then
      ({ svd with rawData := data, EscapeSequences := arraySlice data 88 120, isJoliet := true } :
        SupplementaryVolumeDescriptor S D)
      else { svd with rawData := data, EscapeSequences := arraySlice data 88 120 }) =
      { svd with rawData := data, EscapeSequences := arraySlice data 88 120, isJoliet := j } := by
    subst hj
    split <;> rfl
  rw [hsvd] at h
  dsimp only at h
  cases hroot : IsoKit.Unmarshal S (zeroRecord S j) (arraySlice data 156 190) with
  | mk r o =>
    rw [hroot] at h
    cases o with
    | fault => simp at h
    | error e => simp at h
    | nil =>
      simp only at h
      cases h1 : (N.UnmarshalInt32LSBMSB (arraySlice data 80 88)).2 with
      | some e => rw [h1] at h; simp at h
      | none =>
        rw [h1] at h
        simp only at h
        cases h2 : (N.UnmarshalInt16LSBMSB (arraySlice data 120 124)).2 with
        | some e => rw [h2] at h; simp at h
        | none =>
          rw [h2] at h
          simp only at h
          cases h3 : (N.UnmarshalInt16LSBMSB (arraySlice data 124 128)).2 with
          | some e => rw [h3] at h; simp at h
          | none =>
            rw [h3] at h
            simp only at h
            cases h4 : (N.UnmarshalInt16LSBMSB (arraySlice data 128 132)).2 with
            | some e => rw [h4] at h; simp at h
            | none =>
              rw [h4] at h
              simp only at h
              cases h5 : (N.UnmarshalInt32LSBMSB (arraySlice data 132 140)).2 with
              | some e => rw [h5] at h; simp at h
              | none =>
                rw [h5] at h
                simp only at h
                have hp := (Prod.mk.inj h).1
                subst hp
                refine ⟨rfl, ?_, ?_⟩
                · show (IsoKit.Unmarshal S (zeroRecord S j) (arraySlice data 156 190)).2 =
                    Outcome.nil
                  rw [hroot]
                · show _ = some (D.EntryLiteral
                    (IsoKit.Unmarshal S (zeroRecord S j) (arraySlice data 156 190)).1)
                  rw [hroot]
                  rfl

end SupplementaryVolumeDescriptor

/-- The first three bytes of the escape sequences are bytes 88..90 of the
sector. -/
theorem arraySlice_escape (data : List Byte) :
    arraySlice (arraySlice data 88 120) 0 3 = (data.take 91).drop 88 := by
  unfold arraySlice
  rw [List.drop_zero, List.take_drop, List.take_take]
  rfl

/-- C14: for every 2048-byte sector on which
`SupplementaryVolumeDescriptor.Unmarshal`, called on a fresh descriptor, returns
nil, `IsJoliet()` is true if and only if bytes 88..90 of the sector are one of
"%/@", "%/C", "%/E"; and the root directory entry holds the record that
`DirectoryRecord.Unmarshal` decodes from bytes 156..189 starting from
`DirectoryRecord{Joliet: IsJoliet()}`, a record whose Joliet flag is
`IsJoliet()`. -/
theorem SupplementaryVolumeDescriptor_Unmarshal_joliet (S : SuspPackage)
    (D : DirectoryPackage S) (N : EncodingPackage) (p : SupplementaryVolumeDescriptor S D)
    (data : List Byte) (hlen : data.length = 2048)
    (h : SupplementaryVolumeDescriptor.Unmarshal N (zeroSupplementaryVolumeDescriptor S D) data =
      (p, DescriptorOutcome.nil)) :
    (p.IsJoliet = true ↔
      ((data.take 91).drop 88 = [0x25, 0x2F, 0x40] ∨ (data.take 91).drop 88 = [0x25, 0x2F, 0x43] ∨
        (data.take 91).drop 88 = [0x25, 0x2F, 0x45])) ∧
    (IsoKit.Unmarshal S (zeroRecord S p.IsJoliet) ((data.take 190).drop 156)).2 = Outcome.nil ∧
    p.RootDirectoryEntry = some (D.EntryLiteral
      (IsoKit.Unmarshal S (zeroRecord S p.IsJoliet) ((data.take 190).drop 156)).1) ∧
    (IsoKit.Unmarshal S (zeroRecord S p.IsJoliet) ((data.take 190).drop 156)).1.Joliet =
      p.IsJoliet := by
  obtain ⟨hj, hnil, hroot⟩ := SupplementaryVolumeDescriptor.Unmarshal_nil_root N _ p data h
  have hw : ((data.take 190).drop 156).length < 255 := by
    rw [List.length_drop, List.length_take]; omega
  refine ⟨?_, hnil, hroot, Unmarshal_Joliet S _ _ hw hnil⟩
  show p.isJoliet = true ↔ _
  rw [hj]
  have hz : (zeroSupplementaryVolumeDescriptor S D).isJoliet = false := rfl
  rw [hz]
  unfold SupplementaryVolumeDescriptor.escapeIsJoliet
  rw [arraySlice_escape]
  simp [JOLIET__LEVEL_1_ESCAPE, JOLIET__LEVEL_2_ESCAPE, JOLIET__LEVEL_3_ESCAPE]

/-- C14, at a sector with the escape sequence "%/E": the descriptor is marked
Joliet. -/
theorem SupplementaryVolumeDescriptor_Unmarshal_joliet_witness :
    jolietSector.length = 2048 ∧
    (SupplementaryVolumeDescriptor.Unmarshal specEncoding
      (zeroSupplementaryVolumeDescriptor nullSusp nullDirectory) jolietSector).2 =
        DescriptorOutcome.nil ∧
    ((SupplementaryVolumeDescriptor.Unmarshal specEncoding
      (zeroSupplementaryVolumeDescriptor nullSusp nullDirectory) jolietSector).1.IsJoliet = true ↔
      ((jolietSector.take 91).drop 88 = [0x25, 0x2F, 0x40] ∨
        (jolietSector.take 91).drop 88 = [0x25, 0x2F, 0x43] ∨
        (jolietSector.take 91).drop 88 = [0x25, 0x2F, 0x45])) ∧
    (SupplementaryVolumeDescriptor.Unmarshal specEncoding
      (zeroSupplementaryVolumeDescriptor nullSusp nullDirectory) jolietSector).1.IsJoliet = true :=
  ⟨jolietSector_length, by decide,
    (SupplementaryVolumeDescriptor_Unmarshal_joliet nullSusp nullDirectory specEncoding _
      jolietSector jolietSector_length (Prod.ext rfl (by decide))).1, by decide⟩

/-! ### Building records -/

theorem intToByte_val (x : Int) (h0 : 0 ≤ x) (h1 : x < 256) : ((intToByte x).val : Int) = x := by
  unfold intToByte
  show (((x % 256).toNat : Nat) : Int) = x
  omega

theorem intToByte_val_emod (x : Int) : ((intToByte x).val : Int) = x % 256 := by
  unfold intToByte
  show (((x % 256).toNat : Nat) : Int) = x % 256
  omega

theorem toInt8_intToByte (k : Int) (h0 : -128 ≤ k) (h1 : k ≤ 127) :
    toInt8 (intToByte (intToInt8 k)) = k := by
  have hv := intToByte_val_emod (intToInt8 k)
  have hk : intToInt8 k = k := by unfold intToInt8; omega
  rw [hk] at hv ⊢
  unfold toInt8
  split <;> omega

/-- C27: for every instant whose year is in 1900..2155 and whose zone offset
is `k` times 15 minutes with `k` in -128..127 (from -32:00 to +31:45),
`FormatRecordingDateAndTime` returns exactly 7 bytes: year minus 1900, month
(1..12), day, hour, minute, second, and a seventh byte that, read as a signed
8-bit integer and multiplied by 15 minutes (900 seconds), is the zone
offset. -/
theorem FormatRecordingDateAndTime_bytes (t : Time) (k : Int)
    (hyear : 1900 ≤ t.Year ∧ t.Year ≤ 2155) (hk : -128 ≤ k ∧ k ≤ 127)
    (hzone : t.zoneOffset = k * 900) :
    (FormatRecordingDateAndTime t).length = 7 ∧
    ∃ b0 b1 b2 b3 b4 b5 b6 : Byte,
      FormatRecordingDateAndTime t = [b0, b1, b2, b3, b4, b5, b6] ∧
      (b0.val : Int) = t.Year - 1900 ∧
      b1.val = t.Month ∧ 1 ≤ b1.val ∧ b1.val ≤ 12 ∧
      b2.val = t.Day ∧ b3.val = t.Hour ∧ b4.val = t.Minute ∧ b5.val = t.Second ∧
      toInt8 b6 * 900 = t.zoneOffset := by
  have hm := t.month_range
  have hd := t.day_range
  have hh := t.hour_range
  have hmi := t.minute_range
  have hs := t.second_range
  have hnat : ∀ n : Nat, n < 256 → (intToByte (n : Int)).val = n := by
    intro n hn
    have := intToByte_val (n : Int) (by omega) (by omega)
    exact_mod_cast this
  have hdiv : (t.zoneOffset.tdiv 60).tdiv 15 = k := by
    rw [hzone]
    have e : k * 900 = (k * 15) * 60 := by ring
    rw [e, Int.mul_tdiv_cancel _ (by decide), Int.mul_tdiv_cancel _ (by decide)]
  refine ⟨rfl, _, _, _, _, _, _, _, rfl, ?_, ?_, ?_, ?_, ?_, ?_, ?_, ?_, ?_⟩
  · exact intToByte_val _ (by omega) (by omega)
  · exact hnat _ (by omega)
  · rw [hnat _ (by omega)]; exact hm.1
  · rw [hnat _ (by omega)]; exact hm.2
  · exact hnat _ (by omega)
  · exact hnat _ (by omega)
  · exact hnat _ (by omega)
  · exact hnat _ (by omega)
  · rw [hdiv, toInt8_intToByte k hk.1 hk.2, hzone]

/-- C27, at 2024-02-29 13:45:10 +05:30: the bytes are 124, 2, 29, 13, 45, 10
and 22. -/
theorem FormatRecordingDateAndTime_bytes_witness :
    (1900 ≤ sampleTime.Year ∧ sampleTime.Year ≤ 2155) ∧ sampleTime.zoneOffset = 22 * 900 ∧
    (FormatRecordingDateAndTime sampleTime).length = 7 ∧
    FormatRecordingDateAndTime sampleTime = [124, 2, 29, 13, 45, 10, 22] :=
  ⟨by decide, by decide,
    (FormatRecordingDateAndTime_bytes sampleTime 22 (by decide) (by decide) (by decide)).1,
    by decide⟩

/-- C28 (counterexample): for an identifier of 222 bytes, `computeLength` sets
`LengthOfDirectoryRecord` to 0, not to 33 + 222 + 1 = 256. -/
theorem computeLength_wraps_at_222 :
    longIdentifierRecord.FileIdentifier.length = 222 ∧
    (computeLength nullSusp longIdentifierRecord).LengthOfDirectoryRecord = 0 ∧
    (computeLength nullSusp longIdentifierRecord).LengthOfDirectoryRecord ≠ 33 + 222 + 1 := by
  have hl : longIdentifierRecord.FileIdentifier.length = 222 := List.length_replicate _ _
  have h0 : (computeLength nullSusp longIdentifierRecord).LengthOfDirectoryRecord = 0 := by
    show (if longIdentifierRecord.FileIdentifier.length % 2 = 0
      then 33 + longIdentifierRecord.FileIdentifier.length + 1
      else 33 + longIdentifierRecord.FileIdentifier.length) % 256 = 0
    rw [hl]
    rfl
  exact ⟨hl, h0, by rw [h0]; decide⟩

/-- C28 (amended): for every file identifier, `computeLength` sets
`LengthOfDirectoryRecord` to the documented length, 33 + len(identifier) + 1
when len(identifier) is even and 33 + len(identifier) when it is odd, reduced
modulo 256 (the field is a `uint8`), and changes no other field. The value is
the documented length when the identifier has at most 221 bytes, and differs
from it when the identifier has 222 bytes or more. -/
theorem computeLength_LengthOfDirectoryRecord (S : SuspPackage) (dr : DirectoryRecord S) :
    (computeLength S dr).LengthOfDirectoryRecord =
      (33 + dr.FileIdentifier.length + (if dr.FileIdentifier.length % 2 = 0 then 1 else 0))
        % 256 ∧
    computeLength S dr =
      { dr with LengthOfDirectoryRecord := (computeLength S dr).LengthOfDirectoryRecord } ∧
    (dr.FileIdentifier.length ≤ 221 →
      (computeLength S dr).LengthOfDirectoryRecord =
        33 + dr.FileIdentifier.length + (if dr.FileIdentifier.length % 2 = 0 then 1 else 0)) ∧
    (222 ≤ dr.FileIdentifier.length →
      (computeLength S dr).LengthOfDirectoryRecord ≠
        33 + dr.FileIdentifier.length + (if dr.FileIdentifier.length % 2 = 0 then 1 else 0)) := by
  have h : (computeLength S dr).LengthOfDirectoryRecord =
      (33 + dr.FileIdentifier.length + (if dr.FileIdentifier.length % 2 = 0 then 1 else 0))
        % 256 := by
    show (if dr.FileIdentifier.length % 2 = 0 then 33 + dr.FileIdentifier.length + 1
      else 33 + dr.FileIdentifier.length) % 256 = _
    split <;> rfl
  refine ⟨h, rfl, ?_, ?_⟩
  · intro hle
    rw [h]
    split <;> omega
  · intro hge
    rw [h]
    split <;> omega

/-- C28, at the identifier "A.TXT;1" (7 bytes, odd): the length is 40. -/
theorem computeLength_LengthOfDirectoryRecord_witness :
    shortIdentifierRecord.FileIdentifier.length ≤ 221 ∧
    (computeLength nullSusp shortIdentifierRecord).LengthOfDirectoryRecord = 40 :=
  ⟨by decide,
    ((computeLength_LengthOfDirectoryRecord nullSusp shortIdentifierRecord).2.2.1
      (by decide)).trans (by decide)⟩

/-! ### The big-endian halves of a directory record -/

theorem drop_congr (s s' : List Byte) (k : Nat) (hlen : s.length = s'.length)
    (h : ∀ i, k ≤ i → s.getD i 0 = s'.getD i 0) : s.drop k = s'.drop k := by
  apply List.ext_getElem?
  intro n
  rw [List.getElem?_drop, List.getElem?_drop]
  exact getElem?_eq_of_getD_eq hlen _ (h _ (by omega))

/-- Step 1 of `Unmarshal` does not read the big-endian halves. -/
theorem decodedHeader_congr (S : SuspPackage) (dr : DirectoryRecord S) (data data' : List Byte)
    (hlen : data.length = data'.length)
    (hagree : ∀ i, ¬ bigEndianOffset i → data.getD i 0 = data'.getD i 0) :
    decodedHeader dr data = decodedHeader dr data' := by
  have hb : ∀ i, ¬ bigEndianOffset i → byteAt data i = byteAt data' i := by
    intro i hi
    unfold byteAt
    rw [hagree i hi]
  have hd : (data.take 25).drop 18 = (data'.take 25).drop 18 :=
    arraySlice_congr data data' 18 25 hlen
      (fun i h1 h2 => hagree i (by unfold bigEndianOffset; omega))
  unfold decodedHeader
  rw [hb 0 (by unfold bigEndianOffset; omega), hb 1 (by unfold bigEndianOffset; omega),
    hb 2 (by unfold bigEndianOffset; omega), hb 3 (by unfold bigEndianOffset; omega),
    hb 4 (by unfold bigEndianOffset; omega), hb 5 (by unfold bigEndianOffset; omega),
    hb 10 (by unfold bigEndianOffset; omega), hb 11 (by unfold bigEndianOffset; omega),
    hb 12 (by unfold bigEndianOffset; omega), hb 13 (by unfold bigEndianOffset; omega),
    hb 26 (by unfold bigEndianOffset; omega), hb 27 (by unfold bigEndianOffset; omega),
    hb 28 (by unfold bigEndianOffset; omega), hb 29 (by unfold bigEndianOffset; omega),
    hb 32 (by unfold bigEndianOffset; omega), hd,
    hagree 25 (by unfold bigEndianOffset; omega)]

/-- Two windows that differ only in the big-endian halves are decoded alike,
unless the identifier length is 222. -/
theorem Unmarshal_congr_big_endian (S : SuspPackage) (dr : DirectoryRecord S)
    (data data' : List Byte) (hlen : data.length = data'.length)
    (hagree : ∀ i, ¬ bigEndianOffset i → data.getD i 0 = data'.getD i 0)
    (hL : byteAt data 32 ≠ 222) : Unmarshal S dr data = Unmarshal S dr data' := by
  by_cases h33 : 33 ≤ data.length
  · rw [Unmarshal_eq S dr data h33, Unmarshal_eq S dr data' (by omega),
      ← decodedHeader_congr S dr data data' hlen hagree]
    exact unmarshalIdentifier_congr S _ data data' hlen h33
      (drop_congr data data' 33 hlen
        (fun i hi => hagree i (by unfold bigEndianOffset; omega)))
      hL (byteAt_lt data 32)
  · rw [Unmarshal_short S dr data (by omega), Unmarshal_short S dr data' (by omega)]

theorem longWindow_length : longWindow.length = 256 := by
  unfold longWindow
  rw [patch_length _ _ _ (by rw [List.length_replicate]; decide), List.length_replicate]

theorem longWindowBE_length : longWindowBE.length = 256 := by
  unfold longWindowBE
  rw [patch_length _ _ _ (by rw [longWindow_length]; decide), longWindow_length]

set_option maxRecDepth 8000 in
/-- On the 256-byte window `longWindow` (identifier length 222) the `uint8`
system-use start wraps to 0 and the System Use Area is the whole window, so a
change of byte 6 shows in the decoded record. -/
theorem longWindow_system_use :
    longWindow.length = 256 ∧ longWindowBE.length = 256 ∧ byteAt longWindow 32 = 222 ∧
      (∀ i, i ≠ 6 → longWindow.getD i 0 = longWindowBE.getD i 0) ∧
      (Unmarshal nullSusp (NewRecord nullSusp) longWindow).2 = Outcome.nil ∧
      (Unmarshal nullSusp (NewRecord nullSusp) longWindowBE).2 = Outcome.nil ∧
      (Unmarshal nullSusp (NewRecord nullSusp) longWindow).1.SystemUse = longWindow ∧
      (Unmarshal nullSusp (NewRecord nullSusp) longWindowBE).1.SystemUse = longWindowBE ∧
      (Unmarshal nullSusp (NewRecord nullSusp) longWindow).1.SystemUse ≠
        (Unmarshal nullSusp (NewRecord nullSusp) longWindowBE).1.SystemUse := by
  have h1 : (Unmarshal nullSusp (NewRecord nullSusp) longWindow).1.SystemUse = longWindow := by
    decide
  have h2 : (Unmarshal nullSusp (NewRecord nullSusp) longWindowBE).1.SystemUse =
      longWindowBE := by
    decide
  refine ⟨longWindow_length, longWindowBE_length, by decide, ?_, by decide, by decide, h1, h2,
    ?_⟩
  · intro i hi
    exact (patch_getD longWindow [1] 6 i (by rw [longWindow_length]; decide)
      (by simp only [List.length_cons, List.length_nil]; omega)).symm
  · rw [h1, h2]
    decide

/-- C29: for every window that `DirectoryRecord.Unmarshal` accepts,
`LocationOfExtent`, `DataLength` and `VolumeSequenceNumber` are the
little-endian values of bytes 2..5, 10..13 and 28..29. When the identifier
length (byte 32) is not 222, the big-endian halves (bytes 6..9, 14..17, 30..31)
influence neither the decoded record nor the way decoding ends: two windows of
the same length that differ only there give the same result. When it is 222
they do: on the 256-byte window `longWindow` the `uint8` system-use start wraps
to 0, the System Use Area is the whole window, and changing byte 6 changes the
decoded record. -/
theorem Unmarshal_big_endian_halves :
    (∀ (S : SuspPackage) (dr : DirectoryRecord S) (data : List Byte),
      (Unmarshal S dr data).2 = Outcome.nil →
        (Unmarshal S dr data).1.LocationOfExtent =
          byteAt data 2 + 256 * byteAt data 3 + 65536 * byteAt data 4
            + 16777216 * byteAt data 5 ∧
        (Unmarshal S dr data).1.DataLength =
          byteAt data 10 + 256 * byteAt data 11 + 65536 * byteAt data 12
            + 16777216 * byteAt data 13 ∧
        (Unmarshal S dr data).1.VolumeSequenceNumber = byteAt data 28 + 256 * byteAt data 29) ∧
    (∀ (S : SuspPackage) (dr : DirectoryRecord S) (data data' : List Byte),
      data.length = data'.length →
      (∀ i, ¬ bigEndianOffset i → data.getD i 0 = data'.getD i 0) →
      byteAt data 32 ≠ 222 →
        Unmarshal S dr data = Unmarshal S dr data') ∧
    (longWindow.length = 256 ∧ longWindowBE.length = 256 ∧ byteAt longWindow 32 = 222 ∧
      (∀ i, i ≠ 6 → longWindow.getD i 0 = longWindowBE.getD i 0) ∧
      (Unmarshal nullSusp (NewRecord nullSusp) longWindow).2 = Outcome.nil ∧
      (Unmarshal nullSusp (NewRecord nullSusp) longWindowBE).2 = Outcome.nil ∧
      (Unmarshal nullSusp (NewRecord nullSusp) longWindow).1.SystemUse = longWindow ∧
      (Unmarshal nullSusp (NewRecord nullSusp) longWindowBE).1.SystemUse = longWindowBE ∧
      (Unmarshal nullSusp (NewRecord nullSusp) longWindow).1.SystemUse ≠
        (Unmarshal nullSusp (NewRecord nullSusp) longWindowBE).1.SystemUse) := by
  refine ⟨?_, ?_, ?_⟩
  · intro S dr data hnil
    obtain ⟨hlen, -, -⟩ := Unmarshal_accepted_bounds S dr data hnil
    have hh : headerFields (Unmarshal S dr data).1 = headerFields (decodedHeader dr data) := by
      rw [Unmarshal_eq S dr data hlen]
      exact unmarshalIdentifier_headerFields S _ data
    simp only [headerFields, decodedHeader, Prod.mk.injEq] at hh
    obtain ⟨-, -, hloc, hdl, -, -, -, -, hvsn, -, -⟩ := hh
    rw [hloc, hdl, hvsn]
    exact ⟨le32_eq_sum _ _ _ _ (byteAt_lt _ _) (byteAt_lt _ _) (byteAt_lt _ _),
      le32_eq_sum _ _ _ _ (byteAt_lt _ _) (byteAt_lt _ _) (byteAt_lt _ _),
      lor_shift8 _ _ (byteAt_lt _ _)⟩
  · intro S dr data data' hlen hagree hL
    exact Unmarshal_congr_big_endian S dr data data' hlen hagree hL
  · exact longWindow_system_use

/-- C29, at a well-formed 34-byte window and the same window with the
big-endian half of the extent changed (byte 9 set to 21). -/
theorem Unmarshal_big_endian_halves_witness :
    (Unmarshal nullSusp (NewRecord nullSusp) plainWindow).2 = Outcome.nil ∧
    (Unmarshal nullSusp (NewRecord nullSusp) plainWindow).1.LocationOfExtent = 20 ∧
    byteAt plainWindow 32 ≠ 222 ∧
    Unmarshal nullSusp (NewRecord nullSusp) plainWindow =
      Unmarshal nullSusp (NewRecord nullSusp) (patch plainWindow 9 [21]) :=
  ⟨by decide,
    ((Unmarshal_big_endian_halves.1 nullSusp (NewRecord nullSusp) plainWindow
      (by decide)).1).trans (by decide),
    by decide,
    Unmarshal_big_endian_halves.2.1 nullSusp (NewRecord nullSusp) plainWindow
      (patch plainWindow 9 [21]) (by decide)
      (fun i hi => (patch_getD plainWindow [21] 9 i (by decide)
        (by simp only [List.length_cons, List.length_nil]
            unfold bigEndianOffset at hi
            omega)).symm)
      (by decide)⟩

/-! ### The supplementary descriptor against the primary one -/

/-- On a sector whose escape sequences are not a Joliet escape, a descriptor
not yet marked Joliet is decoded by `SupplementaryVolumeDescriptor.Unmarshal`
as the primary one is: same end, and on nil the same shared fields, the same
root record, byte 7 and bytes 88..119 under their own names. -/
theorem SupplementaryVolumeDescriptor.Unmarshal_not_joliet {S : SuspPackage}
    {D : DirectoryPackage S} (N : EncodingPackage) (svd : SupplementaryVolumeDescriptor S D)
    (pvd : PrimaryVolumeDescriptor S D) (data : List Byte)
    (hesc : SupplementaryVolumeDescriptor.escapeIsJoliet (arraySlice data 88 120) = false)
    (hj : svd.isJoliet = false) :
    (SupplementaryVolumeDescriptor.Unmarshal N svd data).2 =
      (PrimaryVolumeDescriptor.Unmarshal N pvd data).2 ∧
    ((PrimaryVolumeDescriptor.Unmarshal N pvd data).2 = DescriptorOutcome.nil →
      (SupplementaryVolumeDescriptor.Unmarshal N svd data).1.sharedFields =
        (PrimaryVolumeDescriptor.Unmarshal N pvd data).1.sharedFields ∧
      (SupplementaryVolumeDescriptor.Unmarshal N svd data).1.RootDirectoryEntry =
        some (D.EntryLiteral
          (IsoKit.Unmarshal S (zeroRecord S false) (arraySlice data 156 190)).1) ∧
      (PrimaryVolumeDescriptor.Unmarshal N pvd data).1.RootDirectoryEntry =
        some (D.NewEntry
          (IsoKit.Unmarshal S (zeroRecord S false) (arraySlice data 156 190)).1 pvd.useRR) ∧
      (SupplementaryVolumeDescriptor.Unmarshal N svd data).1.VolumeFlags =
        arraySlice data 7 8 ∧
      (PrimaryVolumeDescriptor.Unmarshal N pvd data).1.UnusedField1 = arraySlice data 7 8 ∧
      (SupplementaryVolumeDescriptor.Unmarshal N svd data).1.EscapeSequences =
        arraySlice data 88 120 ∧
      (PrimaryVolumeDescriptor.Unmarshal N pvd data).1.UnusedField3 =
        arraySlice data 88 120 ∧
      (SupplementaryVolumeDescriptor.Unmarshal N svd data).1.isJoliet = false) := by
  unfold SupplementaryVolumeDescriptor.Unmarshal PrimaryVolumeDescriptor.Unmarshal
  dsimp only
  rw [hesc]
  simp only [Bool.false_eq_true, if_false, hj]
  have hnew : NewRecord S = zeroRecord S false := rfl
  rw [hnew]
  cases hroot : IsoKit.Unmarshal S (zeroRecord S false) (arraySlice data 156 190) with
  | mk r o =>
    cases o with
    | fault => exact ⟨rfl, fun h => by cases h⟩
    | error e => exact ⟨rfl, fun h => by cases h⟩
    | nil =>
      simp only
      cases h1 : (N.UnmarshalInt32LSBMSB (arraySlice data 80 88)).2 with
      | some e => exact ⟨rfl, fun h => by cases h⟩
      | none =>
        simp only
        cases h2 : (N.UnmarshalInt16LSBMSB (arraySlice data 120 124)).2 with
        | some e => exact ⟨rfl, fun h => by cases h⟩
        | none =>
          simp only
          cases h3 : (N.UnmarshalInt16LSBMSB (arraySlice data 124 128)).2 with
          | some e => exact ⟨rfl, fun h => by cases h⟩
          | none =>
            simp only
            cases h4 : (N.UnmarshalInt16LSBMSB (arraySlice data 128 132)).2 with
            | some e => exact ⟨rfl, fun h => by cases h⟩
            | none =>
              simp only
              cases h5 : (N.UnmarshalInt32LSBMSB (arraySlice data 132 140)).2 with
              | some e => exact ⟨rfl, fun h => by cases h⟩
              | none =>
                exact ⟨rfl, fun _ => ⟨rfl, rfl, rfl, rfl, rfl, rfl, rfl, rfl⟩⟩

/-- C30: for every 2048-byte sector whose bytes 88..90 are none of the Joliet
escapes "%/@", "%/C", "%/E", `SupplementaryVolumeDescriptor.Unmarshal` and
`PrimaryVolumeDescriptor.Unmarshal`, each on a fresh descriptor, end the same
way, so one succeeds exactly when the other does; when they succeed, every
field the two variants share decodes to the same value, both root directory
entries are made from the same decoded root record, and the supplementary
descriptor holds byte 7 as volume flags and bytes 88..119 as escape sequences
where the primary one holds them as unused fields (1 and 32 bytes). -/
theorem SupplementaryVolumeDescriptor_Unmarshal_as_primary (S : SuspPackage)
    (D : DirectoryPackage S) (N : EncodingPackage) (data : List Byte) (useRR : Bool)
    (hlen : data.length = 2048)
    (hesc : (data.take 91).drop 88 ≠ [0x25, 0x2F, 0x40] ∧
      (data.take 91).drop 88 ≠ [0x25, 0x2F, 0x43] ∧
      (data.take 91).drop 88 ≠ [0x25, 0x2F, 0x45]) :
    ((SupplementaryVolumeDescriptor.Unmarshal N (zeroSupplementaryVolumeDescriptor S D) data).2
        = DescriptorOutcome.nil ↔
      (PrimaryVolumeDescriptor.Unmarshal N (zeroPrimaryVolumeDescriptor S D useRR) data).2
        = DescriptorOutcome.nil) ∧
    (SupplementaryVolumeDescriptor.Unmarshal N (zeroSupplementaryVolumeDescriptor S D) data).2 =
      (PrimaryVolumeDescriptor.Unmarshal N (zeroPrimaryVolumeDescriptor S D useRR) data).2 ∧
    ((PrimaryVolumeDescriptor.Unmarshal N (zeroPrimaryVolumeDescriptor S D useRR) data).2 =
        DescriptorOutcome.nil →
      (SupplementaryVolumeDescriptor.Unmarshal N (zeroSupplementaryVolumeDescriptor S D)
          data).1.sharedFields =
        (PrimaryVolumeDescriptor.Unmarshal N (zeroPrimaryVolumeDescriptor S D useRR)
          data).1.sharedFields ∧
      (∃ rootRecord : DirectoryRecord S,
        (SupplementaryVolumeDescriptor.Unmarshal N (zeroSupplementaryVolumeDescriptor S D)
          data).1.RootDirectoryEntry = some (D.EntryLiteral rootRecord) ∧
        (PrimaryVolumeDescriptor.Unmarshal N (zeroPrimaryVolumeDescriptor S D useRR)
          data).1.RootDirectoryEntry = some (D.NewEntry rootRecord useRR)) ∧
      (SupplementaryVolumeDescriptor.Unmarshal N (zeroSupplementaryVolumeDescriptor S D)
          data).1.VolumeFlags = (data.take 8).drop 7 ∧
      (PrimaryVolumeDescriptor.Unmarshal N (zeroPrimaryVolumeDescriptor S D useRR)
          data).1.UnusedField1 = (data.take 8).drop 7 ∧
      (SupplementaryVolumeDescriptor.Unmarshal N (zeroSupplementaryVolumeDescriptor S D)
          data).1.EscapeSequences = (data.take 120).drop 88 ∧
      (PrimaryVolumeDescriptor.Unmarshal N (zeroPrimaryVolumeDescriptor S D useRR)
          data).1.UnusedField3 = (data.take 120).drop 88 ∧
      (SupplementaryVolumeDescriptor.Unmarshal N (zeroSupplementaryVolumeDescriptor S D)
          data).1.IsJoliet = false ∧
      ((data.take 8).drop 7).length = 1 ∧ ((data.take 120).drop 88).length = 32) := by
  have he : SupplementaryVolumeDescriptor.escapeIsJoliet (arraySlice data 88 120) = false := by
    unfold SupplementaryVolumeDescriptor.escapeIsJoliet
    rw [arraySlice_escape]
    simp [JOLIET__LEVEL_1_ESCAPE, JOLIET__LEVEL_2_ESCAPE, JOLIET__LEVEL_3_ESCAPE, hesc.1,
      hesc.2.1, hesc.2.2]
  obtain ⟨hout, hfields⟩ := SupplementaryVolumeDescriptor.Unmarshal_not_joliet N
    (zeroSupplementaryVolumeDescriptor S D) (zeroPrimaryVolumeDescriptor S D useRR) data he rfl
  refine ⟨by rw [hout], hout, fun hnil => ?_⟩
  obtain ⟨h1, h2, h3, h4, h5, h6, h7, h8⟩ := hfields hnil
  exact ⟨h1, ⟨_, h2, h3⟩, h4, h5, h6, h7, h8, arraySlice_length data 7 8 (by omega),
    arraySlice_length data 88 120 (by omega)⟩

/-- C30, at the sample sector, whose bytes 88..90 are zero. -/
theorem SupplementaryVolumeDescriptor_Unmarshal_as_primary_witness :
    primarySector.length = 2048 ∧
    (PrimaryVolumeDescriptor.Unmarshal specEncoding
      (zeroPrimaryVolumeDescriptor nullSusp nullDirectory false) primarySector).2 =
        DescriptorOutcome.nil ∧
    (SupplementaryVolumeDescriptor.Unmarshal specEncoding
      (zeroSupplementaryVolumeDescriptor nullSusp nullDirectory) primarySector).2 =
        DescriptorOutcome.nil ∧
    (SupplementaryVolumeDescriptor.Unmarshal specEncoding
        (zeroSupplementaryVolumeDescriptor nullSusp nullDirectory) primarySector).1.sharedFields =
      (PrimaryVolumeDescriptor.Unmarshal specEncoding
        (zeroPrimaryVolumeDescriptor nullSusp nullDirectory false) primarySector).1.sharedFields :=
  ⟨primarySector_length, by decide,
    (SupplementaryVolumeDescriptor_Unmarshal_as_primary nullSusp nullDirectory specEncoding
      primarySector false primarySector_length (by decide)).1.2 (by decide),
    ((SupplementaryVolumeDescriptor_Unmarshal_as_primary nullSusp nullDirectory specEncoding
      primarySector false primarySector_length (by decide)).2.2 (by decide)).1⟩

/-! ### The image facade -/

/-- The loop of `ListFiles` and `ListDirectories` is a filter. -/
theorem foldl_append_eq_filter {α : Type} (p : α → Bool) : ∀ (l acc : List α),
    l.foldl (fun (s : Slice α) x => if p x then s.append x else s) (Slice.mk acc) =
      Slice.mk (acc ++ l.filter p) := by
  intro l
  induction l with
  | nil => intro acc; simp
  | cons x rest ih =>
    intro acc
    rw [List.foldl_cons]
    by_cases hx : p x = true
    · rw [if_pos hx, List.filter_cons_of_pos hx]
      show List.foldl _ (Slice.mk (acc ++ [x])) rest = _
      rw [ih]
      simp
    · rw [if_neg hx, List.filter_cons_of_neg hx]
      exact ih acc

theorem ListFiles_eq (P : Packages) (iso : ISO9660 P) :
    ListFiles P iso =
      (Slice.mk (iso.filesystemEntries.elems.filter (fun e => !P.IsDir e)), none) := by
  unfold ListFiles
  simp only
  have h := foldl_append_eq_filter (fun e => !P.IsDir e) iso.filesystemEntries.elems []
  simp only [List.nil_append] at h
  rw [← h]

theorem ListDirectories_eq (P : Packages) (iso : ISO9660 P) :
    ListDirectories P iso =
      (Slice.mk (iso.filesystemEntries.elems.filter (fun e => P.IsDir e)), none) := by
  unfold ListDirectories
  simp only
  have h := foldl_append_eq_filter (fun e => P.IsDir e) iso.filesystemEntries.elems []
  simp only [List.nil_append] at h
  rw [← h]

/-- C24: for every entry list held by the image, `ListFiles` returns exactly
the entries that are not directories and `ListDirectories` exactly the entries
that are directories, in the order of the entry list (each result is the entry
list filtered, hence a subsequence of it); neither returns an error nor a nil
slice, and for an empty entry list both return the empty slice. -/
theorem ListFiles_ListDirectories (P : Packages) (iso : ISO9660 P) :
    (ListFiles P iso =
      (Slice.mk (iso.filesystemEntries.elems.filter (fun e => !P.IsDir e)), none) ∧
    ListDirectories P iso =
      (Slice.mk (iso.filesystemEntries.elems.filter (fun e => P.IsDir e)), none)) ∧
    (List.Sublist (ListFiles P iso).1.elems iso.filesystemEntries.elems ∧
    List.Sublist (ListDirectories P iso).1.elems iso.filesystemEntries.elems) ∧
    ((∀ e, e ∈ (ListFiles P iso).1.elems ↔
      e ∈ iso.filesystemEntries.elems ∧ P.IsDir e = false) ∧
    (∀ e, e ∈ (ListDirectories P iso).1.elems ↔
      e ∈ iso.filesystemEntries.elems ∧ P.IsDir e = true)) ∧
    ((ListFiles P iso).2 = none ∧ (ListDirectories P iso).2 = none ∧
    (ListFiles P iso).1 ≠ Slice.nil ∧ (ListDirectories P iso).1 ≠ Slice.nil) ∧
    (iso.filesystemEntries.elems = [] →
      ListFiles P iso = (Slice.mk [], none) ∧ ListDirectories P iso = (Slice.mk [], none)) := by
  rw [ListFiles_eq, ListDirectories_eq]
  refine ⟨⟨rfl, rfl⟩, ⟨List.filter_sublist _, List.filter_sublist _⟩, ⟨?_, ?_⟩,
    ⟨rfl, rfl, ?_, ?_⟩, ?_⟩
  · intro e
    simp [Slice.elems]
  · intro e
    simp [Slice.elems]
  · intro h
    cases h
  · intro h
    cases h
  · intro h
    rw [h]
    exact ⟨rfl, rfl⟩

/-- C24, at an image with the entries DOCS, DOCS/A.TXT, DOCS/B.TXT, and at an
image with no entry. -/
theorem ListFiles_ListDirectories_witness :
    ListFiles samplePackages (sampleImage [docsEntry, fileA, fileB]) =
      (Slice.mk [fileA, fileB], none) ∧
    ListDirectories samplePackages (sampleImage [docsEntry, fileA, fileB]) =
      (Slice.mk [docsEntry], none) ∧
    (sampleImage []).filesystemEntries.elems = [] ∧
    ListFiles samplePackages (sampleImage []) = (Slice.mk [], none) :=
  ⟨(ListFiles_ListDirectories samplePackages (sampleImage [docsEntry, fileA, fileB])).1.1.trans
      (by decide),
    (ListFiles_ListDirectories samplePackages (sampleImage [docsEntry, fileA, fileB])).1.2.trans
      (by decide),
    rfl,
    ((ListFiles_ListDirectories samplePackages (sampleImage [])).2.2.2.2 rfl).1⟩

/-- C25: `ReadFile` is not implemented. For every image and every path the
call panics with "implement me"; it returns no byte slice, of the entry's size
or any other. -/
theorem ReadFile_panics (P : Packages) (iso : ISO9660 P) (path : String) :
    ReadFile P iso path = Call.panicked "implement me" ∧
    ∀ (data : Slice Byte) (err : Option P.Error),
      ReadFile P iso path ≠ Call.returned (data, err) := by
  refine ⟨rfl, ?_⟩
  intro data err h
  cases h

/-- The options `Open` works with are the defaults with the options of the
caller applied in order. -/
theorem openDescriptors_openOptions (P : Packages) (isoReader : P.Reader)
    (opts : List (OpenOption P.Callback P.Logger)) (w w1 : P.World) (s : OpenState P)
    (h : openDescriptors P isoReader opts w = (Except.ok s, w1)) :
    s.openOptions = opts.foldl (fun o opt => opt o) (defaultOpenOptions P) := by
  unfold openDescriptors at h
  dsimp only at h
  repeat' split at h
  all_goals try simp only [Prod.mk.injEq, Except.ok.injEq, reduceCtorEq, false_and] at h
  rw [← h.1]

/-- Once the descriptors are read, `Open` returns a handle: the result of the
block `processVolumeDescriptor` goes into it, the variable `err` does not. -/
theorem Open_of_descriptors (P : Packages) (isoReader : P.Reader)
    (opts : List (OpenOption P.Callback P.Logger)) (w w1 : P.World) (s : OpenState P)
    (h : openDescriptors P isoReader opts w = (Except.ok s, w1)) :
    Open P isoReader opts w =
      (Except.ok
        { isoReader := isoReader
          openOptions := s.openOptions
          systemArea := s.saBuf
          bootRecord := s.bootRecord
          pvd := s.pvd
          svds := s.svds
          directoryRecords :=
            (processVolumeDescriptor P s.openOptions s.p s.pvd s.svds w1).1.directoryRecords
          filesystemEntries :=
            (processVolumeDescriptor P s.openOptions s.p s.pvd s.svds w1).1.filesystemEntries
          activeVD := some (processVolumeDescriptor P s.openOptions s.p s.pvd s.svds w1).1.activeVD
          elTorito := s.et },
        (processVolumeDescriptor P s.openOptions s.p s.pvd s.svds w1).2) := by
  unfold Open
  rw [h]

/-- A handle returned by `Open` comes from descriptors that were read. -/
theorem descriptors_of_Open (P : Packages) (isoReader : P.Reader)
    (opts : List (OpenOption P.Callback P.Logger)) (w w2 : P.World) (iso : ISO9660 P)
    (h : Open P isoReader opts w = (Except.ok iso, w2)) :
    ∃ s w1, openDescriptors P isoReader opts w = (Except.ok s, w1) := by
  unfold Open at h
  cases hd : openDescriptors P isoReader opts w with
  | mk r w1 =>
    cases r with
    | error e => rw [hd] at h; simp at h
    | ok s => exact ⟨s, w1, rfl⟩

/-- C21: `Open` does not propagate the errors of the walker. It returns an
error exactly when one of the steps before the walker does (System Area, boot
record, El Torito, volume descriptors), and then that error; once these steps
have succeeded it returns a handle and a nil error, whatever
`BuildFileSystemEntries` and `WalkDirectoryRecords` return: their slices go
into the handle and their errors are dropped. -/
theorem Open_drops_walker_errors (P : Packages) (isoReader : P.Reader)
    (opts : List (OpenOption P.Callback P.Logger)) (w : P.World) :
    (∀ e, (Open P isoReader opts w).1 = Except.error e ↔
      (openDescriptors P isoReader opts w).1 = Except.error e) ∧
    (∀ s w1, openDescriptors P isoReader opts w = (Except.ok s, w1) →
      ∃ iso, (Open P isoReader opts w).1 = Except.ok iso ∧
        iso.filesystemEntries =
          (processVolumeDescriptor P s.openOptions s.p s.pvd s.svds w1).1.filesystemEntries ∧
        iso.directoryRecords =
          (processVolumeDescriptor P s.openOptions s.p s.pvd s.svds w1).1.directoryRecords) := by
  constructor
  · intro e
    unfold Open
    cases hd : openDescriptors P isoReader opts w with
    | mk r w1 =>
      cases r with
      | error e1 => simp
      | ok s => simp
  · intro s w1 h
    rw [Open_of_descriptors P isoReader opts w w1 s h]
    exact ⟨_, rfl, rfl, rfl⟩

/-- C21, at a sample image whose directory tree cannot be walked: both walker
calls return the error "unreadable directory", and `Open` returns a handle
whose entry list is nil. -/
theorem Open_drops_walker_errors_witness :
    (samplePackages.BuildFileSystemEntries false 0 true []).1.2 = some "unreadable directory" ∧
    (samplePackages.WalkDirectoryRecords false 0 []).1.2 = some "unreadable directory" ∧
    ∃ iso, (Open samplePackages false [] []).1 = Except.ok iso ∧
      iso.filesystemEntries = Slice.nil ∧ iso.directoryRecords = Slice.nil :=
  ⟨rfl, rfl,
    (Open_drops_walker_errors samplePackages false [] []).2
      ⟨defaultOpenOptions samplePackages, List.replicate (2048 * 16) 0, false, (), none, (),
        [1, 2]⟩ [] rfl⟩

/-- C22: once the descriptors are read, `Open` returns a handle whose active
descriptor, and the root record handed to `BuildFileSystemEntries` and
`WalkDirectoryRecords`, is the first supplementary descriptor in the order
`GetSupplementaryVolumeDescriptors` returned them when `PreferJoliet` is set
and there is at least one; in every other case, `PreferJoliet` set with no
supplementary descriptor included, it is the primary descriptor. -/
theorem Open_active_descriptor (P : Packages) (isoReader : P.Reader)
    (opts : List (OpenOption P.Callback P.Logger)) (w w1 : P.World) (s : OpenState P)
    (h : openDescriptors P isoReader opts w = (Except.ok s, w1)) :
    ∃ iso w2, Open P isoReader opts w = (Except.ok iso, w2) ∧
      iso.openOptions = s.openOptions ∧ iso.pvd = s.pvd ∧ iso.svds = s.svds ∧
      (∀ svd0 rest, s.openOptions.PreferJoliet = true → s.svds = svd0 :: rest →
        iso.activeVD = some (VolumeDescriptor.supplementary svd0) ∧
        iso.filesystemEntries =
          (P.BuildFileSystemEntries s.p (P.supplementaryRoot svd0) false w1).1.1 ∧
        iso.directoryRecords =
          (P.WalkDirectoryRecords s.p (P.supplementaryRoot svd0)
            (P.BuildFileSystemEntries s.p (P.supplementaryRoot svd0) false w1).2).1.1) ∧
      (s.openOptions.PreferJoliet = false ∨ s.svds = [] →
        iso.activeVD = some (VolumeDescriptor.primary s.pvd) ∧
        iso.filesystemEntries =
          (P.BuildFileSystemEntries s.p (P.primaryRoot s.pvd) s.openOptions.RockRidgeEnabled
            w1).1.1 ∧
        iso.directoryRecords =
          (P.WalkDirectoryRecords s.p (P.primaryRoot s.pvd)
            (P.BuildFileSystemEntries s.p (P.primaryRoot s.pvd) s.openOptions.RockRidgeEnabled
              w1).2).1.1) := by
  refine ⟨_, _, Open_of_descriptors P isoReader opts w w1 s h, rfl, rfl, rfl, ?_, ?_⟩
  · intro svd0 rest hj hs
    simp only
    unfold processVolumeDescriptor
    rw [hj, hs]
    exact ⟨rfl, rfl, rfl⟩
  · intro hn
    simp only
    have hp : processVolumeDescriptor P s.openOptions s.p s.pvd s.svds w1 =
        (⟨(P.BuildFileSystemEntries s.p (P.primaryRoot s.pvd) s.openOptions.RockRidgeEnabled
            w1).1.1,
          (P.WalkDirectoryRecords s.p (P.primaryRoot s.pvd)
            (P.BuildFileSystemEntries s.p (P.primaryRoot s.pvd) s.openOptions.RockRidgeEnabled
              w1).2).1.1,
          VolumeDescriptor.primary s.pvd,
          (P.WalkDirectoryRecords s.p (P.primaryRoot s.pvd)
            (P.BuildFileSystemEntries s.p (P.primaryRoot s.pvd) s.openOptions.RockRidgeEnabled
              w1).2).1.2⟩,
          (P.WalkDirectoryRecords s.p (P.primaryRoot s.pvd)
            (P.BuildFileSystemEntries s.p (P.primaryRoot s.pvd) s.openOptions.RockRidgeEnabled
              w1).2).2) := by
      unfold processVolumeDescriptor
      rcases hn with hn | hn
      · rw [hn]
      · rw [hn]
        cases s.openOptions.PreferJoliet <;> rfl
    rw [hp]
    exact ⟨rfl, rfl, rfl⟩

/-- C22, at a sample image with the supplementary descriptors 1 and 2: with
`PreferJoliet` set the active descriptor is the supplementary descriptor 1 and
the entries are those of its tree; without options it is the primary
descriptor. -/
theorem Open_active_descriptor_witness :
    (∃ iso w2, Open samplePackages true [withPreferJoliet Unit Unit] [] = (Except.ok iso, w2) ∧
      iso.activeVD = some (VolumeDescriptor.supplementary 1) ∧
      iso.filesystemEntries = Slice.mk [⟨"a.txt", false, true⟩]) ∧
    (∃ iso w2, Open samplePackages true [] [] = (Except.ok iso, w2) ∧
      iso.activeVD = some (VolumeDescriptor.primary ()) ∧
      iso.filesystemEntries = Slice.mk [⟨"A.TXT", false, true⟩]) := by
  obtain ⟨iso, w2, h1, -, -, -, h2, -⟩ := Open_active_descriptor samplePackages true
    [withPreferJoliet Unit Unit] [] []
    ⟨withPreferJoliet Unit Unit (defaultOpenOptions samplePackages),
      List.replicate (2048 * 16) 0, true, (), none, (), [1, 2]⟩ rfl
  obtain ⟨iso', w2', h1', -, -, -, -, h3'⟩ := Open_active_descriptor samplePackages true
    [] [] [] ⟨defaultOpenOptions samplePackages, List.replicate (2048 * 16) 0, true, (), none, (),
      [1, 2]⟩ rfl
  exact ⟨⟨iso, w2, h1, (h2 1 [2] rfl rfl).1, (h2 1 [2] rfl rfl).2.1⟩,
    ⟨iso', w2', h1', (h3' (Or.inl rfl)).1, (h3' (Or.inl rfl)).2.1⟩⟩

/-- C23: when `Open` is called with an empty option list and returns a handle,
the options it holds are ReadOnly = true, ParseOnOpen = true, PreloadDir =
true, StripVersionInfo = true, RockRidgeEnabled = true, ElToritoEnabled =
true, PreferJoliet = false and BootFileExtractLocation = "[BOOT]". -/
theorem Open_default_options (P : Packages) (isoReader : P.Reader) (w w2 : P.World)
    (iso : ISO9660 P) (h : Open P isoReader [] w = (Except.ok iso, w2)) :
    iso.openOptions.ReadOnly = true ∧ iso.openOptions.ParseOnOpen = true ∧
    iso.openOptions.PreloadDir = true ∧ iso.openOptions.StripVersionInfo = true ∧
    iso.openOptions.RockRidgeEnabled = true ∧ iso.openOptions.ElToritoEnabled = true ∧
    iso.openOptions.PreferJoliet = false ∧
    iso.openOptions.BootFileExtractLocation = "[BOOT]" := by
  obtain ⟨s, w1, hd⟩ := descriptors_of_Open P isoReader [] w w2 iso h
  have ho := openDescriptors_openOptions P isoReader [] w w1 s hd
  rw [Open_of_descriptors P isoReader [] w w1 s hd] at h
  have hiso := (Except.ok.inj (Prod.mk.inj h).1).symm
  subst hiso
  simp only [ho, List.foldl_nil]
  exact ⟨rfl, rfl, rfl, rfl, rfl, rfl, rfl, rfl⟩

/-- C23, at a sample image. -/
theorem Open_default_options_witness :
    ∃ iso w2, Open samplePackages true [] [] = (Except.ok iso, w2) ∧
      iso.openOptions.PreferJoliet = false ∧
      iso.openOptions.BootFileExtractLocation = "[BOOT]" :=
  ⟨_, _, rfl,
    (Open_default_options samplePackages true [] _ _ rfl).2.2.2.2.2.2.1,
    (Open_default_options samplePackages true [] _ _ rfl).2.2.2.2.2.2.2⟩

/-- When the loop of `Extract` returns an error on a list of files, files after
them are not reached. -/
theorem extractLoop_append (P : Packages) (path : String) (rest : List P.FileSystemEntry) :
    ∀ (files : List P.FileSystemEntry) (deferred : List P.File) (w : P.World),
      (extractLoop P path files deferred w).1 ≠ none →
        extractLoop P path (files ++ rest) deferred w = extractLoop P path files deferred w := by
  intro files
  induction files with
  | nil =>
    intro deferred w h
    exact absurd rfl h
  | cons entry files ih =>
    intro deferred w h
    rw [List.cons_append]
    unfold extractLoop at h ⊢
    cases hf : extractFile P path entry deferred w with
    | mk err r =>
      cases r with
      | mk d w1 =>
        rw [hf] at h
        cases err with
        | some e => rfl
        | none =>
          simp only at h ⊢
          exact ih d w1 h

/-- C26 (counterexample): directories are created, then reading the first
file, DOCS/A.TXT, fails. `Extract` returns that error at once; the second file
in `ListFiles` order, DOCS/B.TXT, is not attempted: no call on the output tree
names it. -/
theorem Extract_aborts_on_read_failure :
    (CreateDirectories samplePackages (sampleImage [docsEntry, fileA, fileB]) "out" []).1 = none ∧
    (ListFiles samplePackages (sampleImage [docsEntry, fileA, fileB])).1 =
      Slice.mk [fileA, fileB] ∧
    Extract samplePackages (sampleImage [docsEntry, fileA, fileB]) "out" [] =
      (some (ExtractError.readFileData "DOCS/A.TXT" "read error"),
        ["mkdir out", "mkdir out/DOCS", "mkdir dir out/DOCS/A.TXT", "create out/DOCS/A.TXT",
          "read DOCS/A.TXT", "close out/DOCS/A.TXT"]) ∧
    (Extract samplePackages (sampleImage [docsEntry, fileB]) "out" []).2 =
      ["mkdir out", "mkdir out/DOCS", "mkdir dir out/DOCS/B.TXT", "create out/DOCS/B.TXT",
        "read DOCS/B.TXT", "write out/DOCS/B.TXT", "chmod out/DOCS/B.TXT",
        "close out/DOCS/B.TXT"] := by
  decide

/-- When `Extract` returns an error on an image, it ends the same way on
every image with the same directories and the same files followed by further
files. -/
theorem Extract_later_files (P : Packages) (iso iso' : ISO9660 P) (path : String)
    (w : P.World) (files rest : List P.FileSystemEntry)
    (hdirs : (ListDirectories P iso').1 = (ListDirectories P iso).1)
    (hfiles : (ListFiles P iso).1 = Slice.mk files)
    (hfiles' : (ListFiles P iso').1 = Slice.mk (files ++ rest))
    (herr : (Extract P iso path w).1 ≠ none) :
    Extract P iso' path w = Extract P iso path w := by
  have hcd : CreateDirectories P iso' path w = CreateDirectories P iso path w := by
    unfold CreateDirectories
    rw [ListDirectories_eq P iso', ListDirectories_eq P iso]
    rw [ListDirectories_eq P iso', ListDirectories_eq P iso] at hdirs
    simp only at hdirs
    rw [Slice.mk.injEq] at hdirs
    rw [hdirs]
  have hlf : ListFiles P iso = (Slice.mk files, none) := by
    rw [ListFiles_eq] at hfiles ⊢
    simp only at hfiles
    rw [hfiles]
  have hlf' : ListFiles P iso' = (Slice.mk (files ++ rest), none) := by
    rw [ListFiles_eq] at hfiles' ⊢
    simp only at hfiles'
    rw [hfiles']
  unfold Extract at herr ⊢
  rw [hcd, hlf']
  rw [hlf] at herr ⊢
  cases hc : CreateDirectories P iso path w with
  | mk err w1 =>
    rw [hc] at herr
    cases err with
    | some e => rfl
    | none =>
      simp only [Slice.elems] at herr ⊢
      have hne : (extractLoop P path files [] w1).1 ≠ none := by
        intro h0
        apply herr
        rw [← h0]
      rw [extractLoop_append P path rest files [] w1 hne]

/-- The loop of `Extract` on files that are extracted followed by a file for
which a step fails: it returns with the error of that file, whatever files come
after it. -/
theorem extractLoop_failing_file (P : Packages) (path : String) (entry : P.FileSystemEntry)
    (rest : List P.FileSystemEntry) (err : ExtractError P.Error) (d2 : List P.File)
    (w2 : P.World) :
    ∀ (pre : List P.FileSystemEntry) (d d1 : List P.File) (w w1 : P.World),
      extractLoop P path pre d w = (none, d1, w1) →
      extractFile P path entry d1 w1 = (some err, d2, w2) →
        extractLoop P path (pre ++ entry :: rest) d w = (some err, d2, w2) := by
  intro pre
  induction pre with
  | nil =>
    intro d d1 w w1 hpre hfile
    have hd : d1 = d := (Prod.mk.inj (Prod.mk.inj hpre).2).1.symm
    have hw : w1 = w := (Prod.mk.inj (Prod.mk.inj hpre).2).2.symm
    subst hd hw
    rw [List.nil_append]
    unfold extractLoop
    rw [hfile]
  | cons e pre ih =>
    intro d d1 w w1 hpre hfile
    rw [List.cons_append]
    unfold extractLoop at hpre ⊢
    cases hf : extractFile P path e d w with
    | mk r x =>
      cases x with
      | mk d0 w0 =>
        rw [hf] at hpre
        cases r with
        | some e0 => simp at hpre
        | none =>
          simp only at hpre ⊢
          exact ih d0 d1 w0 w1 hpre hfile

/-- The loop of `CreateDirectories` on directories that are created followed
by one that cannot be: it returns with the error of that directory, whatever
directories come after it. -/
theorem createDirectoriesLoop_failing (P : Packages) (path : String)
    (entry : P.FileSystemEntry) (rest : List P.FileSystemEntry) (err : P.Error) (w2 : P.World) :
    ∀ (pre : List P.FileSystemEntry) (w w1 : P.World),
      createDirectoriesLoop P path pre w = (none, w1) →
      P.MkdirAll (P.Join path (P.FullPath entry)) (P.Mode entry) w1 = (some err, w2) →
        createDirectoriesLoop P path (pre ++ entry :: rest) w =
          (some (ExtractError.createDirectory (P.Join path (P.FullPath entry)) err), w2) := by
  intro pre
  induction pre with
  | nil =>
    intro w w1 hpre hdir
    have hw : w1 = w := (Prod.mk.inj hpre).2.symm
    subst hw
    rw [List.nil_append]
    unfold createDirectoriesLoop
    simp only [hdir]
  | cons e pre ih =>
    intro w w1 hpre hdir
    rw [List.cons_append]
    unfold createDirectoriesLoop at hpre ⊢
    dsimp only at hpre ⊢
    cases hm : P.MkdirAll (P.Join path (P.FullPath e)) (P.Mode e) w with
    | mk r w0 =>
      rw [hm] at hpre
      cases r with
      | some e0 => simp at hpre
      | none =>
        simp only at hpre ⊢
        exact ih w0 w1 hpre hdir

/-- C26 (amended): `Extract` aborts the batch at the first failure. If
`CreateDirectories` fails, which it does as soon as the output directory or
one directory of the image cannot be created, `Extract` returns its error and
no file is attempted. Otherwise the files are taken in `ListFiles` order, and a failure of
any step for a file (creating the parent directories, creating the output
file, reading the bytes, writing them, setting the permissions, setting the
timestamps) makes the turn for that file return the error of the step wrapped
with the path; once the files before it are extracted, `Extract` returns this
error and closes the files it opened, and its result does not depend on the
files that follow: no later file is attempted. -/
theorem Extract_stops_at_first_failure (P : Packages) (iso : ISO9660 P) (path : String)
    (w : P.World) :
    (∀ e w0, CreateDirectories P iso path w = (some e, w0) →
      Extract P iso path w = (some e, w0)) ∧
    (∀ (w0 : P.World) (pre rest : List P.FileSystemEntry) (entry : P.FileSystemEntry)
      (d1 d2 : List P.File) (w1 w2 : P.World) (err : ExtractError P.Error),
      CreateDirectories P iso path w = (none, w0) →
      (ListFiles P iso).1 = Slice.mk (pre ++ entry :: rest) →
      extractLoop P path pre [] w0 = (none, d1, w1) →
      extractFile P path entry d1 w1 = (some err, d2, w2) →
        Extract P iso path w = (some err, d2.foldl (fun w f => P.Close f w) w2)) ∧
    (∀ (entry : P.FileSystemEntry) (d : List P.File) (w1 w2 : P.World) (err : P.Error),
      P.MkdirAll (P.Dir (P.Join path (P.FullPath entry))) 0o755 w1 = (some err, w2) →
        extractFile P path entry d w1 =
          (some (ExtractError.createParentDirectories (P.Join path (P.FullPath entry)) err),
            d, w2)) ∧
    (∀ (entry : P.FileSystemEntry) (d : List P.File) (w1 w2 w3 : P.World) (err : P.Error),
      P.MkdirAll (P.Dir (P.Join path (P.FullPath entry))) 0o755 w1 = (none, w2) →
      P.Create (P.Join path (P.FullPath entry)) w2 = (Except.error err, w3) →
        extractFile P path entry d w1 =
          (some (ExtractError.createFile (P.Join path (P.FullPath entry)) err), d, w3)) ∧
    (∀ (entry : P.FileSystemEntry) (d : List P.File) (w1 w2 w3 w4 : P.World) (outFile : P.File)
      (err : P.Error),
      P.MkdirAll (P.Dir (P.Join path (P.FullPath entry))) 0o755 w1 = (none, w2) →
      P.Create (P.Join path (P.FullPath entry)) w2 = (Except.ok outFile, w3) →
      P.GetBytes entry w3 = (Except.error err, w4) →
        extractFile P path entry d w1 =
          (some (ExtractError.readFileData (P.FullPath entry) err), outFile :: d, w4)) ∧
    (∀ (entry : P.FileSystemEntry) (d : List P.File) (w1 w2 w3 w4 w5 : P.World)
      (outFile : P.File) (data : List Byte) (err : P.Error),
      P.MkdirAll (P.Dir (P.Join path (P.FullPath entry))) 0o755 w1 = (none, w2) →
      P.Create (P.Join path (P.FullPath entry)) w2 = (Except.ok outFile, w3) →
      P.GetBytes entry w3 = (Except.ok data, w4) →
      P.Write outFile data w4 = (some err, w5) →
        extractFile P path entry d w1 =
          (some (ExtractError.writeFile (P.Join path (P.FullPath entry)) err),
            outFile :: d, w5)) ∧
    (∀ (entry : P.FileSystemEntry) (d : List P.File) (w1 w2 w3 w4 w5 w6 : P.World)
      (outFile : P.File) (data : List Byte) (err : P.Error),
      P.MkdirAll (P.Dir (P.Join path (P.FullPath entry))) 0o755 w1 = (none, w2) →
      P.Create (P.Join path (P.FullPath entry)) w2 = (Except.ok outFile, w3) →
      P.GetBytes entry w3 = (Except.ok data, w4) →
      P.Write outFile data w4 = (none, w5) →
      P.Chmod (P.Join path (P.FullPath entry)) (P.Mode entry) w5 = (some err, w6) →
        extractFile P path entry d w1 =
          (some (ExtractError.setPermissions (P.Join path (P.FullPath entry)) err),
            outFile :: d, w6)) ∧
    (∀ (entry : P.FileSystemEntry) (d : List P.File) (w1 w2 w3 w4 w5 w6 w7 : P.World)
      (outFile : P.File) (data : List Byte) (err : P.Error),
      P.MkdirAll (P.Dir (P.Join path (P.FullPath entry))) 0o755 w1 = (none, w2) →
      P.Create (P.Join path (P.FullPath entry)) w2 = (Except.ok outFile, w3) →
      P.GetBytes entry w3 = (Except.ok data, w4) →
      P.Write outFile data w4 = (none, w5) →
      P.Chmod (P.Join path (P.FullPath entry)) (P.Mode entry) w5 = (none, w6) →
      P.IsZero (P.ModTime entry) = false →
      P.Chtimes (P.Join path (P.FullPath entry)) (P.ModTime entry) (P.ModTime entry) w6 =
        (some err, w7) →
        extractFile P path entry d w1 =
          (some (ExtractError.setTimestamps (P.Join path (P.FullPath entry)) err),
            outFile :: d, w7)) ∧
    (∀ (iso' : ISO9660 P) (files rest : List P.FileSystemEntry),
      (ListDirectories P iso').1 = (ListDirectories P iso).1 →
      (ListFiles P iso).1 = Slice.mk files →
      (ListFiles P iso').1 = Slice.mk (files ++ rest) →
      (Extract P iso path w).1 ≠ none →
        Extract P iso' path w = Extract P iso path w) ∧
    (∀ (w0 : P.World) (err : P.Error), P.MkdirAll path 0o755 w = (some err, w0) →
      CreateDirectories P iso path w =
        (some (ExtractError.createOutputDirectory path err), w0)) ∧
    (∀ (w0 w1 w2 : P.World) (pre rest : List P.FileSystemEntry) (entry : P.FileSystemEntry)
      (err : P.Error),
      P.MkdirAll path 0o755 w = (none, w0) →
      (ListDirectories P iso).1 = Slice.mk (pre ++ entry :: rest) →
      createDirectoriesLoop P path pre w0 = (none, w1) →
      P.MkdirAll (P.Join path (P.FullPath entry)) (P.Mode entry) w1 = (some err, w2) →
        CreateDirectories P iso path w =
          (some (ExtractError.createDirectory (P.Join path (P.FullPath entry)) err), w2)) := by
  refine ⟨?_, ?_, ?_, ?_, ?_, ?_, ?_, ?_, ?_, ?_, ?_⟩
  · intro e w0 hc
    unfold Extract
    rw [hc]
  · intro w0 pre rest entry d1 d2 w1 w2 err hc hfiles hpre hfile
    have hlf : ListFiles P iso = (Slice.mk (pre ++ entry :: rest), none) := by
      rw [ListFiles_eq] at hfiles ⊢
      simp only at hfiles
      rw [hfiles]
    unfold Extract
    rw [hc, hlf]
    simp only [Slice.elems]
    rw [extractLoop_failing_file P path entry rest err d2 w2 pre [] d1 w0 w1 hpre hfile]
  · intro entry d w1 w2 err h1
    unfold extractFile
    simp only [h1]
  · intro entry d w1 w2 w3 err h1 h2
    unfold extractFile
    simp only [h1, h2]
  · intro entry d w1 w2 w3 w4 outFile err h1 h2 h3
    unfold extractFile
    simp only [h1, h2, h3]
  · intro entry d w1 w2 w3 w4 w5 outFile data err h1 h2 h3 h4
    unfold extractFile
    simp only [h1, h2, h3, h4]
  · intro entry d w1 w2 w3 w4 w5 w6 outFile data err h1 h2 h3 h4 h5
    unfold extractFile
    simp only [h1, h2, h3, h4, h5]
  · intro entry d w1 w2 w3 w4 w5 w6 w7 outFile data err h1 h2 h3 h4 h5 h6 h7
    unfold extractFile
    simp only [h1, h2, h3, h4, h5, h6, h7, Bool.not_false, if_true]
  · intro iso' files rest hdirs hfiles hfiles' herr
    exact Extract_later_files P iso iso' path w files rest hdirs hfiles hfiles' herr
  · intro w0 err hm
    unfold CreateDirectories
    simp only [hm]
  · intro w0 w1 w2 pre rest entry err hm hdirs hpre hdir
    have hld : ListDirectories P iso = (Slice.mk (pre ++ entry :: rest), none) := by
      rw [ListDirectories_eq] at hdirs ⊢
      simp only at hdirs
      rw [hdirs]
    unfold CreateDirectories
    rw [hm, hld]
    simp only [Slice.elems]
    exact createDirectoriesLoop_failing P path entry rest err w2 pre w0 w1 hpre hdir

/-- C26, at two sample images. On the first, DOCS/A.TXT cannot be read: the
turn for it returns the read error and `Extract` returns it, with DOCS/B.TXT
after it in the list. On the second, no file can be created: `Extract` returns
the error of `Create` for the first file. -/
theorem Extract_stops_at_first_failure_witness :
    Extract samplePackages (sampleImage [docsEntry, fileA, fileB]) "out" [] =
      (some (ExtractError.readFileData "DOCS/A.TXT" "read error"),
        ["mkdir out", "mkdir out/DOCS", "mkdir dir out/DOCS/A.TXT", "create out/DOCS/A.TXT",
          "read DOCS/A.TXT", "close out/DOCS/A.TXT"]) ∧
    Extract lockedPackages (lockedImage [docsEntry, fileB, fileA]) "out" [] =
      (some (ExtractError.createFile "out/DOCS/B.TXT" "permission denied"),
        ["mkdir out", "mkdir out/DOCS", "mkdir dir out/DOCS/B.TXT", "create out/DOCS/B.TXT"]) :=
  ⟨(Extract_stops_at_first_failure samplePackages (sampleImage [docsEntry, fileA, fileB])
      "out" []).2.1 ["mkdir out", "mkdir out/DOCS"] [] [fileB] fileA [] ["out/DOCS/A.TXT"]
      ["mkdir out", "mkdir out/DOCS"]
      ["mkdir out", "mkdir out/DOCS", "mkdir dir out/DOCS/A.TXT", "create out/DOCS/A.TXT",
        "read DOCS/A.TXT"]
      (ExtractError.readFileData "DOCS/A.TXT" "read error") (by decide) (by decide) (by decide)
      ((Extract_stops_at_first_failure samplePackages (sampleImage [docsEntry, fileA, fileB])
        "out" []).2.2.2.2.1 fileA [] ["mkdir out", "mkdir out/DOCS"]
        ["mkdir out", "mkdir out/DOCS", "mkdir dir out/DOCS/A.TXT"]
        ["mkdir out", "mkdir out/DOCS", "mkdir dir out/DOCS/A.TXT", "create out/DOCS/A.TXT"]
        ["mkdir out", "mkdir out/DOCS", "mkdir dir out/DOCS/A.TXT", "create out/DOCS/A.TXT",
          "read DOCS/A.TXT"]
        "out/DOCS/A.TXT" "read error" (by decide) (by decide) (by decide)),
    (Extract_stops_at_first_failure lockedPackages (lockedImage [docsEntry, fileB, fileA])
      "out" []).2.1 ["mkdir out", "mkdir out/DOCS"] [] [fileA] fileB [] []
      ["mkdir out", "mkdir out/DOCS"]
      ["mkdir out", "mkdir out/DOCS", "mkdir dir out/DOCS/B.TXT", "create out/DOCS/B.TXT"]
      (ExtractError.createFile "out/DOCS/B.TXT" "permission denied") (by decide) (by decide)
      (by decide)
      ((Extract_stops_at_first_failure lockedPackages (lockedImage [docsEntry, fileB, fileA])
        "out" []).2.2.2.1 fileB [] ["mkdir out", "mkdir out/DOCS"]
        ["mkdir out", "mkdir out/DOCS", "mkdir dir out/DOCS/B.TXT"]
        ["mkdir out", "mkdir out/DOCS", "mkdir dir out/DOCS/B.TXT", "create out/DOCS/B.TXT"]
        "permission denied" (by decide) (by decide))⟩

/-! ### Windows that end with the record -/

/-- A window that ends right after the identifier and its padding byte is
accepted when the Joliet flag is off, and decoded into `exactRecord`: the
system-use start is the end of the window, so no System Use Area is read. -/
theorem Unmarshal_exact_window (S : SuspPackage) (dr : DirectoryRecord S) (data : List Byte)
    (hJ : dr.Joliet = false) (hL : byteAt data 32 ≤ 221)
    (hlen : data.length = 33 + byteAt data 32 + (if byteAt data 32 % 2 = 0 then 1 else 0)) :
    Unmarshal S dr data = (exactRecord dr data, Outcome.nil) := by
  have h33 : 33 ≤ data.length := by omega
  have hfit : 33 + byteAt data 32 ≤ data.length := by omega
  have hLd : (decodedHeader dr data).FileIdentifierLength = byteAt data 32 := rfl
  have hJd : (decodedHeader dr data).Joliet = false := hJ
  rw [Unmarshal_eq S dr data h33,
    unmarshalIdentifier_eq S _ data (by rw [hLd]; omega) (by rw [hLd]; exact hfit),
    if_neg (by rw [hJd]; simp), unmarshalPadding_eq S _ data (by show byteAt data 32 ≤ 222; omega)]
  show (if byteAt data 32 % 2 = 0 then
      if 33 + byteAt data 32 ≥ data.length then _ else _ else _) = _
  by_cases hev : byteAt data 32 % 2 = 0
  · rw [if_pos hev] at hlen
    rw [if_pos hev, if_neg (by omega),
      unmarshalSystemUse_at_end S _ data _ (by show (34 + byteAt data 32) % 256 = _; omega)]
    unfold exactRecord
    rw [if_pos hev]
    rfl
  · rw [if_neg hev] at hlen
    rw [if_neg hev, unmarshalSystemUse_at_end S _ data _ (by show 33 + byteAt data 32 = _; omega)]
    unfold exactRecord
    rw [if_neg hev]
    rfl

theorem arraySlice_getD (data : List Byte) (lo hi i : Nat) (h : lo + i < hi) :
    (arraySlice data lo hi).getD i 0 = data.getD (lo + i) 0 := by
  unfold arraySlice
  rw [List.getD_eq_getElem?_getD, List.getD_eq_getElem?_getD, List.getElem?_drop,
    List.getElem?_take, if_pos h]

/-- C31: for every 2048-byte sector on which `PrimaryVolumeDescriptor.Unmarshal`
returns nil, the identifier length of the root record (sector byte 188) is 0
or 1, and the root record is decoded from the 34 bytes at offsets 156..189
alone: header fields, identifier and padding byte. Its System Use Area is
empty and none of its SUSP and Rock Ridge fields is set: the SUSP decoder,
which is the only code that is handed the image source, is not called. -/
theorem PrimaryVolumeDescriptor_Unmarshal_root_record (S : SuspPackage)
    (D : DirectoryPackage S) (N : EncodingPackage) (pvd p : PrimaryVolumeDescriptor S D)
    (data : List Byte) (hlen : data.length = 2048)
    (h : PrimaryVolumeDescriptor.Unmarshal N pvd data = (p, DescriptorOutcome.nil)) :
    (byteAt data 188 = 0 ∨ byteAt data 188 = 1) ∧
    IsoKit.Unmarshal S (NewRecord S) ((data.take 190).drop 156) =
      (exactRecord (NewRecord S) ((data.take 190).drop 156), Outcome.nil) ∧
    p.RootDirectoryEntry =
      some (D.NewEntry (exactRecord (NewRecord S) ((data.take 190).drop 156)) pvd.useRR) ∧
    (exactRecord (NewRecord S) ((data.take 190).drop 156)).FileIdentifierLength =
      byteAt data 188 ∧
    (exactRecord (NewRecord S) ((data.take 190).drop 156)).SystemUse = [] ∧
    (exactRecord (NewRecord S) ((data.take 190).drop 156)).SystemUseEntries = none ∧
    (exactRecord (NewRecord S) ((data.take 190).drop 156)).ExtensionRecords = [] ∧
    (exactRecord (NewRecord S) ((data.take 190).drop 156)).hasRockRidge = false ∧
    (exactRecord (NewRecord S) ((data.take 190).drop 156)).rockRidgeName = none ∧
    (exactRecord (NewRecord S) ((data.take 190).drop 156)).rockRidgePermissions = none ∧
    (exactRecord (NewRecord S) ((data.take 190).drop 156)).rockRidgeTimestamps = none := by
  have hnil : (PrimaryVolumeDescriptor.Unmarshal N pvd data).2 = DescriptorOutcome.nil := by
    rw [h]
  have hs := (PrimaryVolumeDescriptor.succeeds_of_Unmarshal_nil N pvd data hnil).1
  have hw : (arraySlice data 156 190).length = 34 := arraySlice_length data 156 190 (by omega)
  have hb : byteAt (arraySlice data 156 190) 32 = byteAt data 188 := by
    unfold byteAt
    rw [arraySlice_getD data 156 190 32 (by omega)]
  obtain ⟨-, -, hfit⟩ := Unmarshal_accepted_bounds S (NewRecord S) _ hs
  rw [hw, hb] at hfit
  have hex : IsoKit.Unmarshal S (NewRecord S) (arraySlice data 156 190) =
      (exactRecord (NewRecord S) (arraySlice data 156 190), Outcome.nil) := by
    apply Unmarshal_exact_window S (NewRecord S) _ rfl (by rw [hb]; omega)
    rw [hw, hb]
    split <;> omega
  have hp := PrimaryVolumeDescriptor.Unmarshal_nil_decoded N pvd data hnil
  rw [h] at hp
  simp only at hp
  have hroot : p.RootDirectoryEntry = some (D.NewEntry
      (IsoKit.Unmarshal S (NewRecord S) (arraySlice data 156 190)).1 pvd.useRR) := by
    rw [hp]
    rfl
  rw [hex] at hroot
  exact ⟨by omega, hex, hroot, hb, rfl, rfl, rfl, rfl, rfl, rfl, rfl⟩

/-- C31, at the sample sector: byte 188 is 1 and the root identifier is the
byte 0x00. -/
theorem PrimaryVolumeDescriptor_Unmarshal_root_record_witness :
    primarySector.length = 2048 ∧
    (PrimaryVolumeDescriptor.Unmarshal specEncoding
      (zeroPrimaryVolumeDescriptor nullSusp nullDirectory false) primarySector).2 =
        DescriptorOutcome.nil ∧
    (byteAt primarySector 188 = 0 ∨ byteAt primarySector 188 = 1) ∧
    (exactRecord (NewRecord nullSusp) ((primarySector.take 190).drop 156)).FileIdentifier =
      [0x00] :=
  ⟨primarySector_length, by decide,
    (PrimaryVolumeDescriptor_Unmarshal_root_record nullSusp nullDirectory specEncoding
      (zeroPrimaryVolumeDescriptor nullSusp nullDirectory false) _ primarySector
      primarySector_length (Prod.ext rfl (by decide))).1, by decide⟩

/-- C33: for every identifier of at most 221 bytes, a window of exactly the
length `computeLength` sets for it, whose byte 32 is the identifier length, is
accepted by `Unmarshal` on a fresh record with the Joliet flag off. The
identifier has that many bytes, the padding byte is present exactly when the
length is even, the System Use Area is empty and the SUSP decoder is not
called: the system-use start, 33 plus the identifier and the padding, is the
length of the window. -/
theorem Unmarshal_accepts_computeLength_window (S : SuspPackage) (id data : List Byte)
    (hid : id.length ≤ 221)
    (hlen : data.length =
      (computeLength S { zeroRecord S false with FileIdentifier := id }).LengthOfDirectoryRecord)
    (h32 : byteAt data 32 = id.length) :
    (Unmarshal S (zeroRecord S false) data).2 = Outcome.nil ∧
    (Unmarshal S (zeroRecord S false) data).1.FileIdentifier =
      (data.take (33 + id.length)).drop 33 ∧
    (Unmarshal S (zeroRecord S false) data).1.FileIdentifier.length = id.length ∧
    (Unmarshal S (zeroRecord S false) data).1.PaddingField =
      (if id.length % 2 = 0 then [data.getD (33 + id.length) 0] else []) ∧
    ((Unmarshal S (zeroRecord S false) data).1.PaddingField.length = 1 ↔ id.length % 2 = 0) ∧
    (Unmarshal S (zeroRecord S false) data).1.SystemUse = [] ∧
    (Unmarshal S (zeroRecord S false) data).1.SystemUseEntries = none ∧
    33 + (Unmarshal S (zeroRecord S false) data).1.FileIdentifier.length
      + (Unmarshal S (zeroRecord S false) data).1.PaddingField.length = data.length := by
  have hc : (computeLength S
      { zeroRecord S false with FileIdentifier := id }).LengthOfDirectoryRecord =
      (if id.length % 2 = 0 then 33 + id.length + 1 else 33 + id.length) % 256 := rfl
  rw [hc] at hlen
  have hlen' : data.length = 33 + byteAt data 32 + (if byteAt data 32 % 2 = 0 then 1 else 0) := by
    rw [hlen, h32]
    split <;> omega
  have hU := Unmarshal_exact_window S (zeroRecord S false) data rfl (by omega) hlen'
  have hfl : ((data.take (33 + id.length)).drop 33).length = id.length := by
    rw [List.length_drop, List.length_take]
    rw [h32] at hlen'
    split at hlen' <;> omega
  have hfi : (exactRecord (zeroRecord S false) data).FileIdentifier =
      (data.take (33 + id.length)).drop 33 := by
    show (data.take (33 + byteAt data 32)).drop 33 = _
    rw [h32]
  have hpf : (exactRecord (zeroRecord S false) data).PaddingField =
      (if id.length % 2 = 0 then [data.getD (33 + id.length) 0] else []) := by
    show (if byteAt data 32 % 2 = 0 then [data.getD (33 + byteAt data 32) 0] else []) = _
    rw [h32]
  have c2 : (Unmarshal S (zeroRecord S false) data).1.FileIdentifier =
      (data.take (33 + id.length)).drop 33 :=
    (congrArg (fun x => x.1.FileIdentifier) hU).trans hfi
  have c3 : (Unmarshal S (zeroRecord S false) data).1.FileIdentifier.length = id.length :=
    (congrArg List.length c2).trans hfl
  have c4 : (Unmarshal S (zeroRecord S false) data).1.PaddingField =
      (if id.length % 2 = 0 then [data.getD (33 + id.length) 0] else []) :=
    (congrArg (fun x => x.1.PaddingField) hU).trans hpf
  have c5 : (Unmarshal S (zeroRecord S false) data).1.PaddingField.length =
      (if id.length % 2 = 0 then 1 else 0) := by
    rw [c4]
    split <;> rfl
  refine ⟨congrArg Prod.snd hU, c2, c3, c4, ?_, (congrArg (fun x => x.1.SystemUse) hU).trans rfl,
    (congrArg (fun x => x.1.SystemUseEntries) hU).trans rfl, ?_⟩
  · rw [c5]
    split <;> simp [*]
  · rw [c3, c5, hlen', h32]

/-- C33, at the identifier "A.TXT;1": `computeLength` gives 40, and the
40-byte window is decoded into that identifier with no padding byte. -/
theorem Unmarshal_accepts_computeLength_window_witness :
    shortIdentifierRecord.FileIdentifier.length ≤ 221 ∧
    (computeLength nullSusp shortIdentifierRecord).LengthOfDirectoryRecord = 40 ∧
    (Unmarshal nullSusp (zeroRecord nullSusp false) builtWindow).2 = Outcome.nil ∧
    (Unmarshal nullSusp (zeroRecord nullSusp false) builtWindow).1.FileIdentifier =
      shortIdentifierRecord.FileIdentifier :=
  ⟨by decide, by decide,
    (Unmarshal_accepts_computeLength_window nullSusp shortIdentifierRecord.FileIdentifier
      builtWindow (by decide) (by decide) (by decide)).1,
    ((Unmarshal_accepts_computeLength_window nullSusp shortIdentifierRecord.FileIdentifier
      builtWindow (by decide) (by decide) (by decide)).2.1).trans (by decide)⟩

/-! ### Decoded Joliet names -/

theorem trimNullPadding_getLast (s : List Byte) : (trimNullPadding s).getLast? ≠ some 0 := by
  rw [trimNullPadding_eq, List.getLast?_reverse]
  intro h
  have hd := List.head?_dropWhile_not (fun b : Byte => decide (b = 0)) s.reverse
  rw [h] at hd
  simp at hd

theorem forbiddenRune_false (r : Nat) (h : forbiddenRune r = false) :
    0x1F < r ∧ r ≠ 0x2A ∧ r ≠ 0x2F ∧ r ≠ 0x3A ∧ r ≠ 0x3B ∧ r ≠ 0x3F ∧ r ≠ 0x5C := by
  unfold forbiddenRune at h
  rw [decide_eq_false_iff_not] at h
  omega

/-- C32: for every input on which `DecodeJolietName` succeeds, no code point
of the returned name is at most 0x1F or one of '*', '/', ':', ';', '?', '\\';
in particular the name does not end in U+0000, as code points and as bytes. -/
theorem DecodeJolietName_name_clean (data name : List Byte)
    (h : DecodeJolietName data = Except.ok name) :
    (∀ r ∈ stringRunes name,
      0x1F < r ∧ r ≠ 0x2A ∧ r ≠ 0x2F ∧ r ≠ 0x3A ∧ r ≠ 0x3B ∧ r ≠ 0x3F ∧ r ≠ 0x5C) ∧
    (stringRunes name).getLast? ≠ some 0 ∧ name.getLast? ≠ some 0 := by
  have key : (∀ r ∈ stringRunes name, forbiddenRune r = false) ∧ name.getLast? ≠ some 0 := by
    match data, h with
    | [], h =>
      have hn : name = [] := (Except.ok.inj h).symm
      subst hn
      exact ⟨fun r hr => by simp [stringRunes, stringRunesLoop] at hr, by simp⟩
    | [b], h =>
      unfold DecodeJolietName at h
      simp only at h
      split_ifs at h with h0 h1
      · have hn : name = [0x2E] := (Except.ok.inj h).symm
        subst hn
        have hs : stringRunes [(0x2E : Byte)] = [0x2E] := by decide
        rw [hs]
        exact ⟨fun r hr => by rw [List.mem_singleton] at hr; subst hr; decide, by decide⟩
      · have hn : name = [0x2E, 0x2E] := (Except.ok.inj h).symm
        subst hn
        have hs : stringRunes [(0x2E : Byte), 0x2E] = [0x2E, 0x2E] := by decide
        rw [hs]
        refine ⟨fun r hr => ?_, by decide⟩
        have hr' : r = 0x2E := by simpa using hr
        subst hr'
        decide
    | b0 :: b1 :: rest, h =>
      by_cases heven : (b0 :: b1 :: rest).length % 2 = 0
      · rw [DecodeJolietName_even _ heven (by simp)] at h
        have hvalid : ∀ r ∈ trimNullRunes (utf16Decode (readUint16sBE (b0 :: b1 :: rest))),
            validRune r := by
          intro r hr
          exact utf16Decode_valid _ _ (Nat.le_refl _)
            (readUint16sBE_lt (b0 :: b1 :: rest) _ (Nat.le_refl _)) r
            (trimNullRunes_sublist _ r hr)
        cases hfind : (trimNullRunes (utf16Decode (readUint16sBE (b0 :: b1 :: rest)))).find?
            (fun r => forbiddenRune r) with
        | some r => rw [hfind] at h; cases h
        | none =>
          rw [hfind] at h
          have hn := (Except.ok.inj h).symm
          subst hn
          rw [stringRunes_runesToString _ hvalid]
          refine ⟨fun r hr => ?_, ?_⟩
          · have := List.find?_eq_none.mp hfind r hr
            simpa using this
          · rw [← trimNullPadding_runesToString]
            exact trimNullPadding_getLast _
      · unfold DecodeJolietName at h
        simp only at h
        rw [if_pos heven] at h
        cases h
  refine ⟨fun r hr => forbiddenRune_false r (key.1 r hr), ?_, key.2⟩
  intro hl
  have hmem : 0 ∈ stringRunes name := List.mem_of_getLast?_eq_some hl
  have := (forbiddenRune_false 0 (key.1 0 hmem)).1
  omega

/-- C32, at the UCS-2BE bytes of "Résumé.pdf" followed by a unit 0x0000: the
padding is trimmed and the name is "Résumé.pdf". -/
theorem DecodeJolietName_name_clean_witness :
    DecodeJolietName (resumeBytes ++ [0x00, 0x00]) = Except.ok (runesToString resumeName) ∧
    (runesToString resumeName).getLast? ≠ some 0 :=
  ⟨by decide,
    (DecodeJolietName_name_clean (resumeBytes ++ [0x00, 0x00]) (runesToString resumeName)
      (by decide)).2.2⟩

/-! ### Lengths, options, listings -/

/-- C34: for every file identifier, of any length, the
`LengthOfDirectoryRecord` that `computeLength` sets is an even number below
256, also when the 8-bit field wraps. -/
theorem computeLength_even (S : SuspPackage) (dr : DirectoryRecord S) :
    (computeLength S dr).LengthOfDirectoryRecord % 2 = 0 ∧
    (computeLength S dr).LengthOfDirectoryRecord < 256 := by
  have h : (computeLength S dr).LengthOfDirectoryRecord =
      (if dr.FileIdentifier.length % 2 = 0 then 33 + dr.FileIdentifier.length + 1
        else 33 + dr.FileIdentifier.length) % 256 := rfl
  rw [h]
  split <;> omega

theorem OptionCall.option_comm {C L : Type} (c d : OptionCall C L) (o : OpenOptions C L)
    (h : c.field ≠ d.field) : c.option (d.option o) = d.option (c.option o) := by
  cases c <;> cases d <;> first
    | rfl
    | exact absurd rfl h

theorem OptionCall.option_last {C L : Type} (c d : OptionCall C L) (o : OpenOptions C L)
    (h : c.field = d.field) : c.option (d.option o) = c.option o := by
  cases c <;> cases d <;> first
    | rfl
    | (simp [OptionCall.field] at h)

theorem OptionCall.holds_option {C L : Type} (c : OptionCall C L) (o : OpenOptions C L) :
    c.holds (c.option o) := by
  cases c <;> rfl

theorem OptionCall.holds_frame {C L : Type} (c d : OptionCall C L) (o : OpenOptions C L)
    (h : d.field ≠ c.field) : c.holds (d.option o) ↔ c.holds o := by
  cases c <;> cases d <;> first
    | exact Iff.rfl
    | exact absurd rfl h

theorem applyCalls_append {C L : Type} (a b : List (OptionCall C L)) (o : OpenOptions C L) :
    applyCalls (a ++ b) o = applyCalls b (applyCalls a o) := by
  unfold applyCalls
  rw [List.map_append, List.foldl_append]

theorem applyCalls_cons {C L : Type} (c : OptionCall C L) (b : List (OptionCall C L))
    (o : OpenOptions C L) : applyCalls (c :: b) o = applyCalls b (c.option o) := rfl

/-- Calls for other fields keep what a field holds. -/
theorem holds_applyCalls {C L : Type} (c : OptionCall C L) :
    ∀ (rest : List (OptionCall C L)) (o : OpenOptions C L),
      (∀ d ∈ rest, d.field ≠ c.field) → c.holds o → c.holds (applyCalls rest o) := by
  intro rest
  induction rest with
  | nil => intro o _ h; exact h
  | cons d rest ih =>
    intro o hd h
    rw [applyCalls_cons]
    exact ih _ (fun e he => hd e (List.mem_cons_of_mem _ he))
      ((OptionCall.holds_frame c d o (hd d (List.mem_cons_self _ _))).mpr h)

/-- C35: each open-option constructor sets its own field to the given
argument and leaves every other field as it was (putting the old value back
gives the old options). Hence two constructor calls for different fields
commute; of two calls for the same field the one applied last wins; and after
the loop of `Open` over any list of calls, a field holds the argument of the
last call for it. -/
theorem OpenOption_constructors {C L : Type} (o : OpenOptions C L) :
    (∀ callback : C, (WithExtractionProgress callback o).ExtractionProgressCallback = callback ∧
      { WithExtractionProgress callback o with
        ExtractionProgressCallback := o.ExtractionProgressCallback } = o) ∧
    (∀ location : String,
      ((WithBootFileExtractLocation location : OpenOption C L) o).BootFileExtractLocation
        = location ∧
      { (WithBootFileExtractLocation location : OpenOption C L) o with
        BootFileExtractLocation := o.BootFileExtractLocation } = o) ∧
    (∀ logger : L, ((WithLogger logger : OpenOption C L) o).Logger = logger ∧
      { (WithLogger logger : OpenOption C L) o with Logger := o.Logger } = o) ∧
    (∀ b : Bool, ((WithParseOnOpen b : OpenOption C L) o).ParseOnOpen = b ∧
      { (WithParseOnOpen b : OpenOption C L) o with ParseOnOpen := o.ParseOnOpen } = o) ∧
    (∀ b : Bool, ((WithReadOnly b : OpenOption C L) o).ReadOnly = b ∧
      { (WithReadOnly b : OpenOption C L) o with ReadOnly := o.ReadOnly } = o) ∧
    (∀ b : Bool, ((WithPreloadDir b : OpenOption C L) o).PreloadDir = b ∧
      { (WithPreloadDir b : OpenOption C L) o with PreloadDir := o.PreloadDir } = o) ∧
    (∀ b : Bool, ((WithStripVersionInfo b : OpenOption C L) o).StripVersionInfo = b ∧
      { (WithStripVersionInfo b : OpenOption C L) o with
        StripVersionInfo := o.StripVersionInfo } = o) ∧
    (∀ b : Bool, ((WithPreferEnhancedVolumes b : OpenOption C L) o).PreferEnhancedVolumes = b ∧
      { (WithPreferEnhancedVolumes b : OpenOption C L) o with
        PreferEnhancedVolumes := o.PreferEnhancedVolumes } = o) ∧
    (∀ c d : OptionCall C L, c.field ≠ d.field →
      c.option (d.option o) = d.option (c.option o)) ∧
    (∀ c d : OptionCall C L, c.field = d.field → c.option (d.option o) = c.option o) ∧
    (∀ (calls rest : List (OptionCall C L)) (c : OptionCall C L),
      (∀ d ∈ rest, d.field ≠ c.field) → c.holds (applyCalls (calls ++ c :: rest) o)) := by
  refine ⟨fun _ => ⟨rfl, rfl⟩, fun _ => ⟨rfl, rfl⟩, fun _ => ⟨rfl, rfl⟩, fun _ => ⟨rfl, rfl⟩,
    fun _ => ⟨rfl, rfl⟩, fun _ => ⟨rfl, rfl⟩, fun _ => ⟨rfl, rfl⟩, fun _ => ⟨rfl, rfl⟩,
    fun c d h => OptionCall.option_comm c d o h, fun c d h => OptionCall.option_last c d o h, ?_⟩
  intro calls rest c hrest
  rw [applyCalls_append, applyCalls_cons]
  exact holds_applyCalls c rest _ hrest (OptionCall.holds_option c _)

/-- C35, at the calls WithReadOnly(false), WithParseOnOpen(true),
WithReadOnly(true) in this order: ReadOnly ends true, ParseOnOpen true. -/
theorem OpenOption_constructors_witness :
    (applyCalls [OptionCall.readOnly false, OptionCall.parseOnOpen true,
      OptionCall.readOnly true] blankOptions).ReadOnly = true ∧
    (applyCalls [OptionCall.readOnly false, OptionCall.parseOnOpen true,
      OptionCall.readOnly true] blankOptions).ParseOnOpen = true :=
  ⟨(OpenOption_constructors blankOptions).2.2.2.2.2.2.2.2.2.2
      [OptionCall.readOnly false, OptionCall.parseOnOpen true] [] (OptionCall.readOnly true)
      (fun _ hd => absurd hd (List.not_mem_nil _)),
    (OpenOption_constructors blankOptions).2.2.2.2.2.2.2.2.2.2
      [OptionCall.readOnly false] [OptionCall.readOnly true] (OptionCall.parseOnOpen true)
      (fun d hd => by rw [List.mem_singleton.mp hd]; decide)⟩

/-- C36: `ListFiles` and `ListDirectories` partition the entry list of the
image: the two results together are a rearrangement of the entry list (each
entry as many times as there), no entry is in both, every entry is in one of
them, and the lengths add up to the number of entries. -/
theorem ListFiles_ListDirectories_partition (P : Packages) (iso : ISO9660 P) :
    List.Perm ((ListFiles P iso).1.elems ++ (ListDirectories P iso).1.elems)
      iso.filesystemEntries.elems ∧
    (∀ e, ¬ (e ∈ (ListFiles P iso).1.elems ∧ e ∈ (ListDirectories P iso).1.elems)) ∧
    (∀ e ∈ iso.filesystemEntries.elems,
      e ∈ (ListFiles P iso).1.elems ∨ e ∈ (ListDirectories P iso).1.elems) ∧
    (∀ p : P.FileSystemEntry → Bool,
      (ListFiles P iso).1.elems.countP p + (ListDirectories P iso).1.elems.countP p =
        iso.filesystemEntries.elems.countP p) ∧
    (ListFiles P iso).1.elems.length + (ListDirectories P iso).1.elems.length =
      iso.filesystemEntries.elems.length := by
  rw [ListFiles_eq, ListDirectories_eq]
  simp only [Slice.elems]
  have hperm : List.Perm
      (iso.filesystemEntries.elems.filter (fun e => !P.IsDir e) ++
        iso.filesystemEntries.elems.filter (fun e => P.IsDir e))
      iso.filesystemEntries.elems := by
    have h := List.filter_append_perm (fun e => !P.IsDir e) iso.filesystemEntries.elems
    simpa using h
  refine ⟨hperm, ?_, ?_, ?_, ?_⟩
  · intro e he
    have h1 := (List.mem_filter.mp he.1).2
    have h2 := (List.mem_filter.mp he.2).2
    simp [h2] at h1
  · intro e he
    by_cases hd : P.IsDir e = true
    · exact Or.inr (List.mem_filter.mpr ⟨he, hd⟩)
    · exact Or.inl (List.mem_filter.mpr ⟨he, by simpa using hd⟩)
  · intro p
    rw [← List.countP_append]
    exact hperm.countP_eq p
  · rw [← List.length_append]
    exact hperm.length_eq

/-- C36, at an image with the entries DOCS, DOCS/A.TXT, DOCS/B.TXT: two files
and one directory. -/
theorem ListFiles_ListDirectories_partition_witness :
    docsEntry ∈ (sampleImage [docsEntry, fileA, fileB]).filesystemEntries.elems ∧
    (docsEntry ∈ (ListFiles samplePackages (sampleImage [docsEntry, fileA, fileB])).1.elems ∨
      docsEntry ∈
        (ListDirectories samplePackages (sampleImage [docsEntry, fileA, fileB])).1.elems) ∧
    (ListFiles samplePackages (sampleImage [docsEntry, fileA, fileB])).1.elems.length = 2 ∧
    (ListDirectories samplePackages (sampleImage [docsEntry, fileA, fileB])).1.elems.length = 1 :=
  ⟨by decide,
    (ListFiles_ListDirectories_partition samplePackages
      (sampleImage [docsEntry, fileA, fileB])).2.2.1 docsEntry (by decide),
    by decide, by decide⟩

end IsoKit
